import Mathlib

/-!
Kairos: Mech Frontier.  Weapon system, projection, collision resolver and
projectile and damage simulation.

A shallow embedding of `src/public/main.js`.

Conventions of the embedding.

* JavaScript numbers that hold coordinates, damage, speeds and angles are
  elements of an arbitrary linearly ordered field `α` (exact arithmetic; the
  definitions run at `α = ℚ`).  Counters that the program only ever
  increments or decrements by one (ammo, cooldown) are `Int`; array lengths
  and loop counts are `Nat`.
* `Math.sin`, `Math.cos`, `Math.sqrt` are platform functions and are passed
  in as a `JSMath` record.  `Math.random()` is passed in as the sequence of
  values it returns during the call.
* Object identity (`===`) is an allocation number `id` carried by every
  object.  The mutable globals form a `World`: objects live in a store
  addressed by identity and the arrays hold identities.  An uncaught
  `TypeError` is recorded in the flag `crashed`.
* A method that mutates `this` returns the new object state next to its
  result.  A function that mutates an argument (`canMoveTo` writes `pos.y`)
  returns the final value of that argument next to its result.
-/

namespace Kairos

/-! ## Spatial helpers -/

/-- Three numbers `{x, y, z}`. -/
structure Vec3 (α : Type) where
  x : α
  y : α
  z : α
deriving DecidableEq

/-- Platform functions of the JavaScript `Math` object used by the program. -/
structure JSMath (α : Type) where
  sin : α → α
  cos : α → α
  sqrt : α → α
  floor : α → Int
  PI : α

section Defs

variable {α : Type} [LinearOrderedField α]

/-- Source: `function vec3(x=0,y=0,z=0){return {x,y,z};}`. -/
def vec3 (x : α := 0) (y : α := 0) (z : α := 0) : Vec3 α := ⟨x, y, z⟩

/-- Source: `add3`. -/
def add3 (a b : Vec3 α) : Vec3 α := ⟨a.x + b.x, a.y + b.y, a.z + b.z⟩

/-- Source: `sub3`. -/
def sub3 (a b : Vec3 α) : Vec3 α := ⟨a.x - b.x, a.y - b.y, a.z - b.z⟩

/-- Source: `mul3`. -/
def mul3 (a : Vec3 α) (s : α) : Vec3 α := ⟨a.x * s, a.y * s, a.z * s⟩

/-- Source: `dot3`. -/
def dot3 (a b : Vec3 α) : α := a.x * b.x + a.y * b.y + a.z * b.z

/-- Source: `rotateY(v, angle)`. -/
def rotateY (m : JSMath α) (v : Vec3 α) (angle : α) : Vec3 α :=
  let s := m.sin angle
  let c := m.cos angle
  ⟨v.x * c + v.z * s, v.y, -v.x * s + v.z * c⟩

/-- Source: `rotateX(v, a)`. -/
def rotateX (m : JSMath α) (v : Vec3 α) (a : α) : Vec3 α :=
  let s := m.sin a
  let c := m.cos a
  ⟨v.x, v.y * c - v.z * s, v.y * s + v.z * c⟩

/-- Source: `length3(v)`. -/
def length3 (m : JSMath α) (v : Vec3 α) : α := m.sqrt (dot3 v v)

/-- Source: `normalize3(v)`. -/
def normalize3 (m : JSMath α) (v : Vec3 α) : Vec3 α :=
  let l := length3 m v
  if l = 0 then vec3 else ⟨v.x / l, v.y / l, v.z / l⟩

/-- A division that reports a zero divisor: `none` when `b = 0`. -/
def checkedDiv (a b : α) : Option α :=
  if b = 0 then none else some (a / b)

/-- The computation of `normalize3(v)` with each of its divisions checked:
`none` as soon as one of them has divisor `0`. -/
def normalize3Checked (m : JSMath α) (v : Vec3 α) : Option (Vec3 α) :=
  let l := length3 m v
  if l = 0 then some vec3
  else
    match checkedDiv v.x l, checkedDiv v.y l, checkedDiv v.z l with
    | some x, some y, some z => some ⟨x, y, z⟩
    | _, _, _ => none

/-- Source: `projectPoint(p, fov, width, height)`; `none` is `null`. -/
def projectPoint (p : Vec3 α) (fov width height : α) : Option (Vec3 α) :=
  if p.z ≤ 0 then none
  else
    let f := fov
    let x := (p.x * f / p.z) + width / 2
    let y := (-p.y * f / p.z) + height / 2
    some ⟨x, y, p.z⟩

/-- A path command issued to the canvas context. -/
inductive DrawCmd (α : Type) where
  | moveTo (x y : α)
  | lineTo (x y : α)
deriving DecidableEq

/-- The fraction `t = -v1.z / (v2.z - v1.z)` computed by `clipAndDrawLine`. -/
def clipFraction (v1 v2 : Vec3 α) : α := -v1.z / (v2.z - v1.z)

/-- The object `intersect` built by `clipAndDrawLine`: the camera-space
`x` and `y` at fraction `t` of the edge, scaled by `fov / 0.1`. -/
def clipIntersect (v1 v2 : Vec3 α) (w h fov : α) : α × α :=
  let t := clipFraction v1 v2
  let x := v1.x + t * (v2.x - v1.x)
  let y := v1.y + t * (v2.y - v1.y)
  ((x * fov / (1 / 10)) + w / 2, (-y * fov / (1 / 10)) + h / 2)

/-- Source: `clipAndDrawLine(ctx, v1, v2, p1, p2, w, h, fov)`.  Returns the
boolean result and the path commands issued to `ctx`; `none` is the
`TypeError` raised by reading `.x` of a `null` projected point. -/
def clipAndDrawLine (v1 v2 : Vec3 α) (p1 p2 : Option (Vec3 α)) (w h fov : α) :
    Option (Bool × List (DrawCmd α)) :=
  if v1.z ≤ 0 ∧ v2.z ≤ 0 then some (true, [])
  else if v1.z ≤ 0 ∨ v2.z ≤ 0 then
    let intersect := clipIntersect v1 v2 w h fov
    if v1.z > 0 then
      match p1 with
      | none => none
      | some q1 => some (true, [DrawCmd.moveTo q1.x q1.y, DrawCmd.lineTo intersect.1 intersect.2])
    else
      match p2 with
      | none => none
      | some q2 => some (true, [DrawCmd.moveTo intersect.1 intersect.2, DrawCmd.lineTo q2.x q2.y])
  else
    match p1, p2 with
    | some q1, some q2 => some (false, [DrawCmd.moveTo q1.x q1.y, DrawCmd.lineTo q2.x q2.y])
    | _, _ => some (false, [])

/-- The constant `fov = 500`. -/
def fov : α := 500

/-- The body of the edge loop of `drawObject` for the camera-space endpoints
`v1`, `v2` of an edge: both are projected with `projectPoint` and handed to
`clipAndDrawLine`. -/
def drawEdge (v1 v2 : Vec3 α) (w h : α) : Option (Bool × List (DrawCmd α)) :=
  clipAndDrawLine v1 v2 (projectPoint v1 fov w h) (projectPoint v2 fov w h) w h fov

/-! ## Meshes and scene objects -/

/-- A wireframe mesh `{vertices, edges}`. -/
structure Mesh (α : Type) where
  vertices : List (Vec3 α)
  edges : List (Nat × Nat)

/-- Source: `makeBox(w,h,d)`. -/
def makeBox (w h d : α) : Mesh α :=
  let hw := w / 2
  let hh := h / 2
  let hd := d / 2
  { vertices :=
      [ vec3 (-hw) (-hh) (-hd), vec3 hw (-hh) (-hd), vec3 hw (-hh) hd, vec3 (-hw) (-hh) hd,
        vec3 (-hw) hh (-hd), vec3 hw hh (-hd), vec3 hw hh hd, vec3 (-hw) hh hd ]
    edges :=
      [ (0,1), (1,2), (2,3), (3,0),
        (4,5), (5,6), (6,7), (7,4),
        (0,4), (1,5), (2,6), (3,7) ] }

/-- Source: `makePyramid(baseSize,height)`. -/
def makePyramid (baseSize height : α) : Mesh α :=
  let half := baseSize / 2
  { vertices :=
      [ vec3 (-half) 0 (-half), vec3 half 0 (-half), vec3 half 0 half, vec3 (-half) 0 half,
        vec3 0 height 0 ]
    edges :=
      [ (0,1), (1,2), (2,3), (3,0),
        (0,4), (1,4), (2,4), (3,4) ] }

/-- The body of the loop of `makeGround(size, divisions)` for loop index `i`,
with `step = size/divisions`: two vertices and the edge joining them for the
line at `z = -size/2 + i*step`, then two vertices and the edge joining them
for the line at `x = -size/2 + i*step`. -/
def groundStep (size step : α) (acc : Mesh α) (i : Nat) : Mesh α :=
  let vertices := acc.vertices ++
    [vec3 (-size / 2) (-(1 / 100)) (-size / 2 + i * step),
      vec3 (size / 2) (-(1 / 100)) (-size / 2 + i * step)]
  let edges := acc.edges ++ [(vertices.length - 2, vertices.length - 1)]
  let vertices := vertices ++
    [vec3 (-size / 2 + i * step) (-(1 / 100)) (-size / 2),
      vec3 (-size / 2 + i * step) (-(1 / 100)) (size / 2)]
  let edges := edges ++ [(vertices.length - 2, vertices.length - 1)]
  { vertices := vertices, edges := edges }

/-- Source: `makeGround(size, divisions)`; the loop runs for
`i = 0, ..., divisions`. -/
def makeGround (size : α) (divisions : Nat) : Mesh α :=
  (List.range (divisions + 1)).foldl (groundStep size (size / divisions)) { vertices := [], edges := [] }

/-- Every edge of the mesh names two valid indices into its vertex list. -/
def Mesh.WellFormed (m : Mesh α) : Prop :=
  ∀ e ∈ m.edges, e.1 < m.vertices.length ∧ e.2 < m.vertices.length

/-- Arithmetic mean of a list of points. -/
def centroid (vs : List (Vec3 α)) : Vec3 α :=
  mul3 (vs.foldl add3 (vec3 0 0 0)) (1 / (vs.length : α))

/-- An axis-aligned bounding box `{min, max}` in object-local space. -/
structure Box (α : Type) where
  min : Vec3 α
  max : Vec3 α

/-- An entry of `sceneObjects`.  `boundingBox = none` is the JavaScript
`null`.  The fields after `boundingBox` are present only on some kinds of
object (`none` is `undefined`). -/
structure SceneObject (α : Type) where
  id : Nat
  name : String
  position : Vec3 α
  rotation : Vec3 α
  vertices : List (Vec3 α)
  edges : List (Nat × Nat)
  color : String
  boundingBox : Option (Box α)
  velocity : Option (Vec3 α) := none
  life : Option α := none
  damage : Option α := none
  health : Option Int := none
  hitFlashTimer : Option Int := none
  gravity : Option α := none
  rotationVel : Option (Vec3 α) := none
  scale : Option α := none
  isFireParticle : Bool := false
  patrolStart : Option (Vec3 α) := none
  patrolEnd : Option (Vec3 α) := none
  patrolTimer : Option α := none
  patrolDir : Option α := none
  fireCooldown : Option Int := none

/-! ## Weapons -/

/-- The `config` object handed to the `Weapon` constructor; a `none` field is
a property the object literal leaves out. -/
structure WeaponConfig (α : Type) where
  name : String
  damage : α
  startingAmmo : Int
  projectileSpeed : α
  cooldown : Int
  projectileColor : String
  projectileSize : Option α := none
  spreadAngle : Option α := none
  projectilesPerShot : Option Nat := none

/-- State of a `Weapon` instance. -/
structure Weapon (α : Type) where
  name : String
  damage : α
  ammo : Int
  maxAmmo : Int
  projectileSpeed : α
  cooldown : Int
  currentCooldown : Int
  projectileColor : String
  projectileSize : α
  spreadAngle : α
  projectilesPerShot : Nat

/-- JavaScript `v || d` on an optional number: `undefined` and `0` are falsy. -/
def orDefault {β : Type} [Zero β] [DecidableEq β] (v : Option β) (d : β) : β :=
  match v with
  | none => d
  | some a => if a = 0 then d else a

/-- Source: `Weapon.constructor(config)`. -/
def Weapon.new (config : WeaponConfig α) : Weapon α :=
  { name := config.name
    damage := config.damage
    ammo := config.startingAmmo
    maxAmmo := config.startingAmmo
    projectileSpeed := config.projectileSpeed
    cooldown := config.cooldown
    currentCooldown := 0
    projectileColor := config.projectileColor
    projectileSize := orDefault config.projectileSize (1 / 5)
    spreadAngle := orDefault config.spreadAngle 0
    projectilesPerShot := orDefault config.projectilesPerShot 1 }

/-- Source: `Weapon.canFire()`. -/
def Weapon.canFire (w : Weapon α) : Bool :=
  decide (w.ammo > 0) && decide (w.currentCooldown ≤ 0)

/-- Source: `Weapon.update()`. -/
def Weapon.update (w : Weapon α) : Weapon α :=
  if w.currentCooldown > 0 then { w with currentCooldown := w.currentCooldown - 1 } else w

/-- Body of the `for` loop of `Weapon.createProjectile` for loop index `i`:
the object pushed onto `projectiles`.  `rand (2*i)` and `rand (2*i+1)` are the
two values `Math.random()` returns in this iteration (it is called only when
`spreadAngle > 0`).  The object allocated in iteration `i` gets identity
`nextId + i`. -/
def Weapon.projectileAt (m : JSMath α) (w : Weapon α) (rand : Nat → α) (nextId : Nat)
    (position direction : Vec3 α) (i : Nat) : SceneObject α :=
  let spreadDir : Vec3 α :=
    if w.spreadAngle > 0 then
      let angle := (rand (2 * i) - 1 / 2) * w.spreadAngle
      let spreadDir := rotateY m direction angle
      let verticalAngle := (rand (2 * i + 1) - 1 / 2) * w.spreadAngle * (1 / 2)
      rotateX m spreadDir verticalAngle
    else direction
  let box := makeBox w.projectileSize w.projectileSize w.projectileSize
  { id := nextId + i
    name := "projectile"
    position := position
    rotation := vec3 0 0 0
    velocity := some (mul3 spreadDir w.projectileSpeed)
    life := some 200
    boundingBox := some
      { min := vec3 (-w.projectileSize / 2) (-w.projectileSize / 2) (-w.projectileSize / 2)
        max := vec3 (w.projectileSize / 2) (w.projectileSize / 2) (w.projectileSize / 2) }
    vertices := box.vertices
    edges := box.edges
    color := w.projectileColor
    damage := some w.damage }

/-- Source: `Weapon.createProjectile(position, direction)`.  Returns the
JavaScript return value (`none` is `null`) and the weapon after the call. -/
def Weapon.createProjectile (m : JSMath α) (w : Weapon α) (rand : Nat → α) (nextId : Nat)
    (position direction : Vec3 α) : Option (List (SceneObject α)) × Weapon α :=
  if !w.canFire then (none, w)
  else
    let w1 := { w with ammo := w.ammo - 1 }
    let w2 := { w1 with currentCooldown := w1.cooldown }
    let projectiles :=
      (List.range w2.projectilesPerShot).map
        (Weapon.projectileAt m w2 rand nextId position direction)
    (some projectiles, w2)

/-- Source: `class Rifle`. -/
def Rifle : Weapon α :=
  Weapon.new
    { name := "Rifle"
      damage := 1
      startingAmmo := 99
      projectileSpeed := 3 / 10
      cooldown := 20
      projectileColor := "#ff0"
      projectileSize := some (1 / 5)
      spreadAngle := some (1 / 10)
      projectilesPerShot := some 1 }

/-- Source: `class Shotgun`. -/
def Shotgun : Weapon α :=
  Weapon.new
    { name := "Shotgun"
      damage := 1 / 2
      startingAmmo := 24
      projectileSpeed := 1 / 4
      cooldown := 120
      projectileColor := "#f80"
      projectileSize := some (3 / 20)
      spreadAngle := some (3 / 10)
      projectilesPerShot := some 8 }

/-- State of a `WeaponSystem` instance. -/
structure WeaponSystem (α : Type) where
  weapons : List (Weapon α)
  currentWeaponIndex : Int

/-- Source: `WeaponSystem.constructor()`. -/
def WeaponSystem.new : WeaponSystem α :=
  { weapons := [Rifle, Shotgun], currentWeaponIndex := 0 }

/-- Array read `arr[i]` at an integer index: `none` is `undefined`. -/
def jsIndex {β : Type} (arr : List β) (i : Int) : Option β :=
  if i < 0 then none else arr[i.toNat]?

/-- Source: `WeaponSystem.getCurrentWeapon()`. -/
def WeaponSystem.getCurrentWeapon (ws : WeaponSystem α) : Option (Weapon α) :=
  jsIndex ws.weapons ws.currentWeaponIndex

/-- Write back the current weapon after a method mutated it in place. -/
def WeaponSystem.setCurrentWeapon (ws : WeaponSystem α) (w : Weapon α) : WeaponSystem α :=
  { ws with weapons := ws.weapons.set ws.currentWeaponIndex.toNat w }

/-- Source: `WeaponSystem.update()`.  `none` is the `TypeError` raised when
there is no current weapon. -/
def WeaponSystem.update (ws : WeaponSystem α) : Option (WeaponSystem α) :=
  match ws.getCurrentWeapon with
  | none => none
  | some w => some (ws.setCurrentWeapon w.update)

/-- Source: `WeaponSystem.switchWeapon(index)`. -/
def WeaponSystem.switchWeapon (ws : WeaponSystem α) (index : Int) : Bool × WeaponSystem α :=
  if index ≥ 0 ∧ index < ws.weapons.length then
    (true, { ws with currentWeaponIndex := index })
  else (false, ws)

/-- Source: `WeaponSystem.nextWeapon()`. -/
def WeaponSystem.nextWeapon (ws : WeaponSystem α) : WeaponSystem α :=
  { ws with currentWeaponIndex := (ws.currentWeaponIndex + 1) % ws.weapons.length }

/-- Source: `WeaponSystem.fireCurrentWeapon(position, direction)`.  The outer
`none` is the `TypeError` raised when there is no current weapon; the inner
option is the JavaScript return value. -/
def WeaponSystem.fireCurrentWeapon (m : JSMath α) (ws : WeaponSystem α) (rand : Nat → α)
    (nextId : Nat) (position direction : Vec3 α) :
    Option (Option (List (SceneObject α)) × WeaponSystem α) :=
  match ws.getCurrentWeapon with
  | none => none
  | some w =>
    let r := w.createProjectile m rand nextId position direction
    some (r.1, ws.setCurrentWeapon r.2)

/-! ## Scenario drivers for the weapon claims -/

/-- Call `Weapon.update` until `currentCooldown` is `0` (at most `fuel`
calls). -/
def Weapon.updateUntilReady : Nat → Weapon α → Weapon α
  | 0, w => w
  | fuel + 1, w =>
    if w.currentCooldown = 0 then w else Weapon.updateUntilReady fuel w.update

/-- Arguments of the successive `createProjectile` calls of a firing
session: for call number `k`, the values `Math.random()` returns, the
allocation number, the muzzle position and the direction. -/
structure FireArgs (α : Type) where
  rand : Nat → Nat → α
  nextId : Nat → Nat
  position : Nat → Vec3 α
  direction : Nat → Vec3 α

/-- The weapon after `k` rounds of a firing session; each round is one call
of `createProjectile` followed by `update` calls until the cooldown is `0`. -/
def Weapon.afterRounds (m : JSMath α) (a : FireArgs α) (w : Weapon α) : Nat → Weapon α
  | 0 => w
  | k + 1 =>
    let wk := Weapon.afterRounds m a w k
    let r := wk.createProjectile m (a.rand k) (a.nextId k) (a.position k) (a.direction k)
    Weapon.updateUntilReady r.2.currentCooldown.toNat r.2

/-- Return value of call number `k` (counted from `0`) of `createProjectile`
in a firing session. -/
def Weapon.roundResult (m : JSMath α) (a : FireArgs α) (w : Weapon α) (k : Nat) :
    Option (List (SceneObject α)) :=
  ((Weapon.afterRounds m a w k).createProjectile m (a.rand k) (a.nextId k)
    (a.position k) (a.direction k)).1

/-! ## Collision and movement resolver -/

/-- The global `player` object.  It is created once by an object literal
whose `boundingBox` is a box, never `null`. -/
structure Player (α : Type) where
  id : Nat
  name : String
  position : Vec3 α
  rotation : Vec3 α
  vertices : List (Vec3 α)
  edges : List (Nat × Nat)
  boundingBox : Box α
  color : String
  health : Int
  hitFlashTimer : Int
  isDead : Bool
  weaponSystem : WeaponSystem α

/-- Source: `createBoxObj(x,y,z,w,h,d,color="#0f0", name="box")`; `id` is the
identity of the object it allocates. -/
def createBoxObj (id : Nat) (x y z w h d : α) (color : String := "#0f0")
    (name : String := "box") : SceneObject α :=
  let b := makeBox w h d
  { id := id
    name := name
    position := vec3 x y z
    rotation := vec3 0 0 0
    color := color
    vertices := b.vertices
    edges := b.edges
    boundingBox := some { min := vec3 (-w / 2) (-h / 2) (-d / 2), max := vec3 (w / 2) (h / 2) (d / 2) } }

/-- Source: the object literal assigned to `player`; `id` is its identity. -/
def initialPlayer (id : Nat) : Player α :=
  let playerModel := makePyramid (1 : α) 2
  { id := id
    name := "player"
    position := vec3 0 0 0
    rotation := vec3 0 0 0
    vertices := playerModel.vertices
    edges := playerModel.edges
    boundingBox := { min := vec3 (-(1 / 2)) 0 (-(1 / 2)), max := vec3 (1 / 2) 2 (1 / 2) }
    color := "#0f0"
    health := 3
    hitFlashTimer := 0
    isDead := false
    weaponSystem := WeaponSystem.new }

/-- The player as the entry of `sceneObjects` that refers to it. -/
def Player.toSceneObject (p : Player α) : SceneObject α :=
  { id := p.id
    name := p.name
    position := p.position
    rotation := p.rotation
    vertices := p.vertices
    edges := p.edges
    color := p.color
    boundingBox := some p.boundingBox }

/-- Source: `checkCollision(pos, box, entityBox)`. -/
def checkCollision (pos : Vec3 α) (box : SceneObject α) (entityBox : Box α) : Bool :=
  match box.boundingBox with
  | none => false
  | some bb =>
    let min := add3 box.position bb.min
    let max := add3 box.position bb.max
    let pMin := add3 pos entityBox.min
    let pMax := add3 pos entityBox.max
    decide (pMin.x ≤ max.x) && decide (pMax.x ≥ min.x) &&
    decide (pMin.y ≤ max.y) && decide (pMax.y ≥ min.y) &&
    decide (pMin.z ≤ max.z) && decide (pMax.z ≥ min.z)

/-- The `continue` condition of the loop of `canMoveTo`:
`o === player || o === boxToIgnore || o.name === "ground" ||
o.name === "enemy" || o.name === "projectile" || o.name === "fragment"`. -/
def canMoveToSkips (player : Player α) (boxToIgnore : Option (SceneObject α))
    (o : SceneObject α) : Bool :=
  o.id == player.id ||
  (match boxToIgnore with
   | some b => o.id == b.id
   | none => false) ||
  o.name == "ground" || o.name == "enemy" || o.name == "projectile" || o.name == "fragment"

/-- The `for (let o of sceneObjects)` loop of `canMoveTo`: `false` when the
loop executes `return false`, `true` when it runs to its end. -/
def canMoveToLoop (player : Player α) (boxToIgnore : Option (SceneObject α)) (pos : Vec3 α) :
    List (SceneObject α) → Bool
  | [] => true
  | o :: rest =>
    if canMoveToSkips player boxToIgnore o then canMoveToLoop player boxToIgnore pos rest
    else if checkCollision pos o player.boundingBox then false
    else canMoveToLoop player boxToIgnore pos rest

/-- Source: `canMoveTo(pos, boxToIgnore=null)`.  The second component is the
object `pos` after the call: the function writes `pos.y = 0` when it is about
to return `true` and `pos.y < 0`. -/
def canMoveTo (sceneObjects : List (SceneObject α)) (player : Player α) (pos : Vec3 α)
    (boxToIgnore : Option (SceneObject α) := none) : Bool × Vec3 α :=
  if canMoveToLoop player boxToIgnore pos sceneObjects then
    (true, if pos.y < 0 then { pos with y := 0 } else pos)
  else (false, pos)

/-- Source: `slideMovement(currentPos, desiredMove)`.  Each test position is
a fresh object; after an accepted `canMoveTo` call the variable refers to the
object as `canMoveTo` left it. -/
def slideMovement (sceneObjects : List (SceneObject α)) (player : Player α)
    (currentPos desiredMove : Vec3 α) : Vec3 α :=
  let testPos := canMoveTo sceneObjects player (add3 currentPos desiredMove)
  if testPos.1 then testPos.2
  else
    let finalPos := currentPos
    let slideX := vec3 desiredMove.x 0 0
    let testX := canMoveTo sceneObjects player (add3 currentPos slideX)
    let finalPos := if testX.1 then testX.2 else finalPos
    let slideZ := vec3 0 0 desiredMove.z
    let testZ := canMoveTo sceneObjects player (add3 finalPos slideZ)
    let finalPos := if testZ.1 then testZ.2 else finalPos
    let slideY := vec3 0 desiredMove.y 0
    let testY := canMoveTo sceneObjects player (add3 finalPos slideY)
    let finalPos := if testY.1 then testY.2 else finalPos
    finalPos

/-! ## Vocabulary of the collision claims -/

/-- A box whose `min` does not exceed its `max` on any axis, so that each of
its three intervals `[min, max]` is non-empty. -/
def Box.Ordered (b : Box α) : Prop :=
  b.min.x ≤ b.max.x ∧ b.min.y ≤ b.max.y ∧ b.min.z ≤ b.max.z

/-- The closed intervals `[a, b]` and `[c, d]` have a point in common. -/
def IntervalsMeet (a b c d : α) : Prop :=
  (Set.Icc a b ∩ Set.Icc c d).Nonempty

/-- A position with a negative `y` raised to the ground plane `y = 0`. -/
def groundClamp (p : Vec3 α) : Vec3 α :=
  if p.y < 0 then { p with y := 0 } else p

/-- One step of the slide as the specification words it: from `p`, add the
single-axis move `s` when the acceptance test `accept` takes the resulting
position, which then becomes `settle` of it; otherwise stay at `p`. -/
def slideAxis (accept : Vec3 α → Bool) (settle : Vec3 α → Vec3 α) (p s : Vec3 α) : Vec3 α :=
  if accept (add3 p s) then settle (add3 p s) else p

/-- The slide as the specification words it: the full move if accepted, else
the X-only, then the Z-only, then the Y-only move, each tested from the
position reached so far. -/
def slideBySpec (accept : Vec3 α → Bool) (settle : Vec3 α → Vec3 α) (c d : Vec3 α) : Vec3 α :=
  if accept (add3 c d) then settle (add3 c d)
  else
    slideAxis accept settle
      (slideAxis accept settle (slideAxis accept settle c (vec3 d.x 0 0)) (vec3 0 0 d.z))
      (vec3 0 d.y 0)

end Defs

/-! ## The simulation state -/

section WorldDefs

variable {α : Type} [LinearOrderedField α]

/-- The `keys` object: current state of the keys the game listens to (`one`
and `two` are the keys `"1"` and `"2"`). -/
structure Keys where
  w : Bool := false
  s : Bool := false
  a : Bool := false
  d : Bool := false
  ArrowLeft : Bool := false
  ArrowRight : Bool := false
  Space : Bool := false
  Shift : Bool := false
  one : Bool := false
  two : Bool := false

/-- Source: `createEnemy(x,z,xRange,zRange)`; `id` is the identity of the
object it allocates and `r 0` the result of its call of `Math.random()`. -/
def createEnemy (m : JSMath α) (id : Nat) (r : Nat → α) (x z xRange zRange : α) :
    SceneObject α :=
  let eModel := makePyramid (1 : α) 2
  { id := id
    name := "enemy"
    position := vec3 x 0 z
    rotation := vec3 0 0 0
    vertices := eModel.vertices
    edges := eModel.edges
    boundingBox := some { min := vec3 (-(1 / 2)) 0 (-(1 / 2)), max := vec3 (1 / 2) 2 (1 / 2) }
    color := "#f00"
    patrolStart := some (vec3 x 0 z)
    patrolEnd := some (vec3 (x + xRange) 0 (z + zRange))
    patrolTimer := some 0
    patrolDir := some 1
    health := some 3
    hitFlashTimer := some 0
    fireCooldown := some (m.floor (r 0 * 120)) }

/-- The mutable globals of the program.  Objects live in `store`, addressed
by their identity; the arrays `sceneObjects`, `enemies`, `projectiles` and
`fragments` hold identities, as the JavaScript arrays hold references.
`nextId` is the identity the next allocated object gets.  `rand` is the
sequence of results of `Math.random()` and `randPos` the number of calls made
so far.  `crashed` records that an uncaught `TypeError` has stopped the frame
loop. -/
structure World (α : Type) where
  store : Nat → SceneObject α
  nextId : Nat
  sceneObjects : List Nat
  enemies : List Nat
  projectiles : List Nat
  fragments : List Nat
  player : Player α
  playerVel : Vec3 α
  onGround : Bool
  keys : Keys
  rand : Nat → α
  randPos : Nat
  crashed : Bool := false

/-- The object with identity `id`, as a reader of the arrays sees it. -/
def World.obj (w : World α) (id : Nat) : SceneObject α :=
  if id = w.player.id then w.player.toSceneObject else { w.store id with id := id }

/-- The contents of `sceneObjects`, in array order. -/
def World.scene (w : World α) : List (SceneObject α) :=
  w.sceneObjects.map w.obj

/-- Write the object with identity `id` back to the store. -/
def World.setObj (w : World α) (id : Nat) (o : SceneObject α) : World α :=
  { w with store := Function.update w.store id o }

/-- Source: `removeObject(o)`. -/
def World.removeObject (w : World α) (id : Nat) : World α :=
  { w with sceneObjects := w.sceneObjects.erase id }

/-- The statements `fragments.push(fragment); sceneObjects.push(fragment);`
for a freshly allocated `fragment`, whose construction called `Math.random()`
`draws` times. -/
def World.pushFragment (w : World α) (fragment : SceneObject α) (draws : Nat) : World α :=
  { w with
    store := Function.update w.store w.nextId { fragment with id := w.nextId }
    nextId := w.nextId + 1
    fragments := w.fragments ++ [w.nextId]
    sceneObjects := w.sceneObjects ++ [w.nextId]
    randPos := w.randPos + draws }

/-- Run `n` iterations of a loop whose body builds one fragment from the
coming results `r 0, r 1, ...` of `Math.random()` (reporting how many it
used) and pushes it. -/
def World.spawnMany (build : (Nat → α) → SceneObject α × Nat) : Nat → World α → World α
  | 0, w => w
  | n + 1, w =>
    let made := build (fun k => w.rand (w.randPos + k))
    World.spawnMany build n (w.pushFragment made.1 made.2)

/-- The fragment built by one iteration of `createWallHitEffect(position)`;
it calls `Math.random()` three times. -/
def wallHitFragment (m : JSMath α) (position : Vec3 α) (r : Nat → α) : SceneObject α × Nat :=
  let angle := r 0 * m.PI * 2
  let speed := 3 / 50 + r 1 * (1 / 10)
  let elevationAngle := (r 2 - 1 / 2) * m.PI * (1 / 2)
  let dir : Vec3 α :=
    ⟨m.cos angle * m.cos elevationAngle, m.sin elevationAngle, m.sin angle * m.cos elevationAngle⟩
  let len := m.sqrt (dir.x * dir.x + dir.y * dir.y + dir.z * dir.z)
  let dir : Vec3 α := ⟨dir.x / len, dir.y / len, dir.z / len⟩
  ({ id := 0
     name := "fragment"
     position := position
     rotation := vec3 0 0 0
     velocity := some (mul3 dir speed)
     life := some 30
     vertices :=
       [ vec3 0 0 0,
         vec3 (m.cos angle * (3 / 10)) (m.sin elevationAngle * (3 / 10)) (m.sin angle * (3 / 10)) ]
     edges := [(0, 1)]
     color := "#ff0"
     boundingBox := none
     gravity := some (1 / 1000) }, 3)

/-- Source: `createWallHitEffect(position)`. -/
def World.createWallHitEffect (m : JSMath α) (w : World α) (position : Vec3 α) : World α :=
  World.spawnMany (wallHitFragment m position) 3 w

/-- The fragment built by one iteration of `createExplosionCore(pos, num)`.
The first result of `Math.random()` fixes the number of sides, the next
`sides` results the vertex sizes, and eleven more the direction, rotation,
speed, rotational velocity and life. -/
def explosionCoreFragment (m : JSMath α) (pos : Vec3 α) (r : Nat → α) : SceneObject α × Nat :=
  let sides : Int := 3 + m.floor (r 0 * 3)
  let n := sides.toNat
  let vertices := (List.range n).map fun (j : Nat) =>
    let angle := ((j : α) / (sides : α)) * m.PI * 2
    let size := 1 / 5 + r (1 + j) * (3 / 10)
    vec3 (m.cos angle * size) (m.sin angle * size) 0
  let edges := (List.range n).map fun (j : Nat) => (j, (((j : Int) + 1) % sides).toNat)
  let k := 1 + n
  let dir := normalize3 m ⟨(r k - 1 / 2) * 2, (r (k + 1) - 1 / 2) * 2, (r (k + 2) - 1 / 2) * 2⟩
  ({ id := 0
     name := "fragment"
     position := pos
     rotation := vec3 (r (k + 3) * m.PI * 2) (r (k + 4) * m.PI * 2) (r (k + 5) * m.PI * 2)
     velocity := some (mul3 dir (3 / 20 + r (k + 6) * (1 / 10)))
     rotationVel := some (vec3 ((r (k + 7) - 1 / 2) * (1 / 5)) ((r (k + 8) - 1 / 2) * (1 / 5))
       ((r (k + 9) - 1 / 2) * (1 / 5)))
     life := some (40 + r (k + 10) * 20)
     vertices := vertices
     edges := edges
     color := "#f62"
     boundingBox := none
     gravity := some (1 / 1000)
     scale := some 1 }, k + 11)

/-- Source: `createExplosionCore(pos, num)`. -/
def World.createExplosionCore (m : JSMath α) (w : World α) (pos : Vec3 α) (num : Nat) : World α :=
  World.spawnMany (explosionCoreFragment m pos) num w

/-- The fragment built by one iteration of `createFireParticles(pos, num)`;
it calls `Math.random()` six times. -/
def fireParticleFragment (m : JSMath α) (pos : Vec3 α) (r : Nat → α) : SceneObject α × Nat :=
  let dir := normalize3 m ⟨(r 0 - 1 / 2) * 2, r 1 * (3 / 2), (r 2 - 1 / 2) * 2⟩
  ({ id := 0
     name := "fragment"
     position := pos
     rotation := vec3 0 0 0
     velocity := some (mul3 dir (2 / 25 + r 3 * (1 / 10)))
     life := some (30 + r 4 * 20)
     vertices := [vec3 0 0 0, vec3 (1 / 10) (1 / 10) 0]
     edges := [(0, 1)]
     color := "#f" ++ toString (m.floor (r 5 * 4 + 6)) ++ "0"
     boundingBox := none
     gravity := some (1 / 2000)
     isFireParticle := true }, 6)

/-- Source: `createFireParticles(pos, num)`. -/
def World.createFireParticles (m : JSMath α) (w : World α) (pos : Vec3 α) (num : Nat) : World α :=
  World.spawnMany (fireParticleFragment m pos) num w

/-- The fragment built by one iteration of `createShrapnel(pos, num)`; it
calls `Math.random()` seven times. -/
def shrapnelFragment (m : JSMath α) (pos : Vec3 α) (r : Nat → α) : SceneObject α × Nat :=
  let dir := normalize3 m ⟨(r 0 - 1 / 2) * 2, r 1, (r 2 - 1 / 2) * 2⟩
  ({ id := 0
     name := "fragment"
     position := pos
     rotation := vec3 0 0 0
     velocity := some (mul3 dir (1 / 5 + r 3 * (3 / 20)))
     life := some (60 + r 4 * 30)
     vertices := [vec3 0 0 0, vec3 (1 / 5 + r 5 * (3 / 10)) (1 / 5 + r 6 * (3 / 10)) 0]
     edges := [(0, 1)]
     color := "#fff"
     boundingBox := none
     gravity := some (3 / 1000) }, 7)

/-- Source: `createShrapnel(pos, num)`. -/
def World.createShrapnel (m : JSMath α) (w : World α) (pos : Vec3 α) (num : Nat) : World α :=
  World.spawnMany (shrapnelFragment m pos) num w

/-- Source: `createFragments(position, num)`; the body does not use `num`. -/
def World.createFragments (m : JSMath α) (w : World α) (position : Vec3 α) (_num : Nat) :
    World α :=
  let explosionPos := position
  let w := w.createExplosionCore m explosionPos 20
  let w := w.createShrapnel m explosionPos 15
  w.createFireParticles m explosionPos 30

/-- Source: `explodeEnemy(enemy)`. -/
def World.explodeEnemy (m : JSMath α) (w : World α) (enemy : Nat) : World α :=
  let w := { w with sceneObjects := w.sceneObjects.erase enemy }
  let w := { w with enemies := w.enemies.erase enemy }
  w.createFragments m (w.obj enemy).position 50

/-- Source: `damageEnemy(enemy, projectile)`.  `enemy.health--` on an absent
`health` gives `NaN`, which is `none` here and fails `enemy.health > 0`. -/
def World.damageEnemy (m : JSMath α) (w : World α) (enemy : Nat) (_projectile : SceneObject α) :
    World α :=
  let e := w.store enemy
  let e := { e with health := e.health.map (· - 1) }
  let w := w.setObj enemy e
  if (match e.health with
      | some h => decide (h > 0)
      | none => false) then
    w.setObj enemy { e with hitFlashTimer := some 10 }
  else
    w.explodeEnemy m enemy

/-- Source: `checkProjectileHitEnemy(proj)`; `none` is `null`. -/
def World.checkProjectileHitEnemy (w : World α) (proj : SceneObject α) : Option Nat :=
  w.enemies.find? fun e =>
    w.sceneObjects.contains e &&
      (match (w.obj e).boundingBox with
       | none => false
       | some b => checkCollision proj.position (w.obj e) b)

/-- Source: `checkProjectileHitPlayer(proj)`. -/
def World.checkProjectileHitPlayer (w : World α) (proj : SceneObject α) : Bool :=
  if w.player.hitFlashTimer > 0 then false
  else checkCollision proj.position w.player.toSceneObject w.player.boundingBox

/-- Source: `explodePlayer()`. -/
def World.explodePlayer (m : JSMath α) (w : World α) : World α :=
  let w := w.createFragments m w.player.position 80
  { w with sceneObjects := w.sceneObjects.erase w.player.id }

/-- Source: `playerDeath()`. -/
def World.playerDeath (m : JSMath α) (w : World α) : World α :=
  let w := w.explodePlayer m
  { w with player := { w.player with isDead := true } }

/-- Source: `damagePlayer(projectile)`. -/
def World.damagePlayer (m : JSMath α) (w : World α) (_projectile : SceneObject α) : World α :=
  if w.player.hitFlashTimer > 0 then w
  else
    let w := { w with player := { w.player with health := w.player.health - 1 } }
    let w := { w with player := { w.player with hitFlashTimer := 20 } }
    if w.player.health ≤ 0 then w.playerDeath m else w

/-- Call `damageEnemy(enemy, projs k)` for `k = 0, 1, ..., n - 1` in turn. -/
def World.damageEnemyTimes (m : JSMath α) (enemy : Nat) (projs : Nat → SceneObject α) :
    Nat → World α → World α
  | 0, w => w
  | k + 1, w => (World.damageEnemyTimes m enemy projs k w).damageEnemy m enemy (projs k)

/-- The statement `p.life--` for the projectile object `pid` (the stored
object carries its own identity from here on). -/
def World.tickLife (w : World α) (pid : Nat) : World α :=
  let p := { w.store pid with id := pid }
  w.setObj pid { p with life := p.life.map (· - 1) }

/-- The test `p.life <= 0`; an absent `life` has become `NaN`, which fails
the test. -/
def lifeExpired (p : SceneObject α) : Bool :=
  match p.life with
  | some l => decide (l ≤ 0)
  | none => false

/-- The statements `removeObject(p); projectiles.splice(i, 1);`. -/
def World.dropProjectile (w : World α) (pid i : Nat) : World α :=
  let w := w.removeObject pid
  { w with projectiles := w.projectiles.eraseIdx i }

/-- The last part of the loop body of `updateProjectiles()`, after
`p.position = nextPos`: the hit tests for the two kinds of projectile. -/
def World.hitPhase (m : JSMath α) (w : World α) (pid i : Nat) : World α :=
  let p := w.store pid
  if p.name = "enemyProjectile" then
    if w.checkProjectileHitPlayer p then (w.damagePlayer m p).dropProjectile pid i
    else w
  else
    match w.checkProjectileHitEnemy p with
    | some hitEnemy => (w.damageEnemy m hitEnemy p).dropProjectile pid i
    | none => w

/-- The middle part of the loop body of `updateProjectiles()`, after the
expiry test: the next position, the `canMoveTo` test and the move.  Reading
`p.velocity.x` of an absent velocity is a `TypeError`, which sets `crashed`. -/
def World.movePhase (m : JSMath α) (w : World α) (pid i : Nat) : World α :=
  let p := w.store pid
  match p.velocity with
  | none => { w with crashed := true }
  | some v =>
    let nextPos := canMoveTo w.scene w.player (add3 p.position v) (some p)
    if !nextPos.1 then (w.createWallHitEffect m p.position).dropProjectile pid i
    else (w.setObj pid { p with position := nextPos.2 }).hitPhase m pid i

/-- The body of the loop of `updateProjectiles()` for loop index `i`.  A
`TypeError` (reading a property of `undefined`) sets `crashed`; once the
frame loop has crashed nothing runs any more. -/
def World.projectileStep (m : JSMath α) (i : Nat) (w : World α) : World α :=
  if w.crashed then w
  else
    match w.projectiles[i]? with
    | none => { w with crashed := true }
    | some pid =>
      let w := w.tickLife pid
      if lifeExpired (w.store pid) then w.dropProjectile pid i
      else w.movePhase m pid i

/-- The loop `for (let i = n - 1; i >= 0; i--)` of `updateProjectiles()`. -/
def World.updateProjectilesLoop (m : JSMath α) : Nat → World α → World α
  | 0, w => w
  | i + 1, w => World.updateProjectilesLoop m i (w.projectileStep m i)

/-- Source: `updateProjectiles()`. -/
def World.updateProjectiles (m : JSMath α) (w : World α) : World α :=
  World.updateProjectilesLoop m w.projectiles.length w

/-- The state in which the loop of `updateProjectiles()`, started at
`i = n - 1`, reaches index `k`: the iterations for the indices above `k` have
run. -/
def World.updateProjectilesDownTo (m : JSMath α) (k : Nat) : Nat → World α → World α
  | 0, w => w
  | i + 1, w =>
    if i ≤ k then w else World.updateProjectilesDownTo m k i (w.projectileStep m i)

/-- The projectile `pid`, just moved, hits no target: the hit test that the
loop body of `updateProjectiles()` makes for its kind reports nothing. -/
def World.hitsNothing (w : World α) (pid : Nat) : Bool :=
  let p := w.store pid
  if p.name = "enemyProjectile" then !w.checkProjectileHitPlayer p
  else (w.checkProjectileHitEnemy p).isNone

/-- In state `w`, the projectile `pid` whose turn it is has a velocity, its
path is not blocked (`canMoveTo` accepts its next position) and, once moved,
it hits no target: these are the tests the loop body of `updateProjectiles()`
makes after the expiry test. -/
def World.projectileFlies (w : World α) (pid : Nat) : Bool :=
  let w := w.tickLife pid
  let p := w.store pid
  match p.velocity with
  | none => false
  | some v =>
    let nextPos := canMoveTo w.scene w.player (add3 p.position v) (some p)
    nextPos.1 && (w.setObj pid { p with position := nextPos.2 }).hitsNothing pid

/-- During the call `updateProjectiles()` made in state `w`, the path of the
projectile `pid` is not blocked and it hits no target. -/
def World.projectileUnobstructed (m : JSMath α) (w : World α) (pid : Nat) : Bool :=
  (World.updateProjectilesDownTo m (w.projectiles.indexOf pid) w.projectiles.length
    w).projectileFlies pid

/-! ### Fragments -/

/-- The digits of a natural number in base 16, lower case. -/
def hexDigits (n : Nat) : String :=
  String.mk (Nat.toDigits 16 n)

/-- JavaScript `n.toString(16)` for the result of `Math.floor`: an integer,
or `NaN` (`none`), whose string is `"NaN"`. -/
def toString16 : Option Int → String
  | none => "NaN"
  | some n => if n < 0 then "-" ++ hexDigits n.natAbs else hexDigits n.toNat

/-- JavaScript `s.padStart(targetLength, pad)` for a one-character `pad`. -/
def padStart (s : String) (targetLength : Nat) (pad : Char) : String :=
  String.mk (List.replicate (targetLength - s.length) pad) ++ s

/-- The value `Math.floor(255 * fade)` with
`fade = f.life / (f.life > 30 ? 90 : 15)` that `updateFragments()` computes
for a fragment that is not a fire particle; `none` is `NaN`. -/
def greyChannel (m : JSMath α) (life : Option α) : Option Int :=
  life.map fun l => m.floor (255 * (l / (if l > 30 then 90 else 15)))

/-- The value `Math.floor((f.life / 50) * 15)` that `updateFragments()`
computes for a fire particle; `none` is `NaN`. -/
def fireIntensity (m : JSMath α) (life : Option α) : Option Int :=
  life.map fun l => m.floor ((l / 50) * 15)

/-- The colour that the "Color handling" part of the loop body of
`updateFragments()` assigns to `f.color`. -/
def fragmentColor (m : JSMath α) (f : SceneObject α) : String :=
  if f.isFireParticle then
    "#f" ++ toString16 (fireIntensity m f.life) ++ "0"
  else
    let c := padStart (toString16 (greyChannel m f.life)) 2 '0'
    "#" ++ c ++ c ++ c

/-- The statements `removeObject(f); fragments.splice(i, 1);`. -/
def World.dropFragment (w : World α) (fid i : Nat) : World α :=
  let w := w.removeObject fid
  { w with fragments := w.fragments.eraseIdx i }

/-- The part of the loop body of `updateFragments()` after the expiry test:
position, gravity, air resistance, rotation and colour.  Reading
`f.velocity.x` of an absent velocity is a `TypeError`, which sets `crashed`.
With an absent `gravity` the statement `f.velocity.y -= f.gravity` stores
`NaN`, which a `Vec3 α` cannot hold: that state is outside this model and is
flagged by `crashed` as well.  Every constructor of fragments sets `velocity`
and `gravity`, and in every reachable state every object in `fragments` has
both (`Reachable.typed`), so this branch is not taken there. -/
def World.moveFragment (m : JSMath α) (w : World α) (fid : Nat) : World α :=
  let f := w.store fid
  match f.velocity, f.gravity with
  | some v, some g =>
    let f := { f with position := add3 f.position v }
    let v : Vec3 α := { v with y := v.y - g }
    let f := { f with velocity := some (mul3 v (49 / 50)) }
    let f :=
      match f.rotationVel with
      | some rv => { f with rotation := add3 f.rotation rv }
      | none => f
    w.setObj fid { f with color := fragmentColor m f }
  | _, _ => { w with crashed := true }

/-- The body of the loop of `updateFragments()` for loop index `i`. -/
def World.fragmentStep (m : JSMath α) (i : Nat) (w : World α) : World α :=
  if w.crashed then w
  else
    match w.fragments[i]? with
    | none => { w with crashed := true }
    | some fid =>
      let w := w.tickLife fid
      if lifeExpired (w.store fid) then w.dropFragment fid i
      else w.moveFragment m fid

/-- The loop `for (let i = n - 1; i >= 0; i--)` of `updateFragments()`. -/
def World.updateFragmentsLoop (m : JSMath α) : Nat → World α → World α
  | 0, w => w
  | i + 1, w => World.updateFragmentsLoop m i (w.fragmentStep m i)

/-- Source: `updateFragments()`. -/
def World.updateFragments (m : JSMath α) (w : World α) : World α :=
  World.updateFragmentsLoop m w.fragments.length w

/-! ### Enemies -/

/-- The constant `ENEMY_FIRING_RANGE = 50`. -/
def ENEMY_FIRING_RANGE : α := 50

/-- The entity box `{min: vec3(-0.1,-0.1,-0.1), max: vec3(0.1,0.1,0.1)}` that
`canSeePlayer` hands to `checkCollision`. -/
def rayBox : Box α :=
  { min := vec3 (-(1 / 10)) (-(1 / 10)) (-(1 / 10)), max := vec3 (1 / 10) (1 / 10) (1 / 10) }

/-- The inner loop `for (let obj of sceneObjects)` of `canSeePlayer`: `true`
when it executes `return false`, that is when an object named `box` collides
with the ray point `currentPos`. -/
def sightBlockedAt (scene : List (SceneObject α)) (currentPos : Vec3 α) : Bool :=
  scene.any fun obj => decide (obj.name = "box") && checkCollision currentPos obj rayBox

/-- The outer loop `for (let i = 0; i < steps; i++)` of `canSeePlayer`, with
`n` iterations to go: `false` when the loop executes `return false`, `true`
when it runs to its end. -/
def sightLoop (scene : List (SceneObject α)) (direction : Vec3 α) (step : α) :
    Nat → Vec3 α → Bool
  | 0, _ => true
  | n + 1, currentPos =>
    let currentPos := add3 currentPos (mul3 direction step)
    if sightBlockedAt scene currentPos then false
    else sightLoop scene direction step n currentPos

/-- Source: `canSeePlayer(enemyPos)`. -/
def World.canSeePlayer (m : JSMath α) (w : World α) (enemyPos : Vec3 α) : Bool :=
  if w.player.isDead then false
  else
    let toPlayer := sub3 w.player.position enemyPos
    let distance := length3 m toPlayer
    if distance > ENEMY_FIRING_RANGE then false
    else
      let direction := normalize3 m toPlayer
      let step : α := 1 / 2
      let currentPos : Vec3 α := { enemyPos with y := enemyPos.y + 1 }
      let steps := m.floor (distance / step)
      sightLoop w.scene direction step steps.toNat currentPos

/-- The object that `fireEnemyProjectile(enemy)` builds, for an enemy at
`enemyPos`, a player at `playerPos` and the new identity `id`. -/
def enemyProjectile (m : JSMath α) (id : Nat) (playerPos enemyPos : Vec3 α) : SceneObject α :=
  let toPlayer := normalize3 m (sub3 playerPos enemyPos)
  let startPos := add3 enemyPos ⟨toPlayer.x * (1 / 2), 1, toPlayer.z * (1 / 2)⟩
  let box := makeBox (1 / 5 : α) (1 / 5) (1 / 5)
  { id := id
    name := "enemyProjectile"
    position := startPos
    rotation := vec3 0 0 0
    velocity := some (mul3 toPlayer (1 / 5))
    life := some 200
    boundingBox := some rayBox
    vertices := box.vertices
    edges := box.edges
    color := "#f00" }

/-- Source: `fireEnemyProjectile(enemy)`. -/
def World.fireEnemyProjectile (m : JSMath α) (w : World α) (enemy : Nat) : World α :=
  let projectile := enemyProjectile m w.nextId w.player.position (w.store enemy).position
  { w with
    store := Function.update w.store w.nextId projectile
    nextId := w.nextId + 1
    sceneObjects := w.sceneObjects ++ [w.nextId]
    projectiles := w.projectiles ++ [w.nextId] }

/-- The patrol logic of the loop body of `updateEnemies()`.  Reading
`start.x` or `end.x` of an absent `patrolStart` or `patrolEnd` is a
`TypeError`, which sets `crashed`.  With an absent `patrolTimer` or
`patrolDir` the position or the timer becomes `NaN`, which `α` cannot hold:
that state is outside this model and is flagged by `crashed` as well.
`createEnemy` sets all four, and in every reachable state every object in
`enemies` has them (`Reachable.typed`), so this branch is not taken there. -/
def World.patrolEnemy (w : World α) (e : Nat) : World α :=
  let o := { w.store e with id := e }
  match o.patrolStart, o.patrolEnd, o.patrolTimer, o.patrolDir with
  | some start, some end_, some t, some dir =>
    let x := start.x + (end_.x - start.x) * t
    let z := start.z + (end_.z - start.z) * t
    let o := { o with position := { o.position with x := x, z := z } }
    let speed : α := 1 / 200
    let o := { o with patrolTimer := some (t + speed * dir) }
    let o := if t + speed * dir > 1 then { o with patrolTimer := some 1, patrolDir := some (-1) }
      else o
    let o :=
      if (match o.patrolTimer with
          | some t2 => decide (t2 < 0)
          | none => false) then { o with patrolTimer := some 0, patrolDir := some 1 }
      else o
    w.setObj e o
  | _, _, _, _ => { w with crashed := true }

/-- The statement `if(e.hitFlashTimer>0) e.hitFlashTimer--;` of
`updateEnemies()`; an absent timer fails the test. -/
def World.tickEnemyFlash (w : World α) (e : Nat) : World α :=
  let o := w.store e
  match o.hitFlashTimer with
  | some t => if t > 0 then w.setObj e { o with hitFlashTimer := some (t - 1) } else w
  | none => w

/-- The test `!e.fireCooldown`: true for `0` and for an absent cooldown. -/
def cooldownOver (o : SceneObject α) : Bool :=
  match o.fireCooldown with
  | some c => decide (c = 0)
  | none => true

/-- The statement
`if(!e.fireCooldown) { if(canSeePlayer(e.position)) { e.fireCooldown = 120; fireEnemyProjectile(e); } }`
of `updateEnemies()`. -/
def World.enemyShoot (m : JSMath α) (w : World α) (e : Nat) : World α :=
  let o := w.store e
  if cooldownOver o then
    if w.canSeePlayer m o.position then
      (w.setObj e { o with fireCooldown := some 120 }).fireEnemyProjectile m e
    else w
  else w

/-- The statement `if(e.fireCooldown > 0) e.fireCooldown--;` of
`updateEnemies()`; an absent cooldown fails the test. -/
def World.tickEnemyCooldown (w : World α) (e : Nat) : World α :=
  let o := w.store e
  match o.fireCooldown with
  | some c => if c > 0 then w.setObj e { o with fireCooldown := some (c - 1) } else w
  | none => w

/-- The body of the loop of `updateEnemies()` for the enemy `e`.  Once the
frame loop has crashed nothing runs any more. -/
def World.enemyStep (m : JSMath α) (w : World α) (e : Nat) : World α :=
  if w.crashed then w
  else if !w.sceneObjects.contains e then w
  else
    let w := w.patrolEnemy e
    if w.crashed then w
    else ((w.tickEnemyFlash e).enemyShoot m e).tickEnemyCooldown e

/-- Source: `updateEnemies()`.  The loop `for (let e of enemies)` visits the
elements of `enemies` in order; its body never changes that array. -/
def World.updateEnemies (m : JSMath α) (w : World α) : World α :=
  w.enemies.foldl (World.enemyStep m) w

/-- The state in which the loop of `updateEnemies()` reaches the `k`-th
element of `enemies`: the iterations for the first `k` elements have run. -/
def World.updateEnemiesUpTo (m : JSMath α) (w : World α) (k : Nat) : World α :=
  (w.enemies.take k).foldl (World.enemyStep m) w

/-- The constant `gravity = 0.012`. -/
def gravity : α := 3 / 250

/-- The constant `jumpSpeed = 0.5`. -/
def jumpSpeed : α := 1 / 2

/-- The constant `baseMoveSpeed = 0.03`. -/
def baseMoveSpeed : α := 3 / 100

/-- The constant `friction = 0.94`. -/
def friction : α := 47 / 50

/-- The raw movement input `(moveX, moveZ)` that `updatePlayer()` reads from
the keys `w`, `s`, `a`, `d`. -/
def moveInput (keys : Keys) : α × α :=
  let moveX : α := 0
  let moveZ : α := 0
  let moveZ := if keys.w then moveZ + 1 else moveZ
  let moveZ := if keys.s then moveZ - 1 else moveZ
  let moveX := if keys.a then moveX - 1 else moveX
  let moveX := if keys.d then moveX + 1 else moveX
  (moveX, moveZ)

/-- The vector `moveDir` that `updatePlayer()` adds to `playerVel` when the
movement input is not zero: the input, scaled by `1/sqrt(2)` when diagonal,
turned into world space with the player's yaw, normalized and scaled by
`baseMoveSpeed`. -/
def playerMoveDir (m : JSMath α) (keys : Keys) (yaw : α) : Vec3 α :=
  let forwardDir := rotateY m ⟨0, 0, 1⟩ yaw
  let rightDir := rotateY m ⟨1, 0, 0⟩ yaw
  let moveDir : Vec3 α := vec3
  let moveX := (moveInput keys : α × α).1
  let moveZ := (moveInput keys : α × α).2
  let len := m.sqrt 2
  let moveX' := if moveX ≠ 0 ∧ moveZ ≠ 0 then moveX / len else moveX
  let moveZ' := if moveX ≠ 0 ∧ moveZ ≠ 0 then moveZ / len else moveZ
  let moveDir : Vec3 α :=
    { moveDir with
      x := forwardDir.x * moveZ' + rightDir.x * moveX'
      z := forwardDir.z * moveZ' + rightDir.z * moveX' }
  let moveDir := normalize3 m moveDir
  mul3 moveDir baseMoveSpeed

/-- Source: `fireProjectile()`.  The new projectiles are allocated at the
identities `nextId, nextId + 1, ...`; a weapon with a spread has called
`Math.random()` twice for each of them. -/
def World.fireProjectile (m : JSMath α) (w : World α) : World α :=
  let forwardDir := rotateY m ⟨0, 0, 1⟩ w.player.rotation.y
  let startPos := add3 w.player.position ⟨forwardDir.x * (1 / 2), 1, forwardDir.z * (1 / 2)⟩
  let spread : Bool :=
    match w.player.weaponSystem.getCurrentWeapon with
    | some cur => decide (cur.spreadAngle > 0)
    | none => false
  match w.player.weaponSystem.fireCurrentWeapon m (fun k => w.rand (w.randPos + k)) w.nextId
      startPos forwardDir with
  | none => { w with crashed := true }
  | some (none, ws) => { w with player := { w.player with weaponSystem := ws } }
  | some (some ps, ws) =>
    { w with
      player := { w.player with weaponSystem := ws }
      store := fun id =>
        match ps.find? (fun o => o.id == id) with
        | some o => o
        | none => w.store id
      nextId := w.nextId + ps.length
      sceneObjects := w.sceneObjects ++ ps.map (·.id)
      projectiles := w.projectiles ++ ps.map (·.id)
      randPos := w.randPos + (if spread then 2 * ps.length else 0) }

/-- The statement `if(player.hitFlashTimer > 0) player.hitFlashTimer--;` of
`updatePlayer()`. -/
def World.tickPlayerFlash (w : World α) : World α :=
  if w.player.hitFlashTimer > 0 then
    { w with player := { w.player with hitFlashTimer := w.player.hitFlashTimer - 1 } }
  else w

/-- The rotation statements of `updatePlayer()`. -/
def World.turnPlayer (w : World α) : World α :=
  let y := w.player.rotation.y
  let y := if w.keys.ArrowLeft then y - 1 / 20 else y
  let y := if w.keys.ArrowRight then y + 1 / 20 else y
  { w with player := { w.player with rotation := { w.player.rotation with y := y } } }

/-- The acceleration, friction, gravity and jump statements of
`updatePlayer()`; `yaw` is the player's yaw at the start of the call, from
which `forwardDir` and `rightDir` were computed. -/
def World.acceleratePlayer (m : JSMath α) (yaw : α) (w : World α) : World α :=
  let input : α × α := moveInput w.keys
  let vel := w.playerVel
  let vel : Vec3 α :=
    if input.1 ≠ 0 ∨ input.2 ≠ 0 then
      let moveDir := playerMoveDir m w.keys yaw
      { vel with x := vel.x + moveDir.x, z := vel.z + moveDir.z }
    else vel
  let vel : Vec3 α := { vel with x := vel.x * friction, z := vel.z * friction }
  let vel : Vec3 α := if !w.onGround then { vel with y := vel.y - gravity } else vel
  if w.keys.Shift && w.onGround then
    { w with playerVel := { vel with y := jumpSpeed }, onGround := false }
  else { w with playerVel := vel }

/-- The movement statements of `updatePlayer()`: slide, ground collision and
the zeroing of the velocity on blocked axes. -/
def World.movePlayer (w : World α) : World α :=
  let desiredPos := add3 w.player.position w.playerVel
  let newPos := slideMovement w.scene w.player w.player.position w.playerVel
  let landed : Bool := decide (newPos.y ≤ 0)
  let newPos : Vec3 α := if landed then { newPos with y := 0 } else newPos
  let vel := w.playerVel
  let vel : Vec3 α := if landed then { vel with y := 0 } else vel
  let vel : Vec3 α := if newPos.x ≠ desiredPos.x then { vel with x := 0 } else vel
  let vel : Vec3 α := if newPos.z ≠ desiredPos.z then { vel with z := 0 } else vel
  let vel : Vec3 α := if newPos.y ≠ desiredPos.y then { vel with y := 0 } else vel
  { w with
    playerVel := vel
    onGround := landed || w.onGround
    player := { w.player with position := newPos } }

/-- The weapon statements of `updatePlayer()`. -/
def World.playerWeapons (m : JSMath α) (w : World α) : World α :=
  match w.player.weaponSystem.update with
  | none => { w with crashed := true }
  | some ws =>
    let w : World α := { w with player := { w.player with weaponSystem := ws } }
    let w : World α := if w.keys.Space then w.fireProjectile m else w
    if w.crashed then w
    else
      let ws := w.player.weaponSystem
      let ws := if w.keys.one then (ws.switchWeapon 0).2 else ws
      let ws := if w.keys.two then (ws.switchWeapon 1).2 else ws
      { w with player := { w.player with weaponSystem := ws } }

/-- Source: `updatePlayer()`. -/
def World.updatePlayer (m : JSMath α) (w : World α) : World α :=
  if w.crashed then w
  else
    let yaw := w.player.rotation.y
    let w := w.tickPlayerFlash
    let w := w.turnPlayer
    let w := w.acceleratePlayer m yaw
    let w := w.movePlayer
    w.playerWeapons m

/-- The state `w'` comes from `w` by allocating and pushing `n` fragments and
nothing else: the `n` new identities are appended to `fragments` and to
`sceneObjects`, no older object is touched, and every other global except
the position in the random sequence is as before. -/
structure Spawned (n : Nat) (w w' : World α) : Prop where
  enemies : w'.enemies = w.enemies
  projectiles : w'.projectiles = w.projectiles
  player : w'.player = w.player
  crashed : w'.crashed = w.crashed
  nextId : w'.nextId = w.nextId + n
  fragments : w'.fragments = w.fragments ++ List.range' w.nextId n
  sceneObjects : w'.sceneObjects = w.sceneObjects ++ List.range' w.nextId n
  store : ∀ id, id < w.nextId → w'.store id = w.store id
  velocity : ∀ id, (w.store id).velocity ≠ none → (w'.store id).velocity ≠ none

/-- The step from `w` to `w'` leaves the object `p` alone: its stored state
and the number of its occurrences in `sceneObjects` are as before,
`projectiles` is as before, no identity is reused, no enemy is added, the
player object is the same object, no `TypeError` is raised, and no object
loses its velocity. -/
structure Frame (p : Nat) (w w' : World α) : Prop where
  crashed : w'.crashed = w.crashed
  nextId : w.nextId ≤ w'.nextId
  playerId : w'.player.id = w.player.id
  enemies : ∀ e, e ∈ w'.enemies → e ∈ w.enemies
  store : w'.store p = w.store p
  scene : w'.sceneObjects.count p = w.sceneObjects.count p
  projectiles : w'.projectiles = w.projectiles
  velocity : ∀ id, (w.store id).velocity ≠ none → (w'.store id).velocity ≠ none

/-- Heap discipline for the object `p` in state `w`: the frame loop has not
crashed, `p` was allocated before `nextId`, `p` is neither the player object
nor in `enemies`, no object occurs twice in `projectiles`, and every object
in `projectiles` has a velocity (both constructors of projectiles give it
one). -/
structure Safe (p : Nat) (w : World α) : Prop where
  alive : w.crashed = false
  fresh : p < w.nextId
  notPlayer : p ≠ w.player.id
  notEnemy : p ∉ w.enemies
  nodup : w.projectiles.Nodup
  velocities : ∀ q, q ∈ w.projectiles → (w.store q).velocity ≠ none

/-- The result `r` of a step from `w` leaves the object `p` alone, apart
from possibly removing the entry at index `i` of `projectiles`. -/
def FrameOrDrop (p i : Nat) (w r : World α) : Prop :=
  ∃ w', Frame p w w' ∧ (r = w' ∨ r = { w' with projectiles := w'.projectiles.eraseIdx i })

/-! ### The initial scene and the frame loop -/

/-- The constant `wallColor`. -/
def wallColor : String := "#0a0"

/-- The object literal pushed first onto `sceneObjects`: the ground. -/
def groundObject : SceneObject α :=
  let ground := makeGround (200 : α) 20
  { id := 0
    name := "ground"
    position := vec3 0 0 0
    rotation := vec3 0 0 0
    color := "#084"
    vertices := ground.vertices
    edges := ground.edges
    boundingBox := none }

/-- The arguments `(x, y, z, w, h, d)` of the twelve `createBoxObj` calls for
the perimeter, inner and diagonal walls, in the order of the pushes. -/
def wallSpecs : List (α × α × α × α × α × α) :=
  [ (-100, 5 / 2, 0, 1, 5, 200), (100, 5 / 2, 0, 1, 5, 200),
    (0, 5 / 2, -100, 200, 5, 1), (0, 5 / 2, 100, 200, 5, 1),
    (-50, 5 / 2, -60, 60, 5, 1), (50, 5 / 2, -40, 60, 5, 1),
    (-60, 5 / 2, 40, 60, 5, 1), (60, 5 / 2, 60, 60, 5, 1),
    (-70, 5 / 2, -20, 1, 5, 40), (70, 5 / 2, 20, 1, 5, 40),
    (-40, 5 / 2, 70, 1, 5, 60), (40, 5 / 2, -70, 1, 5, 60) ]

/-- The array `pillarPositions`. -/
def pillarPositions : List (Int × Int) :=
  [ (-60, -70), (60, -70), (-70, -30), (70, -30), (-60, 30), (60, 30),
    (-70, 70), (70, 70), (-40, 0), (40, 0), (0, -60), (0, 60) ]

/-- The constant `numRandomPillars = 25`. -/
def numRandomPillars : Nat := 25

/-- The pillar `createBoxObj(x,5,z,2,10,2,wallColor)`. -/
def pillarAt (p : Int × Int) : SceneObject α :=
  createBoxObj 0 (p.1 : α) 5 (p.2 : α) 2 10 2 wallColor

/-- The `do ... while` loop that draws the place of one random pillar,
starting at position `pos` of the random sequence; `usedPositions` is the set
of places taken (the keys `x,z` of the source are in one-to-one
correspondence with the pairs of integers).  The loop ends when a drawn place
is accepted; `none` when it has not ended after `fuel` rounds. -/
def drawPillarSpot (m : JSMath α) (rand : Nat → α) (usedPositions : List (Int × Int)) :
    Nat → Nat → Option ((Int × Int) × Nat)
  | 0, _ => none
  | fuel + 1, pos =>
    let x := m.floor (rand pos * 180 - 90)
    let z := m.floor (rand (pos + 1) * 180 - 90)
    if usedPositions.contains (x, z) || (decide (|x| < 10) && decide (|z| < 10)) then
      drawPillarSpot m rand usedPositions fuel (pos + 2)
    else some ((x, z), pos + 2)

/-- The loop `for (let i = 0; i < numRandomPillars; i++)` with `n` iterations
to go: the places accepted, in order, and the position reached in the random
sequence. -/
def randomPillarSpots (m : JSMath α) (rand : Nat → α) (fuel : Nat) :
    Nat → List (Int × Int) → Nat → Option (List (Int × Int) × Nat)
  | 0, _, pos => some ([], pos)
  | n + 1, usedPositions, pos =>
    match drawPillarSpot m rand usedPositions fuel pos with
    | none => none
    | some (p, pos2) =>
      match randomPillarSpots m rand fuel n (usedPositions ++ [p]) pos2 with
      | none => none
      | some (ps, pos3) => some (p :: ps, pos3)

/-- The objects pushed onto `sceneObjects` before the player: the ground, the
walls, the tall pillars and the random pillars at `spots`. -/
def staticObjects (spots : List (Int × Int)) : List (SceneObject α) :=
  [groundObject] ++
    wallSpecs.map (fun s => createBoxObj 0 s.1 s.2.1 s.2.2.1 s.2.2.2.1 s.2.2.2.2.1 s.2.2.2.2.2
      wallColor) ++
    pillarPositions.map pillarAt ++ spots.map pillarAt

/-- The state after the top-level statements of the script, before the first
call of `gameLoop()`.  Objects get their identities in the order of their
allocation, which is the order of the pushes onto `sceneObjects`: the static
objects first, then the player, then the three enemies.  `rand` is the
sequence of results of `Math.random()`; `none` when a `do ... while` loop has
not ended after `fuel` rounds. -/
def initialWorld (m : JSMath α) (rand : Nat → α) (fuel : Nat) : Option (World α) :=
  match randomPillarSpots m rand fuel numRandomPillars pillarPositions 0 with
  | none => none
  | some (spots, pos) =>
    let statics : List (SceneObject α) := staticObjects spots
    let n := statics.length
    let e1 := createEnemy m (n + 1) (fun k => rand (pos + k)) 5 25 5 0
    let e2 := createEnemy m (n + 2) (fun k => rand (pos + 1 + k)) (-5) 10 (-5) 5
    let e3 := createEnemy m (n + 3) (fun k => rand (pos + 2 + k)) 20 (-10) 10 10
    let objs := statics ++ [(initialPlayer n).toSceneObject, e1, e2, e3]
    some
      { store := fun id => { objs.getD id groundObject with id := id }
        nextId := n + 4
        sceneObjects := List.range (n + 4)
        enemies := [n + 1, n + 2, n + 3]
        projectiles := []
        fragments := []
        player := initialPlayer n
        playerVel := vec3 0 0 0
        onGround := true
        keys := {}
        rand := rand
        randPos := pos + 3 }

/-- Source: `gameLoop()`, as far as the state of the game goes (drawing reads
the state only).  After an uncaught `TypeError` the next frame is never
requested. -/
def World.gameLoop (m : JSMath α) (w : World α) : World α :=
  if w.crashed then w
  else if !w.player.isDead then
    (((w.updateEnemies m).updatePlayer m).updateProjectiles m).updateFragments m
  else
    ((w.updateEnemies m).updateProjectiles m).updateFragments m

/-- The effect of the `keydown`, `keyup` and `blur` handlers between two
frames: the key states become `keys`, and when `stop` is set the statements
`playerVel.x = 0; playerVel.z = 0;` run. -/
def World.input (w : World α) (keys : Keys) (stop : Bool) : World α :=
  { w with
    keys := keys
    playerVel := if stop then { w.playerVel with x := 0, z := 0 } else w.playerVel }

/-- The states the game can be in between two statements of `gameLoop()` or
two iterations of its loops: the initial scene, and from any such state the
state after `updateEnemies()`, `updatePlayer()`, `updateProjectiles()`,
`updateFragments()`, after one iteration of one of their loops, or after an
input event. -/
inductive Reachable (m : JSMath α) : World α → Prop
  | init (rand : Nat → α) (fuel : Nat) (w : World α) :
      initialWorld m rand fuel = some w → Reachable m w
  | updateEnemies (w : World α) : Reachable m w → Reachable m (w.updateEnemies m)
  | updatePlayer (w : World α) : Reachable m w → Reachable m (w.updatePlayer m)
  | updateProjectiles (w : World α) : Reachable m w → Reachable m (w.updateProjectiles m)
  | updateFragments (w : World α) : Reachable m w → Reachable m (w.updateFragments m)
  | enemyStep (w : World α) (e : Nat) : Reachable m w → Reachable m (w.enemyStep m e)
  | projectileStep (w : World α) (i : Nat) : Reachable m w → Reachable m (w.projectileStep m i)
  | fragmentStep (w : World α) (i : Nat) : Reachable m w → Reachable m (w.fragmentStep m i)
  | input (w : World α) (keys : Keys) (stop : Bool) :
      Reachable m w → Reachable m (w.input keys stop)

/-- The arrays move in lockstep: an identity allocated after the player
occurs in `sceneObjects` exactly as often as in `enemies`, `projectiles` and
`fragments` together, and no other identity occurs in those three arrays; no
identity occurs twice in `sceneObjects`; every identity in `sceneObjects`,
and that of the player, was allocated before `nextId`. -/
structure Lockstep (w : World α) : Prop where
  counts : ∀ id, w.enemies.count id + w.projectiles.count id + w.fragments.count id =
    if w.player.id < id then w.sceneObjects.count id else 0
  nodup : w.sceneObjects.Nodup
  bounded : ∀ id, id ∈ w.sceneObjects → id < w.nextId
  playerFresh : w.player.id < w.nextId

/-- The object `o'` has each of the fields `velocity`, `gravity`,
`patrolStart`, `patrolEnd`, `patrolTimer` and `patrolDir` that `o` has. -/
structure KeepsFields (o o' : SceneObject α) : Prop where
  velocity : o.velocity ≠ none → o'.velocity ≠ none
  gravity : o.gravity ≠ none → o'.gravity ≠ none
  patrolStart : o.patrolStart ≠ none → o'.patrolStart ≠ none
  patrolEnd : o.patrolEnd ≠ none → o'.patrolEnd ≠ none
  patrolTimer : o.patrolTimer ≠ none → o'.patrolTimer ≠ none
  patrolDir : o.patrolDir ≠ none → o'.patrolDir ≠ none

/-- Every object in `fragments` has a `velocity` and a `gravity`, and every
object in `enemies` has its four patrol fields: the loop bodies of
`updateFragments()` and `updateEnemies()` then read numbers only, and the
branches of `World.moveFragment` and `World.patrolEnemy` that stand for
`NaN` or a `TypeError` are not taken. -/
structure Typed (w : World α) : Prop where
  fragments : ∀ f, f ∈ w.fragments →
    (w.store f).velocity ≠ none ∧ (w.store f).gravity ≠ none
  enemies : ∀ x, x ∈ w.enemies →
    (w.store x).patrolStart ≠ none ∧ (w.store x).patrolEnd ≠ none ∧
      (w.store x).patrolTimer ≠ none ∧ (w.store x).patrolDir ≠ none

/-- The step from `w` to `w'` is none of the enemy `e`'s own business: no
identity is reused, the `fireCooldown` of `e` is as before, no enemy is
added, a crashed frame loop stays crashed, the arrays stay in lockstep, and
the objects in `fragments` and `enemies` keep the fields of `Typed`. -/
structure Tame (e : Nat) (w w' : World α) : Prop where
  nextId : w.nextId ≤ w'.nextId
  cooldown : e < w.nextId → (w'.store e).fireCooldown = (w.store e).fireCooldown
  enemies : ∀ x, x ∈ w'.enemies → x ∈ w.enemies
  crashed : w.crashed = true → w'.crashed = true
  lockstep : Lockstep w → Lockstep w'
  typed : Lockstep w → Typed w → Typed w'

/-- In state `w`, the loop body of `updateEnemies()` for the enemy `e` reaches
the call `fireEnemyProjectile(e)`: the frame loop runs, `e` is in
`sceneObjects`, and after the patrol and hit-flash statements the test
`!e.fireCooldown` and the call `canSeePlayer(e.position)` both succeed. -/
def World.enemyFires (m : JSMath α) (w : World α) (e : Nat) : Bool :=
  !w.crashed && w.sceneObjects.contains e && !(w.patrolEnemy e).crashed &&
    cooldownOver (((w.patrolEnemy e).tickEnemyFlash e).store e) &&
    ((w.patrolEnemy e).tickEnemyFlash e).canSeePlayer m
      ((((w.patrolEnemy e).tickEnemyFlash e).store e).position)

/-- During the call `updateEnemies()` made in state `w`, the enemy `e` is
visited and fires. -/
def World.firesInTick (m : JSMath α) (w : World α) (e : Nat) : Bool :=
  w.enemies.contains e && (w.updateEnemiesUpTo m (w.enemies.indexOf e)).enemyFires m e

end WorldDefs

/-! ## The movement increment in double precision

JavaScript numbers are IEEE 754 binary64 values.  The definitions of this
section evaluate the statements of `updatePlayer()` that build `moveDir` with
every arithmetic operation rounded to the nearest binary64 value (ties to
even).  A finite binary64 value is represented by the rational number it
denotes; `NaN`, the infinities, the sign of zero, subnormal numbers and
overflow are left out, none of which occurs in the computations made here
(every value met is `0` or lies between `2^(-12)` and `2`). -/

/-- The power `2^e` for an integer `e`. -/
def F64.pow2 (e : Int) : ℚ :=
  if 0 ≤ e then ((2 ^ e.toNat : Nat) : ℚ) else 1 / ((2 ^ (-e).toNat : Nat) : ℚ)

/-- Halve `n` until it is below 2, counting the steps (at most `fuel`). -/
def F64.log2Loop : Nat → Nat → Nat
  | 0, _ => 0
  | f + 1, n => if n < 2 then 0 else F64.log2Loop f (n / 2) + 1

/-- The integer part of the binary logarithm of `n ≥ 1`. -/
def F64.natLog2 (n : Nat) : Nat := F64.log2Loop n n

/-- The integer part of the binary logarithm of a rational `a > 0`: the
difference of the logarithms of numerator and denominator is that integer or
one more. -/
def F64.floorLog2 (a : ℚ) : Int :=
  let k : Int := (F64.natLog2 a.num.natAbs : Int) - (F64.natLog2 a.den : Int)
  if F64.pow2 k ≤ a then k else k - 1

/-- Round to the nearest integer, ties to the even one. -/
def F64.roundHalfEven (q : ℚ) : Int :=
  let f := ⌊q⌋
  let r := q - f
  if r < 1 / 2 then f else if 1 / 2 < r then f + 1 else if f % 2 = 0 then f else f + 1

/-- The binary64 value nearest to `q` (ties to even): the 53-bit significand
`a / 2^e`, with `2^52 ≤ a / 2^e < 2^53`, is rounded to an integer. -/
def F64.round (q : ℚ) : ℚ :=
  if q = 0 then 0
  else
    let a := |q|
    let e := F64.floorLog2 a - 52
    let mant := F64.roundHalfEven (a / F64.pow2 e)
    (if q < 0 then -1 else 1) * (mant : ℚ) * F64.pow2 e

/-- Bisection for the integer square root, keeping `lo^2 ≤ n < hi^2`. -/
def F64.isqrtLoop : Nat → Nat → Nat → Nat → Nat
  | 0, lo, _, _ => lo
  | f + 1, lo, hi, n =>
    if hi ≤ lo + 1 then lo
    else
      let mid := (lo + hi) / 2
      if mid * mid ≤ n then F64.isqrtLoop f mid hi n else F64.isqrtLoop f lo mid n

/-- The integer part of the square root of `n`. -/
def F64.isqrt (n : Nat) : Nat := F64.isqrtLoop (n + 1) 0 (n + 1) n

/-- `Math.sqrt(q)` as the processors compute it: the binary64 value nearest
to the square root of `q > 0` (ties to even).  With `t = q / 4^e` between
`2^104` and `2^106` and `r` the integer part of its square root, the
significand is `r` or `r + 1` according to the side of `(r + 1/2)^2` on which
`t` lies.  For `q ≤ 0` the result here is `0` (the square root of a negative
number is `NaN`, left out of this model). -/
def F64.sqrt (q : ℚ) : ℚ :=
  if q ≤ 0 then 0
  else
    let e : Int := ⌊((F64.floorLog2 q : Int) : ℚ) / 2⌋ - 52
    let t := q / F64.pow2 (2 * e)
    let r : Nat := F64.isqrt ⌊t⌋.toNat
    let half : ℚ := (r : ℚ) * r + r + 1 / 4
    let mant : Nat :=
      if t < half then r else if half < t then r + 1 else if r % 2 = 0 then r else r + 1
    (mant : ℚ) * F64.pow2 e

/-- The binary64 sum `a + b`. -/
def F64.add (a b : ℚ) : ℚ := F64.round (a + b)

/-- The binary64 difference `a - b`. -/
def F64.sub (a b : ℚ) : ℚ := F64.round (a - b)

/-- The binary64 product `a * b`. -/
def F64.mul (a b : ℚ) : ℚ := F64.round (a * b)

/-- The binary64 quotient `a / b` for `b ≠ 0`. -/
def F64.div (a b : ℚ) : ℚ := F64.round (a / b)

/-- Source: `rotateY(v, angle)`, in binary64. -/
def F64.rotateY (m : JSMath ℚ) (v : Vec3 ℚ) (angle : ℚ) : Vec3 ℚ :=
  let s := m.sin angle
  let c := m.cos angle
  ⟨F64.add (F64.mul v.x c) (F64.mul v.z s), v.y, F64.add (F64.mul (-v.x) s) (F64.mul v.z c)⟩

/-- Source: `mul3(a,s)`, in binary64. -/
def F64.mul3 (a : Vec3 ℚ) (s : ℚ) : Vec3 ℚ :=
  ⟨F64.mul a.x s, F64.mul a.y s, F64.mul a.z s⟩

/-- Source: `dot3(a,b)`, in binary64. -/
def F64.dot3 (a b : Vec3 ℚ) : ℚ :=
  F64.add (F64.add (F64.mul a.x b.x) (F64.mul a.y b.y)) (F64.mul a.z b.z)

/-- Source: `length3(v)`, in binary64. -/
def F64.length3 (m : JSMath ℚ) (v : Vec3 ℚ) : ℚ := m.sqrt (F64.dot3 v v)

/-- Source: `normalize3(v)`, in binary64. -/
def F64.normalize3 (m : JSMath ℚ) (v : Vec3 ℚ) : Vec3 ℚ :=
  let l := F64.length3 m v
  if l = 0 then vec3 else ⟨F64.div v.x l, F64.div v.y l, F64.div v.z l⟩

/-- The constant `baseMoveSpeed = 0.03`: the binary64 value of the literal. -/
def F64.baseMoveSpeed : ℚ := F64.round (3 / 100)

/-- The constant `friction = 0.94`: the binary64 value of the literal. -/
def F64.friction : ℚ := F64.round (47 / 50)

/-- The constant `gravity = 0.012`: the binary64 value of the literal. -/
def F64.gravity : ℚ := F64.round (3 / 250)

/-- The vector `moveDir` that `updatePlayer()` adds to `playerVel` when the
movement input is not zero, in binary64 (the counterpart of `playerMoveDir`;
the key counts `moveX`, `moveZ` are small integers, exact in binary64). -/
def F64.playerMoveDir (m : JSMath ℚ) (keys : Keys) (yaw : ℚ) : Vec3 ℚ :=
  let forwardDir := F64.rotateY m ⟨0, 0, 1⟩ yaw
  let rightDir := F64.rotateY m ⟨1, 0, 0⟩ yaw
  let moveDir : Vec3 ℚ := vec3
  let moveX := (moveInput keys : ℚ × ℚ).1
  let moveZ := (moveInput keys : ℚ × ℚ).2
  let len := m.sqrt 2
  let moveX' := if moveX ≠ 0 ∧ moveZ ≠ 0 then F64.div moveX len else moveX
  let moveZ' := if moveX ≠ 0 ∧ moveZ ≠ 0 then F64.div moveZ len else moveZ
  let moveDir : Vec3 ℚ :=
    { moveDir with
      x := F64.add (F64.mul forwardDir.x moveZ') (F64.mul rightDir.x moveX')
      z := F64.add (F64.mul forwardDir.z moveZ') (F64.mul rightDir.z moveX') }
  let moveDir := F64.normalize3 m moveDir
  F64.mul3 moveDir F64.baseMoveSpeed

/-- The acceleration, friction, gravity and jump statements of
`updatePlayer()` in binary64 (the counterpart of `World.acceleratePlayer`):
the values of `playerVel` and `onGround` after them. -/
def F64.acceleratePlayer (m : JSMath ℚ) (yaw : ℚ) (keys : Keys) (onGround : Bool)
    (playerVel : Vec3 ℚ) : Vec3 ℚ × Bool :=
  let input : ℚ × ℚ := moveInput keys
  let vel := playerVel
  let vel : Vec3 ℚ :=
    if input.1 ≠ 0 ∨ input.2 ≠ 0 then
      let moveDir := F64.playerMoveDir m keys yaw
      { vel with x := F64.add vel.x moveDir.x, z := F64.add vel.z moveDir.z }
    else vel
  let vel : Vec3 ℚ := { vel with x := F64.mul vel.x F64.friction, z := F64.mul vel.z F64.friction }
  let vel : Vec3 ℚ := if !onGround then { vel with y := F64.sub vel.y F64.gravity } else vel
  if keys.Shift && onGround then ({ vel with y := 1 / 2 }, false)
  else (vel, onGround)

/-! ## Concrete data used to evaluate the definitions -/

/-- A stand-in for the platform functions over `ℚ`: the values of sine and
cosine at angle `0`, the identity for the square root, the rational floor and
a rational stand-in for `Math.PI`. -/
def sampleMath : JSMath ℚ :=
  { sin := fun _ => 0, cos := fun _ => 1, sqrt := fun x => x, floor := fun x => ⌊x⌋, PI := 22 / 7 }

/-- A sample sequence of `Math.random()` results. -/
def sampleRand : Nat → ℚ := fun _ => 1 / 2

/-- The forward direction `{x:0, y:0, z:1}`. -/
def forwardZ : Vec3 ℚ := ⟨0, 0, 1⟩

/-- A muzzle position. -/
def muzzle : Vec3 ℚ := ⟨0, 1, 1 / 2⟩

/-- Arguments of a sample firing session. -/
def sampleArgs : FireArgs ℚ :=
  { rand := fun _ => sampleRand
    nextId := fun k => 100 + 8 * k
    position := fun _ => muzzle
    direction := fun _ => forwardZ }

/-- The player of the sample scenes, with identity `0`. -/
def samplePlayer : Player ℚ := initialPlayer 0

/-- The left perimeter wall `createBoxObj(-100,2.5,0,1,5,200,wallColor)`. -/
def leftWall : SceneObject ℚ := createBoxObj 1 (-100) (5 / 2) 0 1 5 200 "#0a0"

/-- A box of side 2 centred at height 3, so that it spans heights 2 to 4. -/
def raisedBox : SceneObject ℚ := createBoxObj 2 0 3 0 2 2 2 "#0a0"

/-- An object named `enemy` standing at `(0,0,3)` with the bounding box that
`createEnemy` gives every enemy. -/
def sampleEnemy : SceneObject ℚ :=
  { id := 3
    name := "enemy"
    position := vec3 0 0 3
    rotation := vec3 0 0 0
    vertices := (makePyramid (1 : ℚ) 2).vertices
    edges := (makePyramid (1 : ℚ) 2).edges
    color := "#f00"
    boundingBox := some { min := vec3 (-(1 / 2)) 0 (-(1 / 2)), max := vec3 (1 / 2) 2 (1 / 2) } }

/-- A rifle projectile in flight at `(-99, 1, 0)`, as `createProjectile`
builds it. -/
def sampleProjectile : SceneObject ℚ :=
  Weapon.projectileAt sampleMath Rifle sampleRand 4 (vec3 (-99) 1 0) forwardZ 0

/-- The scene of the player and one enemy. -/
def enemyScene : List (SceneObject ℚ) := [samplePlayer.toSceneObject, sampleEnemy]

/-- The scene of the player, the left wall and a projectile in flight. -/
def wallScene : List (SceneObject ℚ) := [samplePlayer.toSceneObject, leftWall, sampleProjectile]

/-- The scene of the player alone. -/
def emptyScene : List (SceneObject ℚ) := [samplePlayer.toSceneObject]

/-- The scene of the player and the raised box. -/
def ledgeScene : List (SceneObject ℚ) := [samplePlayer.toSceneObject, raisedBox]

/-- The first enemy of the arena, `createEnemy(5,25,5,0)`, with identity `5`. -/
def firstEnemy : SceneObject ℚ := createEnemy sampleMath 5 sampleRand 5 25 5 0

/-- A rifle round in flight next to the first enemy, with 3 ticks to live. -/
def rifleRound : SceneObject ℚ :=
  { Weapon.projectileAt sampleMath Rifle sampleRand 6 (vec3 5 1 (122 / 5)) forwardZ 0 with
    life := some 3 }

/-- A shotgun pellet at the same place. -/
def shotgunPellet : SceneObject ℚ :=
  Weapon.projectileAt sampleMath Shotgun sampleRand 7 (vec3 5 1 (122 / 5)) forwardZ 0

/-- A rifle round in open space, with 2 ticks to live. -/
def strayRound : SceneObject ℚ :=
  { Weapon.projectileAt sampleMath Rifle sampleRand 8 (vec3 50 1 50) forwardZ 0 with
    life := some 2 }

/-- An enemy projectile at `(4/5, 1, 0)`, beside the player at the origin. -/
def enemyShot : SceneObject ℚ :=
  { id := 9
    name := "enemyProjectile"
    position := vec3 (4 / 5) 1 0
    rotation := vec3 0 0 0
    velocity := some (vec3 0 0 0)
    life := some 200
    boundingBox := some { min := vec3 (-(1 / 10)) (-(1 / 10)) (-(1 / 10)),
                          max := vec3 (1 / 10) (1 / 10) (1 / 10) }
    vertices := (makeBox (1 / 5 : ℚ) (1 / 5) (1 / 5)).vertices
    edges := (makeBox (1 / 5 : ℚ) (1 / 5) (1 / 5)).edges
    color := "#f00" }

/-- A store holding the left wall, the first enemy and the sample projectiles
at their identities. -/
def sampleStore : Nat → SceneObject ℚ := fun id =>
  if id = 5 then firstEnemy
  else if id = 6 then rifleRound
  else if id = 7 then shotgunPellet
  else if id = 8 then strayRound
  else if id = 9 then enemyShot
  else leftWall

/-- A state with the player (identity `0`), the left wall, the first enemy
and the stray round in the scene. -/
def sampleWorld : World ℚ :=
  { store := sampleStore
    nextId := 10
    sceneObjects := [0, 1, 5, 8]
    enemies := [5]
    projectiles := [8]
    fragments := []
    player := samplePlayer
    playerVel := vec3 0 0 0
    onGround := true
    keys := {}
    rand := sampleRand
    randPos := 0 }

/-- The sample state in which the first enemy has been hit once: health 2 and
an active hit flash. -/
def flashingEnemyWorld : World ℚ :=
  sampleWorld.damageEnemy sampleMath 5 rifleRound

/-- A state in which the player, alone in the scene and moving with velocity
`(0.01, 0, 0.02)`, holds the keys `keys`. -/
def movingWorld {α : Type} [LinearOrderedField α] (keys : Keys) : World α :=
  { store := fun id => (initialPlayer id).toSceneObject
    nextId := 1
    sceneObjects := [0]
    enemies := []
    projectiles := []
    fragments := []
    player := initialPlayer 0
    playerVel := vec3 (1 / 100) 0 (1 / 50)
    onGround := true
    keys := keys
    rand := fun _ => 0
    randPos := 0 }

/-- The platform functions in binary64 at yaw `0`: `Math.sqrt` is the
correctly rounded square root, and sine and cosine hold their values at angle
`0` (`Math.sin(0)` is `0` and `Math.cos(0)` is `1`). -/
def doubleMathAtZero : JSMath ℚ :=
  { sin := fun _ => 0, cos := fun _ => 1, sqrt := F64.sqrt, floor := fun x => ⌊x⌋,
    PI := 884279719003555 / 281474976710656 }

/-- Forward and right pressed together (keys `w` and `d`). -/
def diagonalKeys : Keys := { w := true, d := true }

/-- Forward alone (key `w`). -/
def forwardKeys : Keys := { w := true }

/-- An enemy standing at `(0,0,60)`, 60 units from the player at the origin,
ready to fire (cooldown 0), with identity `5`. -/
def farEnemy : SceneObject ℚ :=
  { createEnemy sampleMath 5 sampleRand 0 60 5 0 with fireCooldown := some 0 }

/-- The sample state with the far enemy in place of the first enemy. -/
def farEnemyWorld : World ℚ :=
  { sampleWorld with store := fun id => if id = 5 then farEnemy else sampleStore id }

/-- An enemy standing at `(0,0,5)`, in range of the player at the origin and
in plain sight, ready to fire (cooldown 0), with identity `5`. -/
def nearEnemy : SceneObject ℚ :=
  { createEnemy sampleMath 5 sampleRand 0 5 5 0 with fireCooldown := some 0 }

/-- The sample state with the near enemy in place of the first enemy. -/
def nearEnemyWorld : World ℚ :=
  { sampleWorld with store := fun id => if id = 5 then nearEnemy else sampleStore id }

/-- A sequence of results of `Math.random()` in `[0, 1)` with which every
random pillar is placed at the first draw. -/
def arenaRand : Nat → ℚ := fun k => (((37 * k + 11) % 180 : Nat) : ℚ) / 180

/-- The initial scene built with the results `arenaRand`. -/
def arenaWorld : World ℚ := (initialWorld sampleMath arenaRand 1).getD sampleWorld

/-- A scene that is in lockstep: a wall (identity `0`), the player (identity
`1`) and the near enemy (identity `2`), which is in range, in plain sight and
ready to fire. -/
def duelWorld : World ℚ :=
  { store := fun id => if id = 2 then { nearEnemy with id := 2 } else leftWall
    nextId := 3
    sceneObjects := [0, 1, 2]
    enemies := [2]
    projectiles := []
    fragments := []
    player := initialPlayer 1
    playerVel := vec3 0 0 0
    onGround := true
    keys := {}
    rand := sampleRand
    randPos := 0 }

/-- The weapon system after the player switched to the shotgun, fired it once
and switched back to the rifle: the rifle is current, the holstered shotgun
has 23 shells and its cooldown at 120. -/
def hotShotgunSystem : WeaponSystem ℚ :=
  { weapons := [Rifle, { (Shotgun : Weapon ℚ) with ammo := 23, currentCooldown := 120 }]
    currentWeaponIndex := 0 }

/-- A rifle that has run out of ammunition. -/
def emptyRifle : Weapon ℚ := { (Rifle : Weapon ℚ) with ammo := 0 }

/-- A weapon system whose current weapon is the empty rifle. -/
def emptyRifleSystem : WeaponSystem ℚ := { weapons := [emptyRifle, Shotgun], currentWeaponIndex := 0 }

section WeaponTheorems

variable {α : Type}

theorem Weapon.canFire_eq_true_iff (w : Weapon α) :
    w.canFire = true ↔ w.ammo > 0 ∧ w.currentCooldown ≤ 0 := by
  simp [Weapon.canFire]

theorem Weapon.canFire_eq_false_iff (w : Weapon α) :
    w.canFire = false ↔ w.ammo ≤ 0 ∨ w.currentCooldown > 0 := by
  rw [← Bool.not_eq_true, Weapon.canFire_eq_true_iff]
  constructor
  · intro h
    by_cases ha : w.ammo > 0
    · right
      by_contra hc
      exact h ⟨ha, not_lt.mp hc⟩
    · left
      exact not_lt.mp ha
  · rintro (h | h) ⟨ha, hc⟩
    · exact absurd ha (not_lt.mpr h)
    · exact absurd hc (not_le.mpr h)

theorem Weapon.createProjectile_of_canFire [LinearOrderedField α] (m : JSMath α) (w : Weapon α) (rand : Nat → α)
    (nextId : Nat) (position direction : Vec3 α) (h : w.canFire = true) :
    w.createProjectile m rand nextId position direction =
      (some ((List.range w.projectilesPerShot).map
          (Weapon.projectileAt m
            { w with ammo := w.ammo - 1, currentCooldown := w.cooldown }
            rand nextId position direction)),
        { w with ammo := w.ammo - 1, currentCooldown := w.cooldown }) := by
  simp [Weapon.createProjectile, h]

theorem Weapon.createProjectile_of_not_canFire [LinearOrderedField α] (m : JSMath α) (w : Weapon α) (rand : Nat → α)
    (nextId : Nat) (position direction : Vec3 α) (h : w.canFire = false) :
    w.createProjectile m rand nextId position direction = (none, w) := by
  simp [Weapon.createProjectile, h]

/-- C1: when `ammo > 0` and `currentCooldown <= 0`, `createProjectile` lowers
`ammo` by exactly one (leaving it non-negative), sets `currentCooldown` to the
configured `cooldown`, and returns a list of exactly `projectilesPerShot`
projectiles, each with `life` 200 and `damage` equal to the weapon's. -/
theorem Weapon.createProjectile_fires [LinearOrderedField α] (m : JSMath α) (w : Weapon α) (rand : Nat → α)
    (nextId : Nat) (position direction : Vec3 α)
    (hammo : w.ammo > 0) (hcd : w.currentCooldown ≤ 0) :
    (w.createProjectile m rand nextId position direction).2.ammo = w.ammo - 1 ∧
    (w.createProjectile m rand nextId position direction).2.ammo ≥ 0 ∧
    (w.createProjectile m rand nextId position direction).2.currentCooldown = w.cooldown ∧
    ∃ ps, (w.createProjectile m rand nextId position direction).1 = some ps ∧
      ps.length = w.projectilesPerShot ∧
      ∀ p ∈ ps, p.life = some 200 ∧ p.damage = some w.damage := by
  have hfire : w.canFire = true := (Weapon.canFire_eq_true_iff w).2 ⟨hammo, hcd⟩
  rw [Weapon.createProjectile_of_canFire m w rand nextId position direction hfire]
  refine ⟨rfl, ?_, rfl, _, rfl, by simp, ?_⟩
  · show w.ammo - 1 ≥ 0
    omega
  · intro p hp
    rcases List.mem_map.1 hp with ⟨i, _, rfl⟩
    exact ⟨rfl, rfl⟩

theorem Weapon.createProjectile_fires_witness :
    (Rifle : Weapon ℚ).ammo > 0 ∧ (Rifle : Weapon ℚ).currentCooldown ≤ 0 ∧
    ((Rifle : Weapon ℚ).createProjectile sampleMath sampleRand 100 muzzle forwardZ).2.ammo
      = (Rifle : Weapon ℚ).ammo - 1 ∧
    ((Rifle : Weapon ℚ).createProjectile sampleMath sampleRand 100 muzzle forwardZ).2.ammo ≥ 0 ∧
    ((Rifle : Weapon ℚ).createProjectile sampleMath sampleRand 100 muzzle forwardZ).2.currentCooldown
      = (Rifle : Weapon ℚ).cooldown ∧
    ∃ ps, ((Rifle : Weapon ℚ).createProjectile sampleMath sampleRand 100 muzzle forwardZ).1
        = some ps ∧
      ps.length = (Rifle : Weapon ℚ).projectilesPerShot ∧
      ∀ p ∈ ps, p.life = some 200 ∧ p.damage = some (Rifle : Weapon ℚ).damage :=
  ⟨by decide, by decide,
    Weapon.createProjectile_fires sampleMath Rifle sampleRand 100 muzzle forwardZ
      (by decide) (by decide)⟩

theorem list_set_of_getElem? {β : Type} (l : List β) (n : Nat) (a : β) (h : l[n]? = some a) :
    l.set n a = l := by
  induction l generalizing n with
  | nil => rfl
  | cons x xs ih =>
    cases n with
    | zero =>
      simp at h
      simp [h]
    | succ k =>
      simp at h
      simp [ih k h]

theorem WeaponSystem.setCurrentWeapon_self (ws : WeaponSystem α) (w : Weapon α)
    (h : ws.getCurrentWeapon = some w) : ws.setCurrentWeapon w = ws := by
  unfold WeaponSystem.getCurrentWeapon jsIndex at h
  split at h
  · exact absurd h (by simp)
  · unfold WeaponSystem.setCurrentWeapon
    rw [list_set_of_getElem? _ _ _ h]

/-- C2: `createProjectile` returns `null` exactly when `ammo <= 0` or
`currentCooldown > 0`, and then leaves the weapon (its `ammo` and
`currentCooldown` included) unchanged; in that case `fireCurrentWeapon` on a
weapon system whose current weapon it is returns `null` as well and leaves the
whole weapon system unchanged. -/
theorem Weapon.createProjectile_null_iff [LinearOrderedField α] (m : JSMath α) (w : Weapon α)
    (rand : Nat → α) (nextId : Nat) (position direction : Vec3 α) (ws : WeaponSystem α) :
    ((w.createProjectile m rand nextId position direction).1 = none ↔
      (w.ammo ≤ 0 ∨ w.currentCooldown > 0)) ∧
    ((w.ammo ≤ 0 ∨ w.currentCooldown > 0) →
      (w.createProjectile m rand nextId position direction).2 = w) ∧
    (ws.getCurrentWeapon = some w → (w.ammo ≤ 0 ∨ w.currentCooldown > 0) →
      ws.fireCurrentWeapon m rand nextId position direction = some (none, ws)) := by
  refine ⟨?_, ?_, ?_⟩
  · rw [← Weapon.canFire_eq_false_iff]
    cases hf : w.canFire
    · simp [Weapon.createProjectile_of_not_canFire m w rand nextId position direction hf]
    · simp [Weapon.createProjectile_of_canFire m w rand nextId position direction hf]
  · intro hb
    have hf := (Weapon.canFire_eq_false_iff w).2 hb
    rw [Weapon.createProjectile_of_not_canFire m w rand nextId position direction hf]
  · intro hcur hb
    have hf := (Weapon.canFire_eq_false_iff w).2 hb
    simp only [WeaponSystem.fireCurrentWeapon, hcur,
      Weapon.createProjectile_of_not_canFire m w rand nextId position direction hf,
      WeaponSystem.setCurrentWeapon_self ws w hcur]

theorem Weapon.createProjectile_null_iff_witness :
    emptyRifleSystem.getCurrentWeapon = some emptyRifle ∧
    (emptyRifle.ammo ≤ 0 ∨ emptyRifle.currentCooldown > 0) ∧
    (emptyRifle.createProjectile sampleMath sampleRand 100 muzzle forwardZ).1 = none ∧
    (emptyRifle.createProjectile sampleMath sampleRand 100 muzzle forwardZ).2 = emptyRifle ∧
    emptyRifleSystem.fireCurrentWeapon sampleMath sampleRand 100 muzzle forwardZ
      = some (none, emptyRifleSystem) :=
  ⟨rfl, Or.inl (by decide),
    (Weapon.createProjectile_null_iff sampleMath emptyRifle sampleRand 100 muzzle forwardZ
      emptyRifleSystem).1.2 (Or.inl (by decide)),
    (Weapon.createProjectile_null_iff sampleMath emptyRifle sampleRand 100 muzzle forwardZ
      emptyRifleSystem).2.1 (Or.inl (by decide)),
    (Weapon.createProjectile_null_iff sampleMath emptyRifle sampleRand 100 muzzle forwardZ
      emptyRifleSystem).2.2 rfl (Or.inl (by decide))⟩

/-- C5: for every integer `index`, `switchWeapon(index)` returns `true` and
sets `currentWeaponIndex` to `index` when `0 <= index < weapons.length`;
otherwise it returns `false` and leaves `currentWeaponIndex` unchanged.  In
both cases the list of weapons (so every weapon's ammo and cooldown) is
unchanged. -/
theorem WeaponSystem.switchWeapon_spec (ws : WeaponSystem α) (index : Int) :
    (ws.switchWeapon index).1 = decide (0 ≤ index ∧ index < ws.weapons.length) ∧
    (ws.switchWeapon index).2.currentWeaponIndex =
      (if 0 ≤ index ∧ index < ws.weapons.length then index else ws.currentWeaponIndex) ∧
    (ws.switchWeapon index).2.weapons = ws.weapons := by
  unfold WeaponSystem.switchWeapon
  by_cases h : index ≥ 0 ∧ index < ws.weapons.length
  · simp [h]
  · have h2 : ¬ (0 ≤ index ∧ index < ws.weapons.length) := h
    simp [h, h2]

theorem Weapon.update_iterate (w : Weapon α) (k : Nat) :
    Weapon.update^[k] w =
      { w with currentCooldown :=
          if 0 < w.currentCooldown then max (w.currentCooldown - k) 0 else w.currentCooldown } := by
  induction k with
  | zero =>
    cases w with
    | mk name damage ammo maxAmmo projectileSpeed cooldown currentCooldown projectileColor
        projectileSize spreadAngle projectilesPerShot =>
      by_cases h : 0 < currentCooldown
      · simp [h, le_of_lt h]
      · simp [h]
  | succ n ih =>
    rw [Function.iterate_succ_apply', ih]
    cases w with
    | mk name damage ammo maxAmmo projectileSpeed cooldown currentCooldown projectileColor
        projectileSize spreadAngle projectilesPerShot =>
      by_cases h : 0 < currentCooldown
      · by_cases h2 : 0 < currentCooldown - (n : Int)
        · have e1 : max (currentCooldown - (n : Int)) 0 = currentCooldown - n :=
            max_eq_left (le_of_lt h2)
          have e2 : max (currentCooldown - ((n + 1 : Nat) : Int)) 0
              = currentCooldown - n - 1 := by
            rw [max_eq_left (by omega)]
            omega
          simp [Weapon.update, h, e1, e2, h2]
          try omega
        · have e1 : max (currentCooldown - (n : Int)) 0 = 0 := max_eq_right (by omega)
          have e2 : max (currentCooldown - ((n + 1 : Nat) : Int)) 0 = 0 :=
            max_eq_right (by omega)
          simp [Weapon.update, h, e1, e2]
          try omega
      · simp [Weapon.update, h]

/-- C4: for a weapon with configured cooldown `c >= 1` and at least 2 ammo
that fires successfully, `canFire` after `k` calls of `update` is false for
every `k < c` and true for every `k >= c` (so false after each of the first
`c-1` calls and true after the `c`-th); `currentCooldown` after `k` calls is
`max (c - k) 0`, hence never negative, and once it is `0` it stays `0`. -/
theorem Weapon.cooldown_countdown [LinearOrderedField α] (m : JSMath α) (w : Weapon α)
    (rand : Nat → α) (nextId : Nat) (position direction : Vec3 α)
    (hc : 1 ≤ w.cooldown) (hammo : 2 ≤ w.ammo) (hcd : w.currentCooldown ≤ 0) (k : Nat) :
    (Weapon.update^[k] (w.createProjectile m rand nextId position direction).2).canFire
      = decide (w.cooldown ≤ k) ∧
    (Weapon.update^[k] (w.createProjectile m rand nextId position direction).2).currentCooldown
      = max (w.cooldown - k) 0 ∧
    0 ≤ (Weapon.update^[k]
      (w.createProjectile m rand nextId position direction).2).currentCooldown ∧
    ((Weapon.update^[k]
        (w.createProjectile m rand nextId position direction).2).currentCooldown = 0 →
      ∀ j : Nat, (Weapon.update^[k + j]
        (w.createProjectile m rand nextId position direction).2).currentCooldown = 0) := by
  have hfire : w.canFire = true := (Weapon.canFire_eq_true_iff w).2 ⟨by omega, hcd⟩
  have hpos : 0 < w.cooldown := by omega
  have hstate : ∀ i : Nat,
      Weapon.update^[i] (w.createProjectile m rand nextId position direction).2 =
        { w with ammo := w.ammo - 1, currentCooldown := max (w.cooldown - i) 0 } := by
    intro i
    rw [Weapon.createProjectile_of_canFire m w rand nextId position direction hfire,
      Weapon.update_iterate]
    simp [hpos]
  rw [hstate k]
  refine ⟨?_, rfl, le_max_right _ _, ?_⟩
  · by_cases hk : w.cooldown ≤ k
    · have e : max (w.cooldown - (k : Int)) 0 = 0 := max_eq_right (by omega)
      have ha : 0 < w.ammo - 1 := by omega
      simp [Weapon.canFire, e, hk, ha]
    · have e : max (w.cooldown - (k : Int)) 0 = w.cooldown - k := max_eq_left (by omega)
      have hlt : (k : Int) < w.cooldown := by omega
      simp [Weapon.canFire, e, hk, hlt]
  · intro h0 j
    rw [hstate (k + j)]
    have h0 : max (w.cooldown - (k : Int)) 0 = 0 := h0
    show max (w.cooldown - ((k + j : Nat) : Int)) 0 = 0
    have hle : w.cooldown - (k : Int) ≤ 0 := by
      have := le_max_left (w.cooldown - (k : Int)) 0
      omega
    exact max_eq_right (by push_cast; omega)

theorem Weapon.cooldown_countdown_witness :
    1 ≤ (Rifle : Weapon ℚ).cooldown ∧ 2 ≤ (Rifle : Weapon ℚ).ammo ∧
    (Rifle : Weapon ℚ).currentCooldown ≤ 0 ∧
    (Weapon.update^[19]
      ((Rifle : Weapon ℚ).createProjectile sampleMath sampleRand 100 muzzle forwardZ).2).canFire
      = decide ((Rifle : Weapon ℚ).cooldown ≤ (19 : Nat)) ∧
    (Weapon.update^[20]
      ((Rifle : Weapon ℚ).createProjectile sampleMath sampleRand 100 muzzle forwardZ).2).canFire
      = decide ((Rifle : Weapon ℚ).cooldown ≤ (20 : Nat)) :=
  ⟨by decide, by decide, by decide,
    (Weapon.cooldown_countdown sampleMath Rifle sampleRand 100 muzzle forwardZ
      (by decide) (by decide) (by decide) 19).1,
    (Weapon.cooldown_countdown sampleMath Rifle sampleRand 100 muzzle forwardZ
      (by decide) (by decide) (by decide) 20).1⟩

theorem Weapon.updateUntilReady_spec (fuel : Nat) (w : Weapon α)
    (h : w.currentCooldown = fuel) :
    Weapon.updateUntilReady fuel w = { w with currentCooldown := 0 } := by
  induction fuel generalizing w with
  | zero =>
    cases w
    simp only [Weapon.updateUntilReady]
    simp at h
    simp [h]
  | succ n ih =>
    have hne : w.currentCooldown ≠ 0 := by
      rw [h]
      push_cast
      omega
    have hpos : w.currentCooldown > 0 := by
      rw [h]
      push_cast
      omega
    have hn : w.update.currentCooldown = n := by
      simp only [Weapon.update, hpos, if_true]
      rw [h]
      push_cast
      omega
    simp only [Weapon.updateUntilReady, hne, if_false]
    rw [ih w.update hn]
    simp [Weapon.update, hpos]

theorem Weapon.afterRounds_eq [LinearOrderedField α] (m : JSMath α) (a : FireArgs α)
    (w : Weapon α) (hc : 0 ≤ w.cooldown) (hcd : w.currentCooldown = 0) (hammo : 0 ≤ w.ammo)
    (k : Nat) :
    Weapon.afterRounds m a w k = { w with ammo := max (w.ammo - k) 0 } := by
  induction k with
  | zero =>
    have e : max (w.ammo - ((0 : Nat) : Int)) 0 = w.ammo := by
      rw [max_eq_left (by push_cast; omega)]
      push_cast
      omega
    rw [e]
    rfl
  | succ n ih =>
    simp only [Weapon.afterRounds]
    rw [ih]
    by_cases hn : (n : Int) < w.ammo
    · have e1 : max (w.ammo - (n : Int)) 0 = w.ammo - n := max_eq_left (by omega)
      have e2 : max (w.ammo - ((n + 1 : Nat) : Int)) 0 = w.ammo - n - 1 := by
        rw [max_eq_left (by push_cast; omega)]
        push_cast
        omega
      have hf : Weapon.canFire { w with ammo := max (w.ammo - (n : Int)) 0 } = true := by
        rw [Weapon.canFire_eq_true_iff, e1]
        exact ⟨by show w.ammo - n > 0; omega, le_of_eq hcd⟩
      rw [Weapon.createProjectile_of_canFire _ _ _ _ _ _ hf]
      rw [Weapon.updateUntilReady_spec _ _ (Int.toNat_of_nonneg hc).symm]
      rw [e1, e2, ← hcd]
    · have e1 : max (w.ammo - (n : Int)) 0 = 0 := max_eq_right (by omega)
      have e2 : max (w.ammo - ((n + 1 : Nat) : Int)) 0 = 0 :=
        max_eq_right (by push_cast; omega)
      have hf : Weapon.canFire { w with ammo := max (w.ammo - (n : Int)) 0 } = false := by
        rw [Weapon.canFire_eq_false_iff, e1]
        exact Or.inl (le_refl _)
      rw [Weapon.createProjectile_of_not_canFire _ _ _ _ _ _ hf]
      have h0 : (Weapon.currentCooldown { w with ammo := max (w.ammo - (n : Int)) 0 }).toNat = 0 := by
        show w.currentCooldown.toNat = 0
        rw [hcd]
        rfl
      rw [h0]
      rw [e1, e2]
      rfl

theorem Weapon.roundResult_eq [LinearOrderedField α] (m : JSMath α) (a : FireArgs α)
    (w : Weapon α) (hc : 0 ≤ w.cooldown) (hcd : w.currentCooldown = 0) (hammo : 0 ≤ w.ammo)
    (k : Nat) :
    (Weapon.roundResult m a w k).isSome = decide ((k : Int) < w.ammo) ∧
    ∀ ps, Weapon.roundResult m a w k = some ps → ps.length = w.projectilesPerShot := by
  unfold Weapon.roundResult
  rw [Weapon.afterRounds_eq m a w hc hcd hammo k]
  by_cases hk : (k : Int) < w.ammo
  · have e1 : max (w.ammo - (k : Int)) 0 = w.ammo - k := max_eq_left (by omega)
    have hf : Weapon.canFire { w with ammo := max (w.ammo - (k : Int)) 0 } = true := by
      rw [Weapon.canFire_eq_true_iff, e1]
      exact ⟨by show w.ammo - k > 0; omega, le_of_eq hcd⟩
    rw [Weapon.createProjectile_of_canFire _ _ _ _ _ _ hf]
    refine ⟨by simp [hk], ?_⟩
    intro ps hps
    simp only [Option.some.injEq] at hps
    rw [← hps]
    simp
  · have e1 : max (w.ammo - (k : Int)) 0 = 0 := max_eq_right (by omega)
    have hf : Weapon.canFire { w with ammo := max (w.ammo - (k : Int)) 0 } = false := by
      rw [Weapon.canFire_eq_false_iff, e1]
      exact Or.inl (le_refl _)
    rw [Weapon.createProjectile_of_not_canFire _ _ _ _ _ _ hf]
    refine ⟨by simp [hk], ?_⟩
    intro ps hps
    exact absurd hps (by simp)

/-- C3 (as the code behaves): starting from a fresh Shotgun (ammo 24, 8
pellets per shot) and letting the cooldown expire between shots, call number
`k` (counted from 0) of `createProjectile` succeeds exactly when `k < 24`, each
successful call returns 8 projectiles, and after the 24 successful calls the
ammo is 0: one unit of ammo is used per shot, not per pellet. -/
theorem Shotgun_session [LinearOrderedField α] (m : JSMath α) (a : FireArgs α) (k : Nat) :
    (Weapon.roundResult m a Shotgun k).isSome = decide (k < 24) ∧
    (∀ ps, Weapon.roundResult m a Shotgun k = some ps → ps.length = 8) ∧
    (Weapon.afterRounds m a Shotgun 24).ammo = 0 := by
  have hc : (0 : Int) ≤ (Shotgun : Weapon α).cooldown := by
    show (0 : Int) ≤ 120
    decide
  have hcd : (Shotgun : Weapon α).currentCooldown = 0 := rfl
  have hammo : (0 : Int) ≤ (Shotgun : Weapon α).ammo := by
    show (0 : Int) ≤ 24
    decide
  have h := Weapon.roundResult_eq m a Shotgun hc hcd hammo k
  refine ⟨?_, h.2, ?_⟩
  · rw [h.1]
    have : (Shotgun : Weapon α).ammo = 24 := rfl
    rw [this]
    simp only [decide_eq_decide]
    omega
  · rw [Weapon.afterRounds_eq m a Shotgun hc hcd hammo 24]
    rfl

/-- C3 fails as stated: with the cooldown expired between shots, the fourth
call of `createProjectile` on a fresh Shotgun does not return `null`, and
after three shots 21 units of ammo are left. -/
theorem Shotgun_fourth_shot_fires :
    Weapon.roundResult sampleMath sampleArgs Shotgun 3 ≠ none ∧
    (Weapon.afterRounds sampleMath sampleArgs Shotgun 3).ammo = 21 := by
  have hc : (0 : Int) ≤ (Shotgun : Weapon ℚ).cooldown := by decide
  have hcd : (Shotgun : Weapon ℚ).currentCooldown = 0 := rfl
  have hammo : (0 : Int) ≤ (Shotgun : Weapon ℚ).ammo := by decide
  constructor
  · have h := (Weapon.roundResult_eq sampleMath sampleArgs Shotgun hc hcd hammo 3).1
    intro hnone
    rw [hnone] at h
    revert h
    decide
  · rw [Weapon.afterRounds_eq sampleMath sampleArgs Shotgun hc hcd hammo 3]
    rfl

end WeaponTheorems

section CollisionTheorems

variable {α : Type}

theorem intervalsMeet_iff [LinearOrderedField α] (a b c d : α) (hab : a ≤ b) (hcd : c ≤ d) :
    IntervalsMeet a b c d ↔ a ≤ d ∧ b ≥ c := by
  unfold IntervalsMeet
  constructor
  · rintro ⟨x, ⟨hax, hxb⟩, ⟨hcx, hxd⟩⟩
    exact ⟨le_trans hax hxd, le_trans hcx hxb⟩
  · rintro ⟨had, hcb⟩
    refine ⟨max a c, ⟨le_max_left _ _, max_le hab hcb⟩, ⟨le_max_right _ _, max_le had hcd⟩⟩

theorem checkCollision_some [LinearOrderedField α] (pos : Vec3 α) (o : SceneObject α) (entityBox bb : Box α)
    (h : o.boundingBox = some bb) :
    (checkCollision pos o entityBox = true ↔
      (pos.x + entityBox.min.x ≤ o.position.x + bb.max.x ∧
        pos.x + entityBox.max.x ≥ o.position.x + bb.min.x) ∧
      (pos.y + entityBox.min.y ≤ o.position.y + bb.max.y ∧
        pos.y + entityBox.max.y ≥ o.position.y + bb.min.y) ∧
      (pos.z + entityBox.min.z ≤ o.position.z + bb.max.z ∧
        pos.z + entityBox.max.z ≥ o.position.z + bb.min.z)) := by
  simp only [checkCollision, h, add3, Bool.and_eq_true, decide_eq_true_eq]
  tauto

theorem checkCollision_none [LinearOrderedField α] (pos : Vec3 α) (o : SceneObject α) (entityBox : Box α)
    (h : o.boundingBox = none) : checkCollision pos o entityBox = false := by
  simp [checkCollision, h]

/-- C6: `checkCollision(pos, o, entityBox)` is true exactly when `o` has a
bounding box and on each of the three axes the closed interval
`[pos+entityBox.min, pos+entityBox.max]` meets the closed interval
`[o.position+o.boundingBox.min, o.position+o.boundingBox.max]` (touching
intervals meet); for an object with no bounding box it is false.  Boxes are
given by `min <= max` on each axis. -/
theorem checkCollision_iff [LinearOrderedField α] (pos : Vec3 α) (o : SceneObject α) (entityBox : Box α)
    (he : entityBox.Ordered) (ho : ∀ bb, o.boundingBox = some bb → bb.Ordered) :
    (checkCollision pos o entityBox = true ↔
      ∃ bb, o.boundingBox = some bb ∧
        IntervalsMeet (pos.x + entityBox.min.x) (pos.x + entityBox.max.x)
          (o.position.x + bb.min.x) (o.position.x + bb.max.x) ∧
        IntervalsMeet (pos.y + entityBox.min.y) (pos.y + entityBox.max.y)
          (o.position.y + bb.min.y) (o.position.y + bb.max.y) ∧
        IntervalsMeet (pos.z + entityBox.min.z) (pos.z + entityBox.max.z)
          (o.position.z + bb.min.z) (o.position.z + bb.max.z)) ∧
    (o.boundingBox = none → checkCollision pos o entityBox = false) := by
  refine ⟨?_, checkCollision_none pos o entityBox⟩
  cases hb : o.boundingBox with
  | none => simp [checkCollision_none pos o entityBox hb]
  | some bb =>
    obtain ⟨hex, hey, hez⟩ := he
    obtain ⟨hox, hoy, hoz⟩ := ho bb hb
    rw [checkCollision_some pos o entityBox bb hb]
    simp only [Option.some.injEq, exists_eq_left']
    rw [intervalsMeet_iff _ _ _ _ (add_le_add_left hex _) (add_le_add_left hox _),
      intervalsMeet_iff _ _ _ _ (add_le_add_left hey _) (add_le_add_left hoy _),
      intervalsMeet_iff _ _ _ _ (add_le_add_left hez _) (add_le_add_left hoz _)]

/-- C7: the AABB test is symmetric: testing box `A` placed at `p` against an
object at `q` with bounding box `B` gives the same answer as testing box `B`
placed at `q` against an object at `p` with bounding box `A`. -/
theorem checkCollision_symm [LinearOrderedField α] (p q : Vec3 α) (A B : Box α) (o1 o2 : SceneObject α) :
    checkCollision p { o1 with position := q, boundingBox := some B } A =
      checkCollision q { o2 with position := p, boundingBox := some A } B := by
  rw [Bool.eq_iff_iff, checkCollision_some p _ A B rfl, checkCollision_some q _ B A rfl]
  simp only [ge_iff_le]
  tauto

theorem checkCollision_iff_witness :
    samplePlayer.boundingBox.Ordered ∧
    (∀ bb, leftWall.boundingBox = some bb → bb.Ordered) ∧
    checkCollision (vec3 (-99) 0 0) leftWall samplePlayer.boundingBox = true ∧
    ∃ bb, leftWall.boundingBox = some bb ∧
      IntervalsMeet ((vec3 (-99) 0 0 : Vec3 ℚ).x + samplePlayer.boundingBox.min.x)
        ((vec3 (-99) 0 0 : Vec3 ℚ).x + samplePlayer.boundingBox.max.x)
        (leftWall.position.x + bb.min.x) (leftWall.position.x + bb.max.x) ∧
      IntervalsMeet ((vec3 (-99) 0 0 : Vec3 ℚ).y + samplePlayer.boundingBox.min.y)
        ((vec3 (-99) 0 0 : Vec3 ℚ).y + samplePlayer.boundingBox.max.y)
        (leftWall.position.y + bb.min.y) (leftWall.position.y + bb.max.y) ∧
      IntervalsMeet ((vec3 (-99) 0 0 : Vec3 ℚ).z + samplePlayer.boundingBox.min.z)
        ((vec3 (-99) 0 0 : Vec3 ℚ).z + samplePlayer.boundingBox.max.z)
        (leftWall.position.z + bb.min.z) (leftWall.position.z + bb.max.z) :=
  have h1 : samplePlayer.boundingBox.Ordered := by
    unfold Box.Ordered
    decide!
  have h2 : ∀ bb, leftWall.boundingBox = some bb → bb.Ordered := by
    intro bb hbb
    have e : bb = { min := vec3 (-1 / 2) (-5 / 2) (-200 / 2), max := vec3 (1 / 2) (5 / 2) (200 / 2) } :=
      (Option.some.inj hbb).symm
    rw [e]
    unfold Box.Ordered
    decide!
  ⟨h1, h2, by decide!,
    (checkCollision_iff (vec3 (-99) 0 0) leftWall samplePlayer.boundingBox h1 h2).1.1
      (by decide!)⟩

theorem canMoveToSkips_iff (player : Player α) (boxToIgnore : Option (SceneObject α))
    (o : SceneObject α) :
    canMoveToSkips player boxToIgnore o = true ↔
      (o.id = player.id ∨ (∃ b, boxToIgnore = some b ∧ o.id = b.id) ∨ o.name = "ground" ∨
        o.name = "enemy" ∨ o.name = "projectile" ∨ o.name = "fragment") := by
  cases boxToIgnore with
  | none => simp [canMoveToSkips, or_assoc]
  | some b => simp [canMoveToSkips, or_assoc]

theorem canMoveTo_fst [LinearOrderedField α] (sceneObjects : List (SceneObject α)) (player : Player α) (pos : Vec3 α)
    (boxToIgnore : Option (SceneObject α)) :
    (canMoveTo sceneObjects player pos boxToIgnore).1 =
      canMoveToLoop player boxToIgnore pos sceneObjects := by
  unfold canMoveTo
  split <;> simp_all

theorem canMoveTo_snd [LinearOrderedField α] (sceneObjects : List (SceneObject α)) (player : Player α) (pos : Vec3 α)
    (boxToIgnore : Option (SceneObject α)) :
    (canMoveTo sceneObjects player pos boxToIgnore).2 =
      if (canMoveTo sceneObjects player pos boxToIgnore).1 then groundClamp pos else pos := by
  unfold canMoveTo groundClamp
  split <;> simp

theorem canMoveToLoop_iff [LinearOrderedField α] (player : Player α) (boxToIgnore : Option (SceneObject α))
    (pos : Vec3 α) (sceneObjects : List (SceneObject α)) :
    canMoveToLoop player boxToIgnore pos sceneObjects = true ↔
      ∀ o ∈ sceneObjects, canMoveToSkips player boxToIgnore o = false →
        checkCollision pos o player.boundingBox = false := by
  induction sceneObjects with
  | nil => simp [canMoveToLoop]
  | cons o rest ih =>
    simp only [canMoveToLoop, List.mem_cons, forall_eq_or_imp]
    cases hs : canMoveToSkips player boxToIgnore o
    · cases hc : checkCollision pos o player.boundingBox
      · simp [ih]
      · simp
    · simp [ih]

/-- C8 (as the code behaves): `canMoveTo(pos, ignored)` returns true exactly
when no object of the live collection, other than the player object itself,
the explicitly ignored object and the objects named ground, enemy, projectile
or fragment, has a bounding box that overlaps the player's bounding box
placed at `pos`. -/
theorem canMoveTo_iff [LinearOrderedField α] (sceneObjects : List (SceneObject α)) (player : Player α) (pos : Vec3 α)
    (boxToIgnore : Option (SceneObject α)) :
    (canMoveTo sceneObjects player pos boxToIgnore).1 = true ↔
      ∀ o ∈ sceneObjects,
        ¬ (o.id = player.id ∨ (∃ b, boxToIgnore = some b ∧ o.id = b.id) ∨ o.name = "ground" ∨
            o.name = "enemy" ∨ o.name = "projectile" ∨ o.name = "fragment") →
          checkCollision pos o player.boundingBox = false := by
  rw [canMoveTo_fst, canMoveToLoop_iff]
  constructor
  · intro h o ho hn
    apply h o ho
    rw [← Bool.not_eq_true, canMoveToSkips_iff]
    exact hn
  · intro h o ho hs
    apply h o ho
    rw [← canMoveToSkips_iff, hs]
    simp

/-- C8 fails as stated.  First: the player may move to a position where its
box overlaps an enemy, an object that is neither the ground, nor of the
player's kind, nor ignored.  Second: a projectile is stopped at a position
where its own bounding box overlaps no other object of the scene, because the
player's box is the one tested. -/
theorem canMoveTo_not_own_kind_own_box :
    ((canMoveTo enemyScene samplePlayer (vec3 0 0 3) none).1 = true ∧
      sampleEnemy ∈ enemyScene ∧ sampleEnemy.name ≠ "ground" ∧
      sampleEnemy.name ≠ samplePlayer.name ∧ sampleEnemy.id ≠ samplePlayer.id ∧
      checkCollision (vec3 0 0 3) sampleEnemy samplePlayer.boundingBox = true) ∧
    ((canMoveTo wallScene samplePlayer (vec3 (-99) 1 (3 / 10)) (some sampleProjectile)).1 = false ∧
      ∃ pb, sampleProjectile.boundingBox = some pb ∧
        ∀ o ∈ wallScene, o.id = sampleProjectile.id ∨
          checkCollision (vec3 (-99) 1 (3 / 10)) o pb = false) := by
  refine ⟨⟨by decide!, by simp [enemyScene], by decide, by decide, by decide, by decide!⟩,
    by decide!, _, rfl, ?_⟩
  decide!

theorem groundClamp_of_nonneg [LinearOrderedField α] (p : Vec3 α) (h : 0 ≤ p.y) :
    groundClamp p = p := by
  unfold groundClamp
  rw [if_neg (not_lt.mpr h)]

theorem slideMovement_eq_clamped [LinearOrderedField α] (sceneObjects : List (SceneObject α))
    (player : Player α) (c d : Vec3 α) :
    slideMovement sceneObjects player c d =
      slideBySpec (fun p => (canMoveTo sceneObjects player p).1) groundClamp c d := by
  unfold slideMovement slideBySpec slideAxis
  simp only [canMoveTo_snd]
  split_ifs <;> rfl

theorem slideAxis_id_of_nonneg [LinearOrderedField α] (accept : Vec3 α → Bool) (p s : Vec3 α)
    (h : 0 ≤ p.y + s.y) :
    slideAxis accept groundClamp p s = slideAxis accept id p s := by
  unfold slideAxis
  rw [groundClamp_of_nonneg (add3 p s) h]
  rfl

theorem slideAxis_id_y [LinearOrderedField α] (accept : Vec3 α → Bool) (p s : Vec3 α)
    (hs : s.y = 0) : (slideAxis accept id p s).y = p.y := by
  unfold slideAxis
  split
  · show p.y + s.y = p.y
    rw [hs, add_zero]
  · rfl

theorem slideBySpec_id_of_nonneg [LinearOrderedField α] (accept : Vec3 α → Bool)
    (c d : Vec3 α) (hc : 0 ≤ c.y) (hd : 0 ≤ c.y + d.y) :
    slideBySpec accept groundClamp c d = slideBySpec accept id c d := by
  have hx : (vec3 d.x 0 0 : Vec3 α).y = 0 := rfl
  have hz : (vec3 0 0 d.z : Vec3 α).y = 0 := rfl
  have e1 : slideAxis accept groundClamp c (vec3 d.x 0 0) = slideAxis accept id c (vec3 d.x 0 0) :=
    slideAxis_id_of_nonneg accept c _ (by rw [hx, add_zero]; exact hc)
  have y1 : (slideAxis accept id c (vec3 d.x 0 0)).y = c.y := slideAxis_id_y accept c _ hx
  have e2 : slideAxis accept groundClamp (slideAxis accept id c (vec3 d.x 0 0)) (vec3 0 0 d.z) =
      slideAxis accept id (slideAxis accept id c (vec3 d.x 0 0)) (vec3 0 0 d.z) :=
    slideAxis_id_of_nonneg accept _ _ (by rw [hz, add_zero, y1]; exact hc)
  have y2 : (slideAxis accept id (slideAxis accept id c (vec3 d.x 0 0)) (vec3 0 0 d.z)).y = c.y := by
    rw [slideAxis_id_y accept _ _ hz, y1]
  have e3 : slideAxis accept groundClamp
        (slideAxis accept id (slideAxis accept id c (vec3 d.x 0 0)) (vec3 0 0 d.z)) (vec3 0 d.y 0) =
      slideAxis accept id
        (slideAxis accept id (slideAxis accept id c (vec3 d.x 0 0)) (vec3 0 0 d.z)) (vec3 0 d.y 0) :=
    slideAxis_id_of_nonneg accept _ _ (by rw [y2]; exact hd)
  unfold slideBySpec
  rw [e1, e2, e3, groundClamp_of_nonneg (add3 c d) hd]
  rfl

theorem slideAxis_cases [LinearOrderedField α] (accept : Vec3 α → Bool)
    (settle : Vec3 α → Vec3 α) (p s : Vec3 α) :
    slideAxis accept settle p s = p ∨
      ∃ q, accept q = true ∧ slideAxis accept settle p s = settle q := by
  unfold slideAxis
  by_cases h : accept (add3 p s) = true
  · right
    exact ⟨add3 p s, h, by rw [if_pos h]⟩
  · left
    rw [if_neg h]

theorem slideBySpec_cases [LinearOrderedField α] (accept : Vec3 α → Bool)
    (settle : Vec3 α → Vec3 α) (c d : Vec3 α) :
    slideBySpec accept settle c d = c ∨
      ∃ q, accept q = true ∧ slideBySpec accept settle c d = settle q := by
  unfold slideBySpec
  by_cases h : accept (add3 c d) = true
  · right
    exact ⟨add3 c d, h, by rw [if_pos h]⟩
  · rw [if_neg h]
    rcases slideAxis_cases accept settle
        (slideAxis accept settle (slideAxis accept settle c (vec3 d.x 0 0)) (vec3 0 0 d.z))
        (vec3 0 d.y 0) with hY | hY
    · rw [hY]
      rcases slideAxis_cases accept settle (slideAxis accept settle c (vec3 d.x 0 0))
          (vec3 0 0 d.z) with hZ | hZ
      · rw [hZ]
        exact slideAxis_cases accept settle c (vec3 d.x 0 0)
      · exact Or.inr hZ
    · exact Or.inr hY

/-- C9 (as the code behaves): `slideMovement(c, d)` is the slide the
specification describes (the full move `c+d` when `canMoveTo` accepts it, else
the X-only, then Z-only, then Y-only move, each tested from the position
reached so far, and `c` itself when all are rejected) except that every
accepted position is returned with a negative `y` raised to 0.  When
`c.y >= 0` and `c.y + d.y >= 0` nothing is raised and the result is the slide
exactly as the specification describes it. -/
theorem slideMovement_spec [LinearOrderedField α] (sceneObjects : List (SceneObject α))
    (player : Player α) (c d : Vec3 α) :
    slideMovement sceneObjects player c d =
      slideBySpec (fun p => (canMoveTo sceneObjects player p).1) groundClamp c d ∧
    (0 ≤ c.y → 0 ≤ c.y + d.y →
      slideMovement sceneObjects player c d =
        slideBySpec (fun p => (canMoveTo sceneObjects player p).1) id c d) := by
  refine ⟨slideMovement_eq_clamped sceneObjects player c d, ?_⟩
  intro hc hd
  rw [slideMovement_eq_clamped, slideBySpec_id_of_nonneg _ c d hc hd]

theorem slideMovement_spec_witness :
    (0 : ℚ) ≤ (vec3 (-98) 0 0 : Vec3 ℚ).y ∧
    (0 : ℚ) ≤ (vec3 (-98) 0 0 : Vec3 ℚ).y + (vec3 (-1) 0 1 : Vec3 ℚ).y ∧
    slideMovement wallScene samplePlayer (vec3 (-98) 0 0) (vec3 (-1) 0 1) =
      slideBySpec (fun p => (canMoveTo wallScene samplePlayer p).1) id
        (vec3 (-98) 0 0) (vec3 (-1) 0 1) ∧
    slideMovement wallScene samplePlayer (vec3 (-98) 0 0) (vec3 (-1) 0 1) = vec3 (-98) 0 1 :=
  ⟨by decide!, by decide!,
    (slideMovement_spec wallScene samplePlayer (vec3 (-98) 0 0) (vec3 (-1) 0 1)).2
      (by decide!) (by decide!),
    by decide!⟩

/-- C9 fails as stated: a falling player at height `1/100` with move
`(0, -3/100, 0)` has `canMoveTo(c+d)` true, yet `slideMovement` returns
`(0, 0, 0)` and not `c+d = (0, -1/50, 0)`. -/
theorem slideMovement_not_sum :
    (canMoveTo emptyScene samplePlayer
      (add3 (vec3 0 (1 / 100) 0) (vec3 0 (-(3 / 100)) 0))).1 = true ∧
    slideMovement emptyScene samplePlayer (vec3 0 (1 / 100) 0) (vec3 0 (-(3 / 100)) 0)
      ≠ add3 (vec3 0 (1 / 100) 0) (vec3 0 (-(3 / 100)) 0) ∧
    slideMovement emptyScene samplePlayer (vec3 0 (1 / 100) 0) (vec3 0 (-(3 / 100)) 0)
      = vec3 0 0 0 := by
  refine ⟨by decide!, by decide!, by decide!⟩

/-- C10 (as the code behaves): the position returned by `slideMovement` is
either the unchanged current position or a position that `canMoveTo` accepted,
with a negative `y` raised to 0; when `c.y >= 0` and `c.y + d.y >= 0` it is
either the unchanged current position or a position for which a fresh call of
`canMoveTo` returns true. -/
theorem slideMovement_safe [LinearOrderedField α] (sceneObjects : List (SceneObject α))
    (player : Player α) (c d : Vec3 α) :
    (slideMovement sceneObjects player c d = c ∨
      ∃ q, (canMoveTo sceneObjects player q).1 = true ∧
        slideMovement sceneObjects player c d = groundClamp q) ∧
    (0 ≤ c.y → 0 ≤ c.y + d.y →
      slideMovement sceneObjects player c d = c ∨
        (canMoveTo sceneObjects player (slideMovement sceneObjects player c d)).1 = true) := by
  constructor
  · rw [slideMovement_eq_clamped]
    exact slideBySpec_cases _ groundClamp c d
  · intro hc hd
    rw [slideMovement_eq_clamped, slideBySpec_id_of_nonneg _ c d hc hd]
    rcases slideBySpec_cases (fun p => (canMoveTo sceneObjects player p).1) id c d with h | h
    · exact Or.inl h
    · obtain ⟨q, hq, hr⟩ := h
      right
      rw [hr]
      exact hq

theorem slideMovement_safe_witness :
    (0 : ℚ) ≤ (vec3 (-98) 0 0 : Vec3 ℚ).y ∧
    (0 : ℚ) ≤ (vec3 (-98) 0 0 : Vec3 ℚ).y + (vec3 (-1) 0 1 : Vec3 ℚ).y ∧
    slideMovement wallScene samplePlayer (vec3 (-98) 0 0) (vec3 (-1) 0 1) ≠ vec3 (-98) 0 0 ∧
    (slideMovement wallScene samplePlayer (vec3 (-98) 0 0) (vec3 (-1) 0 1) = vec3 (-98) 0 0 ∨
      (canMoveTo wallScene samplePlayer
        (slideMovement wallScene samplePlayer (vec3 (-98) 0 0) (vec3 (-1) 0 1))).1 = true) :=
  ⟨by decide!, by decide!, by decide!,
    (slideMovement_safe wallScene samplePlayer (vec3 (-98) 0 0) (vec3 (-1) 0 1)).2
      (by decide!) (by decide!)⟩

/-- C10 fails as stated: a player falling past a ledge whose underside is at
height 2 is accepted at `(0, -1/50, 0)`, where its box ends below the ledge;
`slideMovement` returns that position raised to `(0, 0, 0)`, which is not the
current position and which a fresh `canMoveTo` rejects. -/
theorem slideMovement_result_rejected :
    slideMovement ledgeScene samplePlayer (vec3 2 (1 / 100) 0) (vec3 (-2) (-(3 / 100)) 0)
      = vec3 0 0 0 ∧
    slideMovement ledgeScene samplePlayer (vec3 2 (1 / 100) 0) (vec3 (-2) (-(3 / 100)) 0)
      ≠ vec3 2 (1 / 100) 0 ∧
    (canMoveTo ledgeScene samplePlayer
      (slideMovement ledgeScene samplePlayer (vec3 2 (1 / 100) 0)
        (vec3 (-2) (-(3 / 100)) 0))).1 = false := by
  refine ⟨by decide!, by decide!, by decide!⟩

end CollisionTheorems

section ProjectionTheorems

variable {α : Type}

theorem dot3_self_nonneg [LinearOrderedField α] (v : Vec3 α) : 0 ≤ dot3 v v := by
  unfold dot3
  have hx := mul_self_nonneg v.x
  have hy := mul_self_nonneg v.y
  have hz := mul_self_nonneg v.z
  linarith

theorem normalize3Checked_eq [LinearOrderedField α] (m : JSMath α) (v : Vec3 α) :
    normalize3Checked m v = some (normalize3 m v) := by
  unfold normalize3Checked normalize3 checkedDiv
  by_cases h : length3 m v = 0
  · simp [h]
  · simp [h]

theorem length3_normalize3_of_pos (m : JSMath ℝ) (hm : m.sqrt = Real.sqrt) (v : Vec3 ℝ)
    (hpos : 0 < length3 m v) : length3 m (normalize3 m v) = 1 := by
  have hne : length3 m v ≠ 0 := ne_of_gt hpos
  have hsq : length3 m v * length3 m v = dot3 v v := by
    unfold length3
    rw [hm]
    exact Real.mul_self_sqrt (dot3_self_nonneg v)
  have hdot : dot3 (normalize3 m v) (normalize3 m v) = 1 := by
    unfold normalize3
    simp only [hne, if_false]
    unfold dot3 at hsq ⊢
    show v.x / length3 m v * (v.x / length3 m v) + v.y / length3 m v * (v.y / length3 m v)
      + v.z / length3 m v * (v.z / length3 m v) = 1
    field_simp
    nlinarith [hsq]
  unfold length3 at hdot ⊢
  rw [hdot, hm, Real.sqrt_one]

/-- C11: over the reals, with `Math.sqrt` the real square root,
`normalize3(v)` has length exactly 1 when `|v| > 0` and is the zero vector
when `|v| = 0`; none of its divisions has divisor 0. -/
theorem normalize3_unit (m : JSMath ℝ) (hm : m.sqrt = Real.sqrt) (v : Vec3 ℝ) :
    (0 < length3 m v → length3 m (normalize3 m v) = 1) ∧
    (length3 m v = 0 → normalize3 m v = vec3 0 0 0) ∧
    normalize3Checked m v = some (normalize3 m v) := by
  refine ⟨length3_normalize3_of_pos m hm v, ?_, normalize3Checked_eq m v⟩
  intro h0
  unfold normalize3
  simp [h0]

theorem normalize3_unit_witness :
    (⟨Real.sin, Real.cos, Real.sqrt, Int.floor, Real.pi⟩ : JSMath ℝ).sqrt = Real.sqrt ∧
    0 < length3 (⟨Real.sin, Real.cos, Real.sqrt, Int.floor, Real.pi⟩ : JSMath ℝ) (vec3 3 0 4) ∧
    length3 (⟨Real.sin, Real.cos, Real.sqrt, Int.floor, Real.pi⟩ : JSMath ℝ)
      (normalize3 (⟨Real.sin, Real.cos, Real.sqrt, Int.floor, Real.pi⟩ : JSMath ℝ)
        (vec3 3 0 4)) = 1 :=
  have hpos : 0 < length3 (⟨Real.sin, Real.cos, Real.sqrt, Int.floor, Real.pi⟩ : JSMath ℝ)
      (vec3 3 0 4) := by
    show 0 < Real.sqrt (3 * 3 + 0 * 0 + 4 * 4)
    exact Real.sqrt_pos.2 (by norm_num)
  ⟨rfl, hpos, (normalize3_unit _ rfl (vec3 3 0 4)).1 hpos⟩

/-- C12: `projectPoint` returns `null` exactly when `p.z <= 0`; otherwise it
returns `screenX = p.x*fov/p.z + width/2`, `screenY = -p.y*fov/p.z + height/2`
and carries `p.z` through unchanged. -/
theorem projectPoint_spec [LinearOrderedField α] (p : Vec3 α) (fov width height : α) :
    (projectPoint p fov width height = none ↔ p.z ≤ 0) ∧
    (0 < p.z →
      projectPoint p fov width height =
        some ⟨p.x * fov / p.z + width / 2, -p.y * fov / p.z + height / 2, p.z⟩) := by
  unfold projectPoint
  by_cases h : p.z ≤ 0
  · simp [h, not_lt.mpr h]
  · simp [h]

theorem projectPoint_spec_witness :
    (0 : ℚ) < (vec3 1 2 4 : Vec3 ℚ).z ∧
    projectPoint (vec3 1 2 4 : Vec3 ℚ) 500 800 600 = some ⟨525, 50, 4⟩ ∧
    projectPoint (vec3 1 2 (-4) : Vec3 ℚ) 500 800 600 = none :=
  ⟨by decide!,
    ((projectPoint_spec (vec3 1 2 4 : Vec3 ℚ) 500 800 600).2 (by decide!)).trans (by decide!),
    (projectPoint_spec (vec3 1 2 (-4) : Vec3 ℚ) 500 800 600).1.2 (by decide!)⟩

/-- C13: when exactly one endpoint of an edge has `z <= 0` and the other has
`z > 0`, the denominator `v2.z - v1.z` of `t` is not zero, `0 <= t <= 1`, and
the interpolated point `v1 + t*(v2 - v1)` has `z = 0`. -/
theorem clipFraction_spec [LinearOrderedField α] (v1 v2 : Vec3 α)
    (h : (v1.z ≤ 0 ∧ 0 < v2.z) ∨ (v2.z ≤ 0 ∧ 0 < v1.z)) :
    v2.z - v1.z ≠ 0 ∧ 0 ≤ clipFraction v1 v2 ∧ clipFraction v1 v2 ≤ 1 ∧
    v1.z + clipFraction v1 v2 * (v2.z - v1.z) = 0 := by
  unfold clipFraction
  rcases h with ⟨h1, h2⟩ | ⟨h2, h1⟩
  · have hd : 0 < v2.z - v1.z := by linarith
    refine ⟨ne_of_gt hd, ?_, ?_, ?_⟩
    · exact div_nonneg (by linarith) (le_of_lt hd)
    · rw [div_le_one hd]
      linarith
    · rw [div_mul_cancel₀ _ (ne_of_gt hd)]
      ring
  · have hd : v2.z - v1.z < 0 := by linarith
    refine ⟨ne_of_lt hd, ?_, ?_, ?_⟩
    · exact div_nonneg_of_nonpos (by linarith) (le_of_lt hd)
    · rw [div_le_one_of_neg hd]
      linarith
    · rw [div_mul_cancel₀ _ (ne_of_lt hd)]
      ring

theorem clipFraction_spec_witness :
    (((vec3 0 0 (-1) : Vec3 ℚ).z ≤ 0 ∧ 0 < (vec3 4 8 3 : Vec3 ℚ).z) ∨
      ((vec3 4 8 3 : Vec3 ℚ).z ≤ 0 ∧ 0 < (vec3 0 0 (-1) : Vec3 ℚ).z)) ∧
    clipFraction (vec3 0 0 (-1) : Vec3 ℚ) (vec3 4 8 3) = 1 / 4 ∧
    (vec3 0 0 (-1) : Vec3 ℚ).z +
      clipFraction (vec3 0 0 (-1) : Vec3 ℚ) (vec3 4 8 3) *
        ((vec3 4 8 3 : Vec3 ℚ).z - (vec3 0 0 (-1) : Vec3 ℚ).z) = 0 :=
  ⟨Or.inl (by decide!), by decide!,
    (clipFraction_spec (vec3 0 0 (-1) : Vec3 ℚ) (vec3 4 8 3) (Or.inl (by decide!))).2.2.2⟩

/-- C14: with `p1 = projectPoint(v1)` and `p2 = projectPoint(v2)`,
`clipAndDrawLine` emits no path command when both `z <= 0`; emits exactly one
segment (one `moveTo` and one `lineTo`) joining the projection of the visible
endpoint and the near-plane intersection `intersect` when exactly one
`z <= 0`; and emits exactly the segment from `p1` to `p2` when both `z > 0`.
It never fails by reading a coordinate of a `null` projected point. -/
theorem clipAndDrawLine_cases [LinearOrderedField α] (v1 v2 : Vec3 α) (w h fov : α) :
    (v1.z ≤ 0 ∧ v2.z ≤ 0 →
      clipAndDrawLine v1 v2 (projectPoint v1 fov w h) (projectPoint v2 fov w h) w h fov
        = some (true, [])) ∧
    (0 < v1.z ∧ v2.z ≤ 0 → ∃ q1, projectPoint v1 fov w h = some q1 ∧
      clipAndDrawLine v1 v2 (projectPoint v1 fov w h) (projectPoint v2 fov w h) w h fov
        = some (true, [DrawCmd.moveTo q1.x q1.y,
            DrawCmd.lineTo (clipIntersect v1 v2 w h fov).1 (clipIntersect v1 v2 w h fov).2])) ∧
    (v1.z ≤ 0 ∧ 0 < v2.z → ∃ q2, projectPoint v2 fov w h = some q2 ∧
      clipAndDrawLine v1 v2 (projectPoint v1 fov w h) (projectPoint v2 fov w h) w h fov
        = some (true, [DrawCmd.moveTo (clipIntersect v1 v2 w h fov).1
              (clipIntersect v1 v2 w h fov).2,
            DrawCmd.lineTo q2.x q2.y])) ∧
    (0 < v1.z ∧ 0 < v2.z → ∃ q1 q2, projectPoint v1 fov w h = some q1 ∧
      projectPoint v2 fov w h = some q2 ∧
      clipAndDrawLine v1 v2 (projectPoint v1 fov w h) (projectPoint v2 fov w h) w h fov
        = some (false, [DrawCmd.moveTo q1.x q1.y, DrawCmd.lineTo q2.x q2.y])) ∧
    clipAndDrawLine v1 v2 (projectPoint v1 fov w h) (projectPoint v2 fov w h) w h fov ≠ none := by
  have hp1 : 0 < v1.z → projectPoint v1 fov w h =
      some ⟨v1.x * fov / v1.z + w / 2, -v1.y * fov / v1.z + h / 2, v1.z⟩ := by
    intro hz
    simp [projectPoint, not_le.mpr hz]
  have hp2 : 0 < v2.z → projectPoint v2 fov w h =
      some ⟨v2.x * fov / v2.z + w / 2, -v2.y * fov / v2.z + h / 2, v2.z⟩ := by
    intro hz
    simp [projectPoint, not_le.mpr hz]
  refine ⟨?_, ?_, ?_, ?_, ?_⟩
  · rintro ⟨h1, h2⟩
    simp [clipAndDrawLine, h1, h2]
  · rintro ⟨h1, h2⟩
    refine ⟨_, hp1 h1, ?_⟩
    rw [hp1 h1]
    simp [clipAndDrawLine, h1, h2, not_le.mpr h1]
  · rintro ⟨h1, h2⟩
    refine ⟨_, hp2 h2, ?_⟩
    rw [hp2 h2]
    simp [clipAndDrawLine, h1, h2, not_le.mpr h2, not_lt.mpr h1]
  · rintro ⟨h1, h2⟩
    refine ⟨_, _, hp1 h1, hp2 h2, ?_⟩
    rw [hp1 h1, hp2 h2]
    simp [clipAndDrawLine, not_le.mpr h1, not_le.mpr h2]
  · by_cases h1 : 0 < v1.z
    · by_cases h2 : 0 < v2.z
      · rw [hp1 h1, hp2 h2]
        simp [clipAndDrawLine, not_le.mpr h1, not_le.mpr h2]
      · rw [hp1 h1]
        simp [clipAndDrawLine, h1, not_lt.mp h2, not_le.mpr h1]
    · by_cases h2 : 0 < v2.z
      · rw [hp2 h2]
        simp [clipAndDrawLine, not_lt.mp h1, h1, not_le.mpr h2]
      · simp [clipAndDrawLine, not_lt.mp h1, not_lt.mp h2]

theorem clipAndDrawLine_cases_witness :
    ((vec3 0 0 (-1) : Vec3 ℚ).z ≤ 0 ∧ 0 < (vec3 4 8 3 : Vec3 ℚ).z) ∧
    drawEdge (vec3 0 0 (-1) : Vec3 ℚ) (vec3 4 8 3) 800 600 =
      some (true, [DrawCmd.moveTo 5400 (-9700), DrawCmd.lineTo (2000 / 3 + 400) (-4000 / 3 + 300)]) ∧
    ∃ q2, projectPoint (vec3 4 8 3 : Vec3 ℚ) 500 800 600 = some q2 ∧
      clipAndDrawLine (vec3 0 0 (-1) : Vec3 ℚ) (vec3 4 8 3)
        (projectPoint (vec3 0 0 (-1) : Vec3 ℚ) 500 800 600)
        (projectPoint (vec3 4 8 3 : Vec3 ℚ) 500 800 600) 800 600 500
        = some (true, [DrawCmd.moveTo
              (clipIntersect (vec3 0 0 (-1) : Vec3 ℚ) (vec3 4 8 3) 800 600 500).1
              (clipIntersect (vec3 0 0 (-1) : Vec3 ℚ) (vec3 4 8 3) 800 600 500).2,
            DrawCmd.lineTo q2.x q2.y]) :=
  ⟨by decide!, by decide!,
    (clipAndDrawLine_cases (vec3 0 0 (-1) : Vec3 ℚ) (vec3 4 8 3) 800 600 500).2.2.1
      (by decide!)⟩

theorem length3_mul3 (m : JSMath ℝ) (hm : m.sqrt = Real.sqrt) (v : Vec3 ℝ) (b : ℝ)
    (hb : 0 ≤ b) : length3 m (mul3 v b) = b * length3 m v := by
  unfold length3
  rw [hm]
  have e : dot3 (mul3 v b) (mul3 v b) = b * b * dot3 v v := by
    unfold dot3 mul3
    ring
  rw [e, Real.sqrt_mul (mul_self_nonneg b), Real.sqrt_mul_self hb]

theorem normalize3_y_zero (m : JSMath ℝ) (v : Vec3 ℝ) (hv : v.y = 0) :
    (normalize3 m v).y = 0 := by
  unfold normalize3
  by_cases h : length3 m v = 0
  · simp [h, vec3]
  · simp [h, hv]

theorem playerMoveDir_length (m : JSMath ℝ) (hm : m.sqrt = Real.sqrt) (hsin : m.sin = Real.sin)
    (hcos : m.cos = Real.cos) (keys : Keys) (yaw : ℝ)
    (hin : (moveInput keys : ℝ × ℝ).1 ≠ 0 ∨ (moveInput keys : ℝ × ℝ).2 ≠ 0) :
    length3 m (playerMoveDir m keys yaw) = baseMoveSpeed ∧
    (playerMoveDir m keys yaw).y = 0 ∧
    Real.sqrt ((playerMoveDir m keys yaw).x ^ 2 + (playerMoveDir m keys yaw).z ^ 2)
      = baseMoveSpeed := by
  have hs2 : Real.sqrt 2 ≠ 0 := ne_of_gt (Real.sqrt_pos.2 (by norm_num))
  -- the scaled input
  obtain ⟨a, b, hab, hdef⟩ : ∃ a b : ℝ, (a ≠ 0 ∨ b ≠ 0) ∧
      playerMoveDir m keys yaw =
        mul3 (normalize3 m ⟨Real.sin yaw * b + Real.cos yaw * a, 0,
          Real.cos yaw * b - Real.sin yaw * a⟩) baseMoveSpeed := by
    by_cases hd : (moveInput keys : ℝ × ℝ).1 ≠ 0 ∧ (moveInput keys : ℝ × ℝ).2 ≠ 0
    · refine ⟨(moveInput keys : ℝ × ℝ).1 / Real.sqrt 2, (moveInput keys : ℝ × ℝ).2 / Real.sqrt 2,
        Or.inl (div_ne_zero hd.1 hs2), ?_⟩
      unfold playerMoveDir
      simp only [hd, hm, hsin, hcos, rotateY, vec3, and_self, if_true, ne_eq, not_false_eq_true]
      congr 2
      ring_nf
    · refine ⟨(moveInput keys : ℝ × ℝ).1, (moveInput keys : ℝ × ℝ).2, hin, ?_⟩
      unfold playerMoveDir
      simp only [hd, hm, hsin, hcos, rotateY, vec3, if_false]
      congr 2
      ring_nf
  have hdot : 0 < dot3 (⟨Real.sin yaw * b + Real.cos yaw * a, 0,
      Real.cos yaw * b - Real.sin yaw * a⟩ : Vec3 ℝ)
      ⟨Real.sin yaw * b + Real.cos yaw * a, 0, Real.cos yaw * b - Real.sin yaw * a⟩ := by
    have e : dot3 (⟨Real.sin yaw * b + Real.cos yaw * a, 0,
        Real.cos yaw * b - Real.sin yaw * a⟩ : Vec3 ℝ)
        ⟨Real.sin yaw * b + Real.cos yaw * a, 0, Real.cos yaw * b - Real.sin yaw * a⟩
        = (a * a + b * b) * (Real.sin yaw ^ 2 + Real.cos yaw ^ 2) := by
      unfold dot3
      ring
    rw [e, Real.sin_sq_add_cos_sq, mul_one]
    rcases hab with h | h
    · have := mul_self_pos.2 h
      have := mul_self_nonneg b
      linarith
    · have := mul_self_pos.2 h
      have := mul_self_nonneg a
      linarith
  have hpos : 0 < length3 m (⟨Real.sin yaw * b + Real.cos yaw * a, 0,
      Real.cos yaw * b - Real.sin yaw * a⟩ : Vec3 ℝ) := by
    unfold length3
    rw [hm]
    exact Real.sqrt_pos.2 hdot
  have hb0 : (0 : ℝ) ≤ baseMoveSpeed := by
    unfold baseMoveSpeed
    norm_num
  have hlen : length3 m (playerMoveDir m keys yaw) = baseMoveSpeed := by
    rw [hdef, length3_mul3 m hm _ _ hb0, length3_normalize3_of_pos m hm _ hpos, mul_one]
  have hy : (playerMoveDir m keys yaw).y = 0 := by
    rw [hdef]
    show (normalize3 m _).y * baseMoveSpeed = 0
    rw [normalize3_y_zero m _ rfl, zero_mul]
  refine ⟨hlen, hy, ?_⟩
  rw [← hlen]
  unfold length3 dot3
  rw [hm, hy]
  congr 1
  ring

theorem World.acceleratePlayer_vel (m : JSMath ℝ) (w : World ℝ) (yaw : ℝ)
    (hin : (moveInput w.keys : ℝ × ℝ).1 ≠ 0 ∨ (moveInput w.keys : ℝ × ℝ).2 ≠ 0) :
    (w.acceleratePlayer m yaw).playerVel.x =
      (w.playerVel.x + (playerMoveDir m w.keys yaw).x) * friction ∧
    (w.acceleratePlayer m yaw).playerVel.z =
      (w.playerVel.z + (playerMoveDir m w.keys yaw).z) * friction := by
  unfold World.acceleratePlayer
  simp only [hin, if_true]
  split_ifs <;> exact ⟨rfl, rfl⟩

theorem World.updatePlayer_phases (m : JSMath ℝ) (w : World ℝ) (hc : w.crashed = false) :
    w.updatePlayer m =
      (((w.tickPlayerFlash.turnPlayer).acceleratePlayer m w.player.rotation.y).movePlayer).playerWeapons
        m ∧
    w.tickPlayerFlash.turnPlayer.playerVel = w.playerVel ∧
    w.tickPlayerFlash.turnPlayer.keys = w.keys := by
  refine ⟨?_, ?_, ?_⟩
  · unfold World.updatePlayer
    rw [if_neg (by simp [hc])]
  · unfold World.tickPlayerFlash World.turnPlayer
    split_ifs <;> rfl
  · unfold World.tickPlayerFlash World.turnPlayer
    split_ifs <;> rfl

/-- C20 fails as stated in the arithmetic the program runs in.  In binary64,
at yaw `0`, the vector added to `playerVel` for forward input is
`(0, 0, 0.03)`, of length exactly `baseMoveSpeed`; for forward + right input
it is `(d, 0, d)` with `d = 0.021213203435596427`, whose length is not
`baseMoveSpeed`: as a real number it is `d * sqrt 2`, and computed in
binary64 it is `0.030000000000000002`, one unit in the last place above
`0.03`.  From rest, `F64.acceleratePlayer` leaves `playerVel` at that
increment times the friction. -/
theorem diagonal_increment_inexact_in_doubles :
    F64.baseMoveSpeed = 1080863910568919 / 36028797018963968 ∧
    F64.playerMoveDir doubleMathAtZero forwardKeys 0 =
      ⟨0, 0, 1080863910568919 / 36028797018963968⟩ ∧
    F64.playerMoveDir doubleMathAtZero diagonalKeys 0 =
      ⟨3057144802812371 / 144115188075855872, 0, 3057144802812371 / 144115188075855872⟩ ∧
    (F64.acceleratePlayer doubleMathAtZero 0 diagonalKeys true (vec3 0 0 0)).1 =
      ⟨F64.mul (F64.playerMoveDir doubleMathAtZero diagonalKeys 0).x F64.friction, 0,
        F64.mul (F64.playerMoveDir doubleMathAtZero diagonalKeys 0).z F64.friction⟩ ∧
    F64.length3 doubleMathAtZero (F64.playerMoveDir doubleMathAtZero forwardKeys 0) =
      F64.baseMoveSpeed ∧
    F64.length3 doubleMathAtZero (F64.playerMoveDir doubleMathAtZero diagonalKeys 0) =
      8646911284551353 / 288230376151711744 ∧
    F64.length3 doubleMathAtZero (F64.playerMoveDir doubleMathAtZero diagonalKeys 0) ≠
      F64.baseMoveSpeed ∧
    Real.sqrt ((((F64.playerMoveDir doubleMathAtZero diagonalKeys 0).x : ℚ) : ℝ) ^ 2 +
        (((F64.playerMoveDir doubleMathAtZero diagonalKeys 0).z : ℚ) : ℝ) ^ 2) ≠
      ((F64.baseMoveSpeed : ℚ) : ℝ) := by
  have hb : F64.baseMoveSpeed = 1080863910568919 / 36028797018963968 := by decide!
  have hd : F64.playerMoveDir doubleMathAtZero diagonalKeys 0 =
      ⟨3057144802812371 / 144115188075855872, 0, 3057144802812371 / 144115188075855872⟩ := by
    decide!
  refine ⟨hb, by decide!, hd, by decide!, by decide!, by decide!, by decide!, ?_⟩
  rw [hd, hb]
  intro h
  have h2 := congrArg (fun t : ℝ => t ^ 2) h
  simp only at h2
  rw [Real.sq_sqrt (by positivity)] at h2
  have h3 : ((3057144802812371 / 144115188075855872 : ℚ)) ^ 2 +
      ((3057144802812371 / 144115188075855872 : ℚ)) ^ 2 =
      ((1080863910568919 / 36028797018963968 : ℚ)) ^ 2 := by
    exact_mod_cast h2
  revert h3
  norm_num

/-- C20 (amended): over the reals, with `Math.sqrt`, `Math.sin` and
`Math.cos` the real functions, for every yaw and every movement input whose
net direction is not zero, `updatePlayer` adds the vector
`playerMoveDir keys yaw` to `playerVel` before it applies the friction: after
the acceleration statements `playerVel.x` is `(playerVel.x + moveDir.x) *
friction`, and likewise `z`.  The increment, recovered from the velocities
before and after, has length exactly `baseMoveSpeed` and no vertical part:
diagonal and single-axis input give the same speed.  `updatePlayer` runs
these statements with the yaw the player has at the start of the call, on
the velocity and keys it was called with. -/
theorem player_move_speed (m : JSMath ℝ) (hm : m.sqrt = Real.sqrt) (hsin : m.sin = Real.sin)
    (hcos : m.cos = Real.cos) (w : World ℝ) (yaw : ℝ)
    (hin : (moveInput w.keys : ℝ × ℝ).1 ≠ 0 ∨ (moveInput w.keys : ℝ × ℝ).2 ≠ 0) :
    (w.acceleratePlayer m yaw).playerVel.x =
      (w.playerVel.x + (playerMoveDir m w.keys yaw).x) * friction ∧
    (w.acceleratePlayer m yaw).playerVel.z =
      (w.playerVel.z + (playerMoveDir m w.keys yaw).z) * friction ∧
    Real.sqrt (((w.acceleratePlayer m yaw).playerVel.x / friction - w.playerVel.x) ^ 2 +
        ((w.acceleratePlayer m yaw).playerVel.z / friction - w.playerVel.z) ^ 2)
      = baseMoveSpeed ∧
    length3 m (playerMoveDir m w.keys yaw) = baseMoveSpeed ∧
    (playerMoveDir m w.keys yaw).y = 0 ∧
    (w.crashed = false →
      w.updatePlayer m =
        (((w.tickPlayerFlash.turnPlayer).acceleratePlayer m w.player.rotation.y).movePlayer).playerWeapons
          m ∧
      w.tickPlayerFlash.turnPlayer.playerVel = w.playerVel ∧
      w.tickPlayerFlash.turnPlayer.keys = w.keys) := by
  obtain ⟨hx, hz⟩ := World.acceleratePlayer_vel m w yaw hin
  obtain ⟨hlen, hy, hsq⟩ := playerMoveDir_length m hm hsin hcos w.keys yaw hin
  have hf : (friction : ℝ) ≠ 0 := by
    unfold friction
    norm_num
  refine ⟨hx, hz, ?_, hlen, hy, World.updatePlayer_phases m w⟩
  rw [hx, hz, mul_div_assoc, div_self hf, mul_one, mul_div_assoc, div_self hf, mul_one,
    add_sub_cancel_left, add_sub_cancel_left]
  exact hsq

/-- C20 (amended) witness: a player moving with velocity `(0.01, 0, 0.02)` at
yaw `1/2`, once with forward and right pressed and once with forward alone:
the increment recovered from the velocities has length `baseMoveSpeed` both
times. -/
theorem player_move_speed_witness :
    (⟨Real.sin, Real.cos, Real.sqrt, Int.floor, Real.pi⟩ : JSMath ℝ).sqrt = Real.sqrt ∧
    (⟨Real.sin, Real.cos, Real.sqrt, Int.floor, Real.pi⟩ : JSMath ℝ).sin = Real.sin ∧
    (⟨Real.sin, Real.cos, Real.sqrt, Int.floor, Real.pi⟩ : JSMath ℝ).cos = Real.cos ∧
    ((moveInput (movingWorld diagonalKeys : World ℝ).keys : ℝ × ℝ).1 ≠ 0 ∨
      (moveInput (movingWorld diagonalKeys : World ℝ).keys : ℝ × ℝ).2 ≠ 0) ∧
    ((moveInput (movingWorld forwardKeys : World ℝ).keys : ℝ × ℝ).1 ≠ 0 ∨
      (moveInput (movingWorld forwardKeys : World ℝ).keys : ℝ × ℝ).2 ≠ 0) ∧
    Real.sqrt
      ((((movingWorld diagonalKeys : World ℝ).acceleratePlayer
            (⟨Real.sin, Real.cos, Real.sqrt, Int.floor, Real.pi⟩ : JSMath ℝ) (1 / 2)).playerVel.x /
          friction - (movingWorld diagonalKeys : World ℝ).playerVel.x) ^ 2 +
        (((movingWorld diagonalKeys : World ℝ).acceleratePlayer
            (⟨Real.sin, Real.cos, Real.sqrt, Int.floor, Real.pi⟩ : JSMath ℝ) (1 / 2)).playerVel.z /
          friction - (movingWorld diagonalKeys : World ℝ).playerVel.z) ^ 2) = baseMoveSpeed ∧
    Real.sqrt
      ((((movingWorld forwardKeys : World ℝ).acceleratePlayer
            (⟨Real.sin, Real.cos, Real.sqrt, Int.floor, Real.pi⟩ : JSMath ℝ) (1 / 2)).playerVel.x /
          friction - (movingWorld forwardKeys : World ℝ).playerVel.x) ^ 2 +
        (((movingWorld forwardKeys : World ℝ).acceleratePlayer
            (⟨Real.sin, Real.cos, Real.sqrt, Int.floor, Real.pi⟩ : JSMath ℝ) (1 / 2)).playerVel.z /
          friction - (movingWorld forwardKeys : World ℝ).playerVel.z) ^ 2) = baseMoveSpeed :=
  have hd : (moveInput (movingWorld diagonalKeys : World ℝ).keys : ℝ × ℝ).1 ≠ 0 ∨
      (moveInput (movingWorld diagonalKeys : World ℝ).keys : ℝ × ℝ).2 ≠ 0 :=
    Or.inl (by simp [moveInput, movingWorld, diagonalKeys])
  have hf : (moveInput (movingWorld forwardKeys : World ℝ).keys : ℝ × ℝ).1 ≠ 0 ∨
      (moveInput (movingWorld forwardKeys : World ℝ).keys : ℝ × ℝ).2 ≠ 0 :=
    Or.inr (by simp [moveInput, movingWorld, forwardKeys])
  ⟨rfl, rfl, rfl, hd, hf,
    (player_move_speed _ rfl rfl rfl (movingWorld diagonalKeys : World ℝ) (1 / 2) hd).2.2.1,
    (player_move_speed _ rfl rfl rfl (movingWorld forwardKeys : World ℝ) (1 / 2) hf).2.2.1⟩

end ProjectionTheorems

section CombatTheorems

variable {α : Type}

/-- C15 (as the code behaves): while the player's `hitFlashTimer` is `> 0`,
the hit check `checkProjectileHitPlayer` reports no hit, so processing an
overlapping projectile as `updateProjectiles` does leaves the state unchanged;
and `damagePlayer`, were it called, leaves the player's health unchanged. -/
theorem player_invulnerable_while_flashing [LinearOrderedField α] (m : JSMath α) (w : World α)
    (proj : SceneObject α) (h : w.player.hitFlashTimer > 0) :
    w.checkProjectileHitPlayer proj = false ∧
    (if w.checkProjectileHitPlayer proj then w.damagePlayer m proj else w) = w ∧
    (w.damagePlayer m proj).player.health = w.player.health := by
  have h1 : w.checkProjectileHitPlayer proj = false := by
    simp [World.checkProjectileHitPlayer, h]
  refine ⟨h1, by simp [h1], ?_⟩
  simp [World.damagePlayer, h]

theorem player_invulnerable_while_flashing_witness :
    ({ sampleWorld with player := { samplePlayer with hitFlashTimer := 20 } } :
      World ℚ).player.hitFlashTimer > 0 ∧
    ({ sampleWorld with player := { samplePlayer with hitFlashTimer := 20 } } :
      World ℚ).checkProjectileHitPlayer enemyShot = false ∧
    sampleWorld.checkProjectileHitPlayer enemyShot = true :=
  ⟨by decide,
    (player_invulnerable_while_flashing sampleMath
      ({ sampleWorld with player := { samplePlayer with hitFlashTimer := 20 } } : World ℚ)
      enemyShot (by decide)).1,
    by decide!⟩

/-- C15 fails for enemies: the first enemy, with health 2 and its hit flash
active after a first hit, is reported hit by an overlapping rifle round, and
`damageEnemy` lowers its health to 1. -/
theorem enemy_damaged_while_flashing :
    (flashingEnemyWorld.store 5).hitFlashTimer = some 10 ∧
    (flashingEnemyWorld.store 5).health = some 2 ∧
    5 ∈ flashingEnemyWorld.enemies ∧ 5 ∈ flashingEnemyWorld.sceneObjects ∧
    flashingEnemyWorld.checkProjectileHitEnemy rifleRound = some 5 ∧
    ((flashingEnemyWorld.damageEnemy sampleMath 5 rifleRound).store 5).health = some 1 := by
  refine ⟨by decide!, by decide!, by decide!, by decide!, by decide!, by decide!⟩

theorem Spawned.rfl_zero [LinearOrderedField α] (w : World α) : Spawned 0 w w :=
  ⟨rfl, rfl, rfl, rfl, rfl, by simp, by simp, fun _ _ => rfl, fun _ h => h⟩

theorem Spawned.append [LinearOrderedField α] {a b : Nat} {w w' w'' : World α}
    (h1 : Spawned a w w') (h2 : Spawned b w' w'') : Spawned (a + b) w w'' := by
  refine ⟨h2.enemies.trans h1.enemies, h2.projectiles.trans h1.projectiles,
    h2.player.trans h1.player, h2.crashed.trans h1.crashed, ?_, ?_, ?_, ?_, ?_⟩
  · rw [h2.nextId, h1.nextId, Nat.add_assoc]
  · rw [h2.fragments, h1.fragments, h1.nextId, List.append_assoc, List.range'_append_1,
      Nat.add_comm b a]
  · rw [h2.sceneObjects, h1.sceneObjects, h1.nextId, List.append_assoc, List.range'_append_1,
      Nat.add_comm b a]
  · intro id hid
    rw [h2.store id (by rw [h1.nextId]; omega), h1.store id hid]
  · intro id hid
    exact h2.velocity id (h1.velocity id hid)

theorem World.pushFragment_spawned [LinearOrderedField α] (w : World α)
    (fragment : SceneObject α) (draws : Nat) (hv : fragment.velocity ≠ none) :
    Spawned 1 w (w.pushFragment fragment draws) := by
  refine ⟨rfl, rfl, rfl, rfl, rfl, by simp [World.pushFragment], by simp [World.pushFragment],
    ?_, ?_⟩
  · intro id hid
    simp [World.pushFragment, Function.update, Nat.ne_of_lt hid]
  · intro id hid
    by_cases h : id = w.nextId
    · subst h
      simpa [World.pushFragment, Function.update] using hv
    · simpa [World.pushFragment, Function.update, h] using hid

theorem World.spawnMany_spawned [LinearOrderedField α]
    (build : (Nat → α) → SceneObject α × Nat) (hb : ∀ r, (build r).1.velocity ≠ none)
    (n : Nat) (w : World α) : Spawned n w (World.spawnMany build n w) := by
  induction n generalizing w with
  | zero => exact Spawned.rfl_zero w
  | succ k ih =>
    have h1 := World.pushFragment_spawned w (build (fun j => w.rand (w.randPos + j))).1
      (build (fun j => w.rand (w.randPos + j))).2 (hb _)
    have h2 := ih (w.pushFragment (build (fun j => w.rand (w.randPos + j))).1
      (build (fun j => w.rand (w.randPos + j))).2)
    have h3 := Spawned.append h1 h2
    rw [Nat.add_comm] at h3
    exact h3

theorem World.createFragments_spawned [LinearOrderedField α] (m : JSMath α) (w : World α)
    (position : Vec3 α) (num : Nat) : Spawned 65 w (w.createFragments m position num) := by
  have h1 := World.spawnMany_spawned (explosionCoreFragment m position)
    (fun r => by simp [explosionCoreFragment]) 20 w
  have h2 := World.spawnMany_spawned (shrapnelFragment m position)
    (fun r => by simp [shrapnelFragment]) 15 (World.spawnMany (explosionCoreFragment m position) 20 w)
  have h3 := World.spawnMany_spawned (fireParticleFragment m position)
    (fun r => by simp [fireParticleFragment]) 30
    (World.spawnMany (shrapnelFragment m position) 15
      (World.spawnMany (explosionCoreFragment m position) 20 w))
  exact Spawned.append (Spawned.append h1 h2) h3

theorem World.createWallHitEffect_spawned [LinearOrderedField α] (m : JSMath α) (w : World α)
    (position : Vec3 α) : Spawned 3 w (w.createWallHitEffect m position) :=
  World.spawnMany_spawned (wallHitFragment m position) (fun r => by simp [wallHitFragment]) 3 w

theorem World.damageEnemy_survive [LinearOrderedField α] (m : JSMath α) (w : World α) (e : Nat)
    (proj : SceneObject α) (h : Int) (hh : (w.store e).health = some h) (h2 : 1 < h) :
    (w.damageEnemy m e proj).sceneObjects = w.sceneObjects ∧
    (w.damageEnemy m e proj).enemies = w.enemies ∧
    (w.damageEnemy m e proj).fragments = w.fragments ∧
    (w.damageEnemy m e proj).nextId = w.nextId ∧
    ((w.damageEnemy m e proj).store e).health = some (h - 1) := by
  have hpos : 0 < h - 1 := by omega
  simp [World.damageEnemy, hh, hpos, World.setObj]

theorem World.damageEnemy_kill [LinearOrderedField α] (m : JSMath α) (w : World α) (e : Nat)
    (proj : SceneObject α) (h : Int) (hh : (w.store e).health = some h) (h1 : h ≤ 1) :
    ∃ w1 : World α, w1.sceneObjects = w.sceneObjects.erase e ∧ w1.enemies = w.enemies.erase e ∧
      w1.fragments = w.fragments ∧ w1.nextId = w.nextId ∧
      Spawned 65 w1 (w.damageEnemy m e proj) := by
  have hneg : ¬ 0 < h - 1 := by omega
  refine ⟨{ w.setObj e { w.store e with health := (w.store e).health.map (· - 1) } with
      sceneObjects := w.sceneObjects.erase e, enemies := w.enemies.erase e }, rfl, rfl, rfl, rfl,
    ?_⟩
  have : w.damageEnemy m e proj =
      World.createFragments m
        { w.setObj e { w.store e with health := (w.store e).health.map (· - 1) } with
          sceneObjects := w.sceneObjects.erase e, enemies := w.enemies.erase e }
        (World.obj { w.setObj e { w.store e with health := (w.store e).health.map (· - 1) } with
          sceneObjects := w.sceneObjects.erase e, enemies := w.enemies.erase e } e).position 50 := by
    simp [World.damageEnemy, hh, hneg, World.explodeEnemy, World.setObj]
  rw [this]
  exact World.createFragments_spawned m _ _ 50

theorem World.damageEnemyTimes_alive [LinearOrderedField α] (m : JSMath α) (w : World α)
    (e : Nat) (projs : Nat → SceneObject α) (h : Nat)
    (hh : (w.store e).health = some (h : Int)) (k : Nat) (hk : k < h) :
    (World.damageEnemyTimes m e projs k w).sceneObjects = w.sceneObjects ∧
    (World.damageEnemyTimes m e projs k w).enemies = w.enemies ∧
    (World.damageEnemyTimes m e projs k w).fragments = w.fragments ∧
    (World.damageEnemyTimes m e projs k w).nextId = w.nextId ∧
    ((World.damageEnemyTimes m e projs k w).store e).health = some ((h : Int) - k) := by
  induction k with
  | zero => simp [World.damageEnemyTimes, hh]
  | succ j ih =>
    obtain ⟨i1, i2, i3, i4, i5⟩ := ih (by omega)
    have hs := World.damageEnemy_survive m (World.damageEnemyTimes m e projs j w) e (projs j)
      ((h : Int) - j) i5 (by omega)
    simp only [World.damageEnemyTimes]
    refine ⟨hs.1.trans i1, hs.2.1.trans i2, hs.2.2.1.trans i3, hs.2.2.2.1.trans i4, ?_⟩
    rw [hs.2.2.2.2]
    congr 1
    push_cast
    omega

theorem not_mem_erase_of_count_one {l : List Nat} {a : Nat} (h : l.count a = 1) :
    a ∉ l.erase a := by
  rw [← List.count_eq_zero, List.count_erase_self, h]

/-- C16: for an enemy with integer health `h >= 1` present (once) in both
`sceneObjects` and `enemies`: after each of the first `h-1` calls of
`damageEnemy` it is still in both collections and no fragment has been
spawned; the `h`-th call removes it from both and spawns exactly one
explosion burst (the 65 fragments of one `createFragments` call); afterwards
`checkProjectileHitEnemy` never returns it. -/
theorem enemy_dies_at_last_hit [LinearOrderedField α] (m : JSMath α) (w : World α) (e : Nat)
    (projs : Nat → SceneObject α) (h : Nat) (h1 : 1 ≤ h)
    (hh : (w.store e).health = some (h : Int))
    (hs : w.sceneObjects.count e = 1) (he : w.enemies.count e = 1) (hid : e < w.nextId) :
    (∀ k, k < h →
      e ∈ (World.damageEnemyTimes m e projs k w).sceneObjects ∧
      e ∈ (World.damageEnemyTimes m e projs k w).enemies ∧
      (World.damageEnemyTimes m e projs k w).fragments = w.fragments) ∧
    (e ∉ (World.damageEnemyTimes m e projs h w).sceneObjects ∧
      e ∉ (World.damageEnemyTimes m e projs h w).enemies ∧
      (World.damageEnemyTimes m e projs h w).fragments.length = w.fragments.length + 65) ∧
    ∀ proj, (World.damageEnemyTimes m e projs h w).checkProjectileHitEnemy proj ≠ some e := by
  have hms : e ∈ w.sceneObjects := List.count_pos_iff.1 (by omega)
  have hme : e ∈ w.enemies := List.count_pos_iff.1 (by omega)
  obtain ⟨j, rfl⟩ : ∃ j, h = j + 1 := ⟨h - 1, by omega⟩
  obtain ⟨a1, a2, a3, a4, a5⟩ := World.damageEnemyTimes_alive m w e projs (j + 1) hh j (by omega)
  obtain ⟨w1, k1, k2, k3, k4, sp⟩ := World.damageEnemy_kill m
    (World.damageEnemyTimes m e projs j w) e (projs j) (((j + 1 : Nat) : Int) - j) a5
    (by push_cast; omega)
  have hfinal : World.damageEnemyTimes m e projs (j + 1) w =
      (World.damageEnemyTimes m e projs j w).damageEnemy m e (projs j) := rfl
  have hnotenemy : e ∉ (World.damageEnemyTimes m e projs (j + 1) w).enemies := by
    rw [hfinal, sp.enemies, k2, a2]
    exact not_mem_erase_of_count_one he
  refine ⟨?_, ⟨?_, hnotenemy, ?_⟩, ?_⟩
  · intro k hk
    obtain ⟨b1, b2, b3, _, _⟩ := World.damageEnemyTimes_alive m w e projs (j + 1) hh k hk
    rw [b1, b2, b3]
    exact ⟨hms, hme, rfl⟩
  · rw [hfinal, sp.sceneObjects, k1, a1, k4, a4, List.mem_append]
    rintro (hmem | hmem)
    · exact not_mem_erase_of_count_one hs hmem
    · rw [List.mem_range'_1] at hmem
      omega
  · rw [hfinal, sp.fragments, k3, a3]
    simp
  · intro proj hfind
    exact hnotenemy (List.mem_of_find?_eq_some hfind)

theorem enemy_dies_at_last_hit_witness :
    1 ≤ 3 ∧ (sampleWorld.store 5).health = some ((3 : Nat) : Int) ∧
    sampleWorld.sceneObjects.count 5 = 1 ∧ sampleWorld.enemies.count 5 = 1 ∧
    5 < sampleWorld.nextId ∧
    5 ∈ (World.damageEnemyTimes sampleMath 5 (fun _ => rifleRound) 2 sampleWorld).enemies ∧
    5 ∉ (World.damageEnemyTimes sampleMath 5 (fun _ => rifleRound) 3 sampleWorld).sceneObjects ∧
    5 ∉ (World.damageEnemyTimes sampleMath 5 (fun _ => rifleRound) 3 sampleWorld).enemies ∧
    (World.damageEnemyTimes sampleMath 5 (fun _ => rifleRound) 3 sampleWorld).fragments.length
      = sampleWorld.fragments.length + 65 :=
  ⟨by decide, by decide!, by decide, by decide, by decide,
    ((enemy_dies_at_last_hit sampleMath sampleWorld 5 (fun _ => rifleRound) 3 (by decide)
      (by decide!) (by decide) (by decide) (by decide)).1 2 (by decide)).2.1,
    (enemy_dies_at_last_hit sampleMath sampleWorld 5 (fun _ => rifleRound) 3 (by decide)
      (by decide!) (by decide) (by decide) (by decide)).2.1.1,
    (enemy_dies_at_last_hit sampleMath sampleWorld 5 (fun _ => rifleRound) 3 (by decide)
      (by decide!) (by decide) (by decide) (by decide)).2.1.2.1,
    (enemy_dies_at_last_hit sampleMath sampleWorld 5 (fun _ => rifleRound) 3 (by decide)
      (by decide!) (by decide) (by decide) (by decide)).2.1.2.2⟩

/-- C17, the code at the failing input: a Shotgun pellet (damage `1/2`) and a
Rifle round (damage `1`) that hit the first enemy (health 3) both leave it
with health 2, because `damageEnemy` does `enemy.health--` and never reads
the projectile. -/
theorem shotgun_pellet_damages_like_rifle :
    shotgunPellet.damage = some (1 / 2) ∧ rifleRound.damage = some 1 ∧
    (sampleWorld.store 5).health = some 3 ∧
    ((sampleWorld.damageEnemy sampleMath 5 shotgunPellet).store 5).health = some 2 ∧
    ((sampleWorld.damageEnemy sampleMath 5 rifleRound).store 5).health = some 2 := by
  refine ⟨by decide!, by decide!, by decide!, by decide!, by decide!⟩

theorem World.checkProjectileHitEnemy_some [LinearOrderedField α] (w : World α)
    (proj : SceneObject α) (e : Nat) (h : w.checkProjectileHitEnemy proj = some e) :
    e ∈ w.enemies ∧ e ∈ w.sceneObjects ∧
      ∃ b, (w.obj e).boundingBox = some b ∧ checkCollision proj.position (w.obj e) b = true := by
  unfold World.checkProjectileHitEnemy at h
  have hp := List.find?_some h
  have hm := List.mem_of_find?_eq_some h
  simp only [Bool.and_eq_true] at hp
  refine ⟨hm, by simpa using hp.1, ?_⟩
  cases hb : (w.obj e).boundingBox with
  | none => simp [hb] at hp
  | some b =>
    refine ⟨b, rfl, ?_⟩
    simpa [hb] using hp.2

theorem World.checkProjectileHitEnemy_isSome [LinearOrderedField α] (w : World α)
    (proj : SceneObject α) (t : Nat) (ht : t ∈ w.enemies) (hs : t ∈ w.sceneObjects) (b : Box α)
    (hb : (w.obj t).boundingBox = some b)
    (hc : checkCollision proj.position (w.obj t) b = true) :
    (w.checkProjectileHitEnemy proj).isSome = true := by
  unfold World.checkProjectileHitEnemy
  rw [List.find?_isSome]
  exact ⟨t, ht, by simp [hs, hb, hc]⟩

/-- C18 (as the code behaves): the hit check places the target's own
bounding box, not the projectile's, at `p.position`.  With the player's hit
flash inactive, `checkProjectileHitPlayer` reports a hit exactly when the
player's box placed at `p.position` overlaps the player's box at the player's
position.  `checkProjectileHitEnemy` returns only a live enemy whose box
placed at `p.position` overlaps its box at its own position, and it reports a
hit whenever some live enemy satisfies this. -/
theorem hit_check_uses_target_box [LinearOrderedField α] (w : World α) (proj : SceneObject α) :
    (w.player.hitFlashTimer ≤ 0 →
      (w.checkProjectileHitPlayer proj = true ↔
        checkCollision proj.position w.player.toSceneObject w.player.boundingBox = true)) ∧
    (∀ e, w.checkProjectileHitEnemy proj = some e →
      e ∈ w.enemies ∧ e ∈ w.sceneObjects ∧
        ∃ b, (w.obj e).boundingBox = some b ∧
          checkCollision proj.position (w.obj e) b = true) ∧
    (∀ t, t ∈ w.enemies → t ∈ w.sceneObjects →
      (∃ b, (w.obj t).boundingBox = some b ∧ checkCollision proj.position (w.obj t) b = true) →
        (w.checkProjectileHitEnemy proj).isSome = true) := by
  refine ⟨?_, World.checkProjectileHitEnemy_some w proj, ?_⟩
  · intro hf
    simp [World.checkProjectileHitPlayer, not_lt.mpr hf]
  · rintro t ht hs ⟨b, hb, hc⟩
    exact World.checkProjectileHitEnemy_isSome w proj t ht hs b hb hc

theorem hit_check_uses_target_box_witness :
    sampleWorld.player.hitFlashTimer ≤ 0 ∧
    sampleWorld.checkProjectileHitPlayer enemyShot = true ∧
    sampleWorld.checkProjectileHitEnemy rifleRound = some 5 :=
  ⟨by decide,
    ((hit_check_uses_target_box sampleWorld enemyShot).1 (by decide)).2 (by decide!),
    by decide!⟩

/-- C18 fails as stated: the enemy projectile at `(4/5, 1, 0)` is reported to
hit the player (hit flash inactive) although its own bounding box placed at
its position does not overlap the player's bounding box; and a projectile at
height `21/10` above the player, whose own box does overlap the player's, is
not reported. -/
theorem hit_check_not_own_box :
    sampleWorld.player.hitFlashTimer ≤ 0 ∧
    (sampleWorld.checkProjectileHitPlayer enemyShot = true ∧
      ∃ pb, enemyShot.boundingBox = some pb ∧
        checkCollision enemyShot.position sampleWorld.player.toSceneObject pb = false) ∧
    (sampleWorld.checkProjectileHitPlayer { enemyShot with position := vec3 0 (21 / 10) 0 } = false ∧
      ∃ pb, enemyShot.boundingBox = some pb ∧
        checkCollision (vec3 0 (21 / 10) 0) sampleWorld.player.toSceneObject pb = true) := by
  refine ⟨by decide, ⟨by decide!, _, rfl, by decide!⟩, by decide!, _, rfl, by decide!⟩

end CombatTheorems

section ProjectileTheorems

variable {α : Type}

theorem nodup_getElem?_ne {l : List Nat} (hl : l.Nodup) {i j a b : Nat}
    (hi : l[i]? = some a) (hj : l[j]? = some b) (hij : i ≠ j) : a ≠ b := by
  obtain ⟨hi', rfl⟩ := List.getElem?_eq_some.1 hi
  obtain ⟨hj', rfl⟩ := List.getElem?_eq_some.1 hj
  intro h
  exact hij ((hl.getElem_inj_iff).1 h)

theorem mem_eraseIdx_of_ne {l : List Nat} {i q p : Nat} (hi : l[i]? = some q) (hq : q ≠ p)
    (hp : p ∈ l) : p ∈ l.eraseIdx i := by
  rw [List.mem_eraseIdx_iff_getElem?]
  obtain ⟨j, hj⟩ := List.mem_iff_getElem?.1 hp
  refine ⟨j, ?_, hj⟩
  rintro rfl
  rw [hi] at hj
  exact hq (Option.some.inj hj)

theorem not_mem_eraseIdx_self {l : List Nat} (hl : l.Nodup) {k p : Nat}
    (hk : l[k]? = some p) : p ∉ l.eraseIdx k := by
  rw [List.mem_eraseIdx_iff_getElem?]
  rintro ⟨i, hik, hi⟩
  exact nodup_getElem?_ne hl hi hk hik rfl

theorem Frame.refl [LinearOrderedField α] (p : Nat) (w : World α) : Frame p w w :=
  ⟨rfl, le_refl _, rfl, fun _ h => h, rfl, rfl, rfl, fun _ h => h⟩

theorem Frame.comp [LinearOrderedField α] {p : Nat} {w w' w'' : World α}
    (h1 : Frame p w w') (h2 : Frame p w' w'') : Frame p w w'' :=
  ⟨h2.crashed.trans h1.crashed, le_trans h1.nextId h2.nextId, h2.playerId.trans h1.playerId,
    fun e he => h1.enemies e (h2.enemies e he), h2.store.trans h1.store,
    h2.scene.trans h1.scene, h2.projectiles.trans h1.projectiles,
    fun id h => h2.velocity id (h1.velocity id h)⟩

theorem Frame.of_spawned [LinearOrderedField α] {p n : Nat} {w w' : World α}
    (h : Spawned n w w') (hp : p < w.nextId) : Frame p w w' := by
  refine ⟨h.crashed, by rw [h.nextId]; omega, by rw [h.player], fun e he => by
    rw [h.enemies] at he; exact he, h.store p hp, ?_, h.projectiles, h.velocity⟩
  rw [h.sceneObjects, List.count_append]
  have : p ∉ List.range' w.nextId n := by
    rw [List.mem_range'_1]
    omega
  rw [List.count_eq_zero_of_not_mem this, Nat.add_zero]

theorem Frame.setObj [LinearOrderedField α] (p q : Nat) (w : World α) (o : SceneObject α)
    (hq : q ≠ p) (hv : (w.store q).velocity ≠ none → o.velocity ≠ none) :
    Frame p w (w.setObj q o) := by
  refine ⟨rfl, le_refl _, rfl, fun _ h => h, ?_, rfl, rfl, ?_⟩
  · simp [World.setObj, Function.update, Ne.symm hq]
  · intro id hid
    by_cases h : id = q
    · subst h
      simpa [World.setObj, Function.update] using hv hid
    · simpa [World.setObj, Function.update, h] using hid

theorem Frame.eraseScene [LinearOrderedField α] (p q : Nat) (w : World α) (hq : q ≠ p) :
    Frame p w { w with sceneObjects := w.sceneObjects.erase q } :=
  ⟨rfl, le_refl _, rfl, fun _ h => h, rfl, List.count_erase_of_ne (Ne.symm hq) _, rfl,
    fun _ h => h⟩

theorem Frame.removeObject [LinearOrderedField α] (p q : Nat) (w : World α) (hq : q ≠ p) :
    Frame p w (w.removeObject q) :=
  Frame.eraseScene p q w hq

theorem Safe.of_frame [LinearOrderedField α] {p : Nat} {w w' : World α} (hs : Safe p w)
    (hf : Frame p w w') : Safe p w' :=
  ⟨hf.crashed.trans hs.alive, lt_of_lt_of_le hs.fresh hf.nextId,
    by rw [hf.playerId]; exact hs.notPlayer, fun he => hs.notEnemy (hf.enemies p he),
    by rw [hf.projectiles]; exact hs.nodup,
    fun q hq => hf.velocity q (hs.velocities q (by rw [hf.projectiles] at hq; exact hq))⟩

theorem Safe.eraseIdx [LinearOrderedField α] {p : Nat} {w : World α} (hs : Safe p w) (i : Nat) :
    Safe p { w with projectiles := w.projectiles.eraseIdx i } :=
  ⟨hs.alive, hs.fresh, hs.notPlayer, hs.notEnemy,
    hs.nodup.sublist (List.eraseIdx_sublist _ _),
    fun q hq => hs.velocities q ((List.eraseIdx_sublist _ _).subset hq)⟩

theorem Frame.setPlayer [LinearOrderedField α] (p : Nat) (w : World α) (pl : Player α)
    (hid : pl.id = w.player.id) : Frame p w { w with player := pl } :=
  ⟨rfl, le_refl _, hid, fun _ h => h, rfl, rfl, rfl, fun _ h => h⟩

theorem Frame.eraseEnemy [LinearOrderedField α] (p e : Nat) (w : World α) :
    Frame p w { w with enemies := w.enemies.erase e } :=
  ⟨rfl, le_refl _, rfl, fun _ h => List.mem_of_mem_erase h, rfl, rfl, rfl, fun _ h => h⟩

theorem Frame.createFragments [LinearOrderedField α] (m : JSMath α) (p : Nat) (w : World α)
    (position : Vec3 α) (num : Nat) (hp : p < w.nextId) :
    Frame p w (w.createFragments m position num) :=
  Frame.of_spawned (World.createFragments_spawned m w position num) hp

theorem Frame.playerDeath [LinearOrderedField α] (m : JSMath α) (p : Nat) (w : World α)
    (hp : p < w.nextId) (hpl : p ≠ w.player.id) : Frame p w (w.playerDeath m) := by
  have h1 := Frame.createFragments m p w w.player.position 80 hp
  have hid : (w.createFragments m w.player.position 80).player.id = w.player.id := h1.playerId
  have h2 := Frame.eraseScene p (w.createFragments m w.player.position 80).player.id
    (w.createFragments m w.player.position 80) (by rw [hid]; exact Ne.symm hpl)
  have h3 := Frame.comp h1 h2
  exact Frame.comp h3 (Frame.setPlayer p _ _ rfl)

theorem Frame.damagePlayer [LinearOrderedField α] (m : JSMath α) (p : Nat) (w : World α)
    (proj : SceneObject α) (hp : p < w.nextId) (hpl : p ≠ w.player.id) :
    Frame p w (w.damagePlayer m proj) := by
  by_cases hf : w.player.hitFlashTimer > 0
  · have e : w.damagePlayer m proj = w := by simp [World.damagePlayer, hf]
    rw [e]
    exact Frame.refl p w
  · have h1 : Frame p w
        { w with player := { w.player with health := w.player.health - 1, hitFlashTimer := 20 } } :=
      Frame.setPlayer p w _ rfl
    by_cases hh : w.player.health - 1 ≤ 0
    · have e : w.damagePlayer m proj = World.playerDeath m
          { w with player := { w.player with health := w.player.health - 1, hitFlashTimer := 20 } } := by
        simp [World.damagePlayer, hf, hh]
      rw [e]
      exact Frame.comp h1 (Frame.playerDeath m p _ hp hpl)
    · have e : w.damagePlayer m proj =
          { w with player := { w.player with health := w.player.health - 1, hitFlashTimer := 20 } } := by
        simp [World.damagePlayer, hf, hh]
      rw [e]
      exact h1

theorem Frame.explodeEnemy [LinearOrderedField α] (m : JSMath α) (p e : Nat) (w : World α)
    (hp : p < w.nextId) (he : e ≠ p) : Frame p w (w.explodeEnemy m e) := by
  unfold World.explodeEnemy
  refine Frame.comp (Frame.eraseScene p e _ he) ?_
  refine Frame.comp (Frame.eraseEnemy p e _) ?_
  exact Frame.createFragments m p _ _ 50 hp

theorem Frame.damageEnemy [LinearOrderedField α] (m : JSMath α) (p e : Nat) (w : World α)
    (proj : SceneObject α) (hp : p < w.nextId) (he : e ≠ p) :
    Frame p w (w.damageEnemy m e proj) := by
  have h1 : Frame p w
      (w.setObj e { w.store e with health := (w.store e).health.map (· - 1) }) :=
    Frame.setObj p e w _ he (fun h => h)
  unfold World.damageEnemy
  dsimp only
  split_ifs with hc
  · refine Frame.comp h1 (Frame.setObj p e _ _ he ?_)
    intro hv
    simpa [World.setObj] using hv
  · exact Frame.comp h1 (Frame.explodeEnemy m p e _ hp he)

theorem FrameOrDrop.keep [LinearOrderedField α] {p i : Nat} {w w' : World α}
    (h : Frame p w w') : FrameOrDrop p i w w' :=
  ⟨w', h, Or.inl rfl⟩

theorem FrameOrDrop.drop [LinearOrderedField α] {p q i : Nat} {w w' : World α}
    (h : Frame p w w') (hq : q ≠ p) : FrameOrDrop p i w (w'.dropProjectile q i) :=
  ⟨w'.removeObject q, Frame.comp h (Frame.removeObject p q w' hq), Or.inr rfl⟩

theorem FrameOrDrop.after [LinearOrderedField α] {p i : Nat} {w w1 r : World α}
    (h : Frame p w w1) (hr : FrameOrDrop p i w1 r) : FrameOrDrop p i w r := by
  obtain ⟨w', hf, hor⟩ := hr
  exact ⟨w', Frame.comp h hf, hor⟩

theorem World.hitPhase_frame [LinearOrderedField α] (m : JSMath α) (p q i : Nat) (w : World α)
    (hp : p < w.nextId) (hpl : p ≠ w.player.id) (hen : p ∉ w.enemies) (hq : q ≠ p) :
    FrameOrDrop p i w (w.hitPhase m q i) := by
  unfold World.hitPhase
  dsimp only
  split_ifs with h1 h2
  · exact FrameOrDrop.drop (Frame.damagePlayer m p w _ hp hpl) hq
  · exact FrameOrDrop.keep (Frame.refl p w)
  · split
    · rename_i e he
      have hmem : e ∈ w.enemies := List.mem_of_find?_eq_some he
      have hne : e ≠ p := fun h => hen (h ▸ hmem)
      exact FrameOrDrop.drop (Frame.damageEnemy m p e w _ hp hne) hq
    · exact FrameOrDrop.keep (Frame.refl p w)

theorem World.movePhase_frame [LinearOrderedField α] (m : JSMath α) (p q i : Nat) (w : World α)
    (hp : p < w.nextId) (hpl : p ≠ w.player.id) (hen : p ∉ w.enemies) (hq : q ≠ p)
    (hv : (w.store q).velocity ≠ none) :
    FrameOrDrop p i w (w.movePhase m q i) := by
  unfold World.movePhase
  dsimp only
  split
  · rename_i hnone
    exact absurd hnone hv
  · rename_i v hsome
    split_ifs with h1
    · exact FrameOrDrop.drop
        (Frame.of_spawned (World.createWallHitEffect_spawned m w _) hp) hq
    · have key : ∀ o : SceneObject α, ((w.store q).velocity ≠ none → o.velocity ≠ none) →
          FrameOrDrop p i w ((w.setObj q o).hitPhase m q i) := by
        intro o ho
        have f := Frame.setObj p q w o hq ho
        exact FrameOrDrop.after f
          (World.hitPhase_frame m p q i _ (lt_of_lt_of_le hp f.nextId)
            (by rw [f.playerId]; exact hpl) (fun he => hen (f.enemies p he)) hq)
      exact key _ (fun h => h)

theorem World.projectileStep_frame [LinearOrderedField α] (m : JSMath α) (p q i : Nat)
    (w : World α) (hs : Safe p w) (hi : w.projectiles[i]? = some q) (hq : q ≠ p) :
    FrameOrDrop p i w (w.projectileStep m i) := by
  have hqmem : q ∈ w.projectiles := List.mem_iff_getElem?.2 ⟨i, hi⟩
  have f1 : Frame p w (w.tickLife q) := Frame.setObj p q w _ hq (fun h => h)
  have hv1 : ((w.tickLife q).store q).velocity ≠ none :=
    f1.velocity q (hs.velocities q hqmem)
  unfold World.projectileStep
  rw [if_neg (by simp [hs.alive])]
  simp only [hi]
  split_ifs with h1
  · exact FrameOrDrop.drop f1 hq
  · exact FrameOrDrop.after f1
      (World.movePhase_frame m p q i _ (lt_of_lt_of_le hs.fresh f1.nextId)
        (by rw [f1.playerId]; exact hs.notPlayer) (fun he => hs.notEnemy (f1.enemies p he)) hq hv1)

theorem World.projectileStep_other [LinearOrderedField α] (m : JSMath α) (p q i : Nat)
    (w : World α) (hs : Safe p w) (hi : w.projectiles[i]? = some q) (hq : q ≠ p) :
    Safe p (w.projectileStep m i) ∧
    (w.projectileStep m i).store p = w.store p ∧
    (w.projectileStep m i).sceneObjects.count p = w.sceneObjects.count p ∧
    ((w.projectileStep m i).projectiles = w.projectiles ∨
      (w.projectileStep m i).projectiles = w.projectiles.eraseIdx i) := by
  obtain ⟨w', hf, hor⟩ := World.projectileStep_frame m p q i w hs hi hq
  have hs' := Safe.of_frame hs hf
  rcases hor with h | h
  · rw [h]
    exact ⟨hs', hf.store, hf.scene, Or.inl hf.projectiles⟩
  · rw [h]
    refine ⟨Safe.eraseIdx hs' i, hf.store, hf.scene, Or.inr ?_⟩
    show w'.projectiles.eraseIdx i = w.projectiles.eraseIdx i
    rw [hf.projectiles]

theorem Safe.write [LinearOrderedField α] {p : Nat} {w : World α} (hs : Safe p w) (q : Nat)
    (o : SceneObject α) (hv : (w.store q).velocity ≠ none → o.velocity ≠ none) :
    Safe p (w.setObj q o) := by
  refine ⟨hs.alive, hs.fresh, hs.notPlayer, hs.notEnemy, hs.nodup, ?_⟩
  intro x hx
  have hx' := hs.velocities x hx
  by_cases h : x = q
  · subst h
    simpa [World.setObj, Function.update] using hv hx'
  · simpa [World.setObj, Function.update, h] using hx'

theorem World.tickLife_life [LinearOrderedField α] (w : World α) (p : Nat) :
    ((w.tickLife p).store p).life = (w.store p).life.map (· - 1) := by
  simp [World.tickLife, World.setObj]

theorem World.tickLife_velocity [LinearOrderedField α] (w : World α) (p : Nat) :
    ((w.tickLife p).store p).velocity = (w.store p).velocity := by
  simp [World.tickLife, World.setObj]

theorem Safe.tickLife [LinearOrderedField α] {p : Nat} {w : World α} (hs : Safe p w) (q : Nat) :
    Safe p (w.tickLife q) :=
  Safe.write hs q _ (fun h => h)

theorem World.hitPhase_of_hitsNothing [LinearOrderedField α] (m : JSMath α) (w : World α)
    (pid i : Nat) (h : w.hitsNothing pid = true) : w.hitPhase m pid i = w := by
  unfold World.hitsNothing at h
  unfold World.hitPhase
  dsimp only at h ⊢
  split_ifs with h1 h2
  · simp [h1, h2] at h
  · rfl
  · simp only [h1, if_false] at h
    split
    · rename_i e he
      rw [he] at h
      simp at h
    · rfl

theorem World.projectileStep_own_expires [LinearOrderedField α] (m : JSMath α) (p k : Nat)
    (w : World α) (ℓ : α) (hs : Safe p w) (hk : w.projectiles[k]? = some p)
    (hl : (w.store p).life = some ℓ) (hexp : ℓ - 1 ≤ 0) :
    Safe p (w.projectileStep m k) ∧
    (w.projectileStep m k).projectiles = w.projectiles.eraseIdx k ∧
    (w.projectileStep m k).sceneObjects = w.sceneObjects.erase p := by
  have hle : lifeExpired ((w.tickLife p).store p) = true := by
    simp [lifeExpired, World.tickLife_life, hl, hexp]
  have e : w.projectileStep m k = (w.tickLife p).dropProjectile p k := by
    unfold World.projectileStep
    rw [if_neg (by simp [hs.alive])]
    simp only [hk, hle, if_true]
  rw [e]
  refine ⟨?_, rfl, rfl⟩
  have h1 : Safe p (w.tickLife p) := Safe.tickLife hs p
  exact Safe.eraseIdx (p := p)
    (w := (w.tickLife p).removeObject p)
    ⟨h1.alive, h1.fresh, h1.notPlayer, h1.notEnemy, h1.nodup, h1.velocities⟩ k

theorem World.projectileStep_own_flies [LinearOrderedField α] (m : JSMath α) (p k : Nat)
    (w : World α) (ℓ : α) (hs : Safe p w) (hk : w.projectiles[k]? = some p)
    (hl : (w.store p).life = some ℓ) (hexp : ¬ ℓ - 1 ≤ 0) (hfly : w.projectileFlies p = true) :
    Safe p (w.projectileStep m k) ∧
    (w.projectileStep m k).projectiles = w.projectiles ∧
    (w.projectileStep m k).sceneObjects = w.sceneObjects ∧
    ((w.projectileStep m k).store p).life = some (ℓ - 1) := by
  have hle : lifeExpired ((w.tickLife p).store p) = false := by
    simp [lifeExpired, World.tickLife_life, hl, hexp]
  have e : w.projectileStep m k = (w.tickLife p).movePhase m p k := by
    unfold World.projectileStep
    rw [if_neg (by simp [hs.alive])]
    simp only [hk, hle]
    rfl
  rw [e]
  have h1 : Safe p (w.tickLife p) := Safe.tickLife hs p
  have hl1 : ((w.tickLife p).store p).life = some (ℓ - 1) := by
    rw [World.tickLife_life, hl]
    rfl
  unfold World.projectileFlies at hfly
  unfold World.movePhase
  dsimp only at hfly ⊢
  split at hfly
  · exact absurd hfly (by simp)
  · rename_i v hsome
    simp only [Bool.and_eq_true] at hfly
    obtain ⟨hmove, hnothing⟩ := hfly
    rw [if_neg (by simp [hmove])]
    rw [World.hitPhase_of_hitsNothing m _ p k hnothing]
    refine ⟨Safe.write h1 p _ (fun h => h), rfl, rfl, ?_⟩
    simpa [World.setObj] using hl1

theorem exists_getElem?_of_lt {l : List Nat} {i : Nat} (h : i < l.length) :
    ∃ q, l[i]? = some q :=
  ⟨l[i], List.getElem?_eq_getElem h⟩

theorem World.updateProjectilesLoop_others [LinearOrderedField α] (m : JSMath α) (p : Nat)
    (c : Nat) (w : World α) (hs : Safe p w) (hc : c ≤ w.projectiles.length)
    (hnot : ∀ i, i < c → w.projectiles[i]? ≠ some p) :
    Safe p (World.updateProjectilesLoop m c w) ∧
    (World.updateProjectilesLoop m c w).store p = w.store p ∧
    (World.updateProjectilesLoop m c w).sceneObjects.count p = w.sceneObjects.count p ∧
    (p ∈ w.projectiles ↔ p ∈ (World.updateProjectilesLoop m c w).projectiles) := by
  induction c generalizing w with
  | zero => exact ⟨hs, rfl, rfl, Iff.rfl⟩
  | succ i ih =>
    obtain ⟨q, hq⟩ := exists_getElem?_of_lt (l := w.projectiles) (i := i) (by omega)
    have hqp : q ≠ p := by
      rintro rfl
      exact hnot i (by omega) hq
    obtain ⟨s1, s2, s3, s4⟩ := World.projectileStep_other m p q i w hs hq hqp
    have hlen : i ≤ (w.projectileStep m i).projectiles.length := by
      rcases s4 with h | h
      · rw [h]
        omega
      · rw [h, List.length_eraseIdx_of_lt (by omega)]
        omega
    have hnot' : ∀ j, j < i → (w.projectileStep m i).projectiles[j]? ≠ some p := by
      intro j hj
      rcases s4 with h | h
      · rw [h]
        exact hnot j (by omega)
      · rw [h, List.getElem?_eraseIdx_of_lt _ _ _ hj]
        exact hnot j (by omega)
    have hmem : p ∈ w.projectiles ↔ p ∈ (w.projectileStep m i).projectiles := by
      rcases s4 with h | h
      · rw [h]
      · rw [h]
        exact ⟨mem_eraseIdx_of_ne hq hqp, fun hp => (List.eraseIdx_sublist _ _).subset hp⟩
    obtain ⟨r1, r2, r3, r4⟩ := ih (w.projectileStep m i) s1 hlen hnot'
    exact ⟨r1, r2.trans s2, r3.trans s3, hmem.trans r4⟩

theorem World.updateProjectilesDownTo_spec [LinearOrderedField α] (m : JSMath α) (p k : Nat)
    (c : Nat) (w : World α) (hs : Safe p w) (hk : w.projectiles[k]? = some p) (hkc : k < c)
    (hc : c ≤ w.projectiles.length) :
    Safe p (World.updateProjectilesDownTo m k c w) ∧
    (World.updateProjectilesDownTo m k c w).store p = w.store p ∧
    (World.updateProjectilesDownTo m k c w).sceneObjects.count p = w.sceneObjects.count p ∧
    (World.updateProjectilesDownTo m k c w).projectiles[k]? = some p ∧
    World.updateProjectilesLoop m c w =
      World.updateProjectilesLoop m (k + 1) (World.updateProjectilesDownTo m k c w) := by
  induction c generalizing w with
  | zero => omega
  | succ i ih =>
    by_cases hik : i ≤ k
    · have hki : i = k := by omega
      subst hki
      have e : World.updateProjectilesDownTo m i (i + 1) w = w := by
        simp [World.updateProjectilesDownTo]
      rw [e]
      exact ⟨hs, rfl, rfl, hk, rfl⟩
    · have e : World.updateProjectilesDownTo m k (i + 1) w =
          World.updateProjectilesDownTo m k i (w.projectileStep m i) := by
        simp [World.updateProjectilesDownTo, hik]
      rw [e]
      obtain ⟨q, hq⟩ := exists_getElem?_of_lt (l := w.projectiles) (i := i) (by omega)
      have hqp : q ≠ p := nodup_getElem?_ne hs.nodup hq hk (by omega)
      obtain ⟨s1, s2, s3, s4⟩ := World.projectileStep_other m p q i w hs hq hqp
      have hlen : i ≤ (w.projectileStep m i).projectiles.length := by
        rcases s4 with h | h
        · rw [h]
          omega
        · rw [h, List.length_eraseIdx_of_lt (by omega)]
          omega
      have hk' : (w.projectileStep m i).projectiles[k]? = some p := by
        rcases s4 with h | h
        · rw [h]
          exact hk
        · rw [h, List.getElem?_eraseIdx_of_lt _ _ _ (by omega)]
          exact hk
      obtain ⟨r1, r2, r3, r4, r5⟩ := ih (w.projectileStep m i) s1 hk' (by omega) hlen
      refine ⟨r1, r2.trans s2, r3.trans s3, r4, ?_⟩
      rw [← r5]
      rfl

theorem World.updateProjectiles_flies [LinearOrderedField α] (m : JSMath α) (p : Nat)
    (w : World α) (ℓ : α) (hs : Safe p w) (hmem : p ∈ w.projectiles)
    (hscene : w.sceneObjects.count p = 1) (hl : (w.store p).life = some ℓ)
    (hexp : ¬ ℓ - 1 ≤ 0) (hfree : w.projectileUnobstructed m p = true) :
    Safe p (w.updateProjectiles m) ∧ p ∈ (w.updateProjectiles m).projectiles ∧
    (w.updateProjectiles m).sceneObjects.count p = 1 ∧
    ((w.updateProjectiles m).store p).life = some (ℓ - 1) := by
  have hk : w.projectiles[w.projectiles.indexOf p]? = some p := List.getElem?_indexOf hmem
  have hklt : w.projectiles.indexOf p < w.projectiles.length := List.indexOf_lt_length.2 hmem
  obtain ⟨d1, d2, d3, d4, d5⟩ := World.updateProjectilesDownTo_spec m p
    (w.projectiles.indexOf p) w.projectiles.length w hs hk hklt (le_refl _)
  unfold World.projectileUnobstructed at hfree
  obtain ⟨o1, o2, o3, o4⟩ := World.projectileStep_own_flies m p (w.projectiles.indexOf p)
    (World.updateProjectilesDownTo m (w.projectiles.indexOf p) w.projectiles.length w) ℓ d1 d4
    (by rw [d2]; exact hl) hexp hfree
  have hk' : (World.projectileStep m (w.projectiles.indexOf p)
      (World.updateProjectilesDownTo m (w.projectiles.indexOf p) w.projectiles.length
        w)).projectiles[w.projectiles.indexOf p]? = some p := by
    rw [o2]
    exact d4
  have hlen := (List.getElem?_eq_some.1 hk').1
  obtain ⟨r1, r2, r3, r4⟩ := World.updateProjectilesLoop_others m p (w.projectiles.indexOf p) _ o1
    (le_of_lt hlen) (fun i hi h => nodup_getElem?_ne o1.nodup h hk' (by omega) rfl)
  have e : w.updateProjectiles m = World.updateProjectilesLoop m (w.projectiles.indexOf p)
      (World.projectileStep m (w.projectiles.indexOf p)
        (World.updateProjectilesDownTo m (w.projectiles.indexOf p) w.projectiles.length w)) := by
    unfold World.updateProjectiles
    rw [d5]
    rfl
  rw [e]
  refine ⟨r1, r4.1 (List.mem_iff_getElem?.2 ⟨_, hk'⟩), ?_, ?_⟩
  · rw [r3, o3, d3, hscene]
  · rw [r2, o4]

theorem World.updateProjectiles_expires [LinearOrderedField α] (m : JSMath α) (p : Nat)
    (w : World α) (ℓ : α) (hs : Safe p w) (hmem : p ∈ w.projectiles)
    (hscene : w.sceneObjects.count p = 1) (hl : (w.store p).life = some ℓ)
    (hexp : ℓ - 1 ≤ 0) :
    p ∉ (w.updateProjectiles m).projectiles ∧ p ∉ (w.updateProjectiles m).sceneObjects := by
  have hk : w.projectiles[w.projectiles.indexOf p]? = some p := List.getElem?_indexOf hmem
  have hklt : w.projectiles.indexOf p < w.projectiles.length := List.indexOf_lt_length.2 hmem
  obtain ⟨d1, d2, d3, d4, d5⟩ := World.updateProjectilesDownTo_spec m p
    (w.projectiles.indexOf p) w.projectiles.length w hs hk hklt (le_refl _)
  obtain ⟨o1, o2, o3⟩ := World.projectileStep_own_expires m p (w.projectiles.indexOf p)
    (World.updateProjectilesDownTo m (w.projectiles.indexOf p) w.projectiles.length w) ℓ d1 d4
    (by rw [d2]; exact hl) hexp
  have hgone : p ∉ (World.projectileStep m (w.projectiles.indexOf p)
      (World.updateProjectilesDownTo m (w.projectiles.indexOf p) w.projectiles.length
        w)).projectiles := by
    rw [o2]
    exact not_mem_eraseIdx_self d1.nodup d4
  have hlen0 := (List.getElem?_eq_some.1 d4).1
  have hlen : w.projectiles.indexOf p ≤ (World.projectileStep m (w.projectiles.indexOf p)
      (World.updateProjectilesDownTo m (w.projectiles.indexOf p) w.projectiles.length
        w)).projectiles.length := by
    rw [o2, List.length_eraseIdx_of_lt hlen0]
    omega
  obtain ⟨r1, r2, r3, r4⟩ := World.updateProjectilesLoop_others m p (w.projectiles.indexOf p) _ o1
    hlen (fun i _ h => hgone (List.mem_iff_getElem?.2 ⟨i, h⟩))
  have e : w.updateProjectiles m = World.updateProjectilesLoop m (w.projectiles.indexOf p)
      (World.projectileStep m (w.projectiles.indexOf p)
        (World.updateProjectilesDownTo m (w.projectiles.indexOf p) w.projectiles.length w)) := by
    unfold World.updateProjectiles
    rw [d5]
    rfl
  rw [e]
  refine ⟨fun h => hgone (r4.2 h), ?_⟩
  rw [← List.count_eq_zero, r3, o3, List.count_erase_self, d3, hscene]

theorem World.updateProjectiles_iterate_alive [LinearOrderedField α] (m : JSMath α) (p : Nat)
    (w : World α) (n : Nat) (hs : Safe p w) (hmem : p ∈ w.projectiles)
    (hscene : w.sceneObjects.count p = 1) (hlife : (w.store p).life = some (n : α))
    (hfree : ∀ t, t + 1 < n → ((World.updateProjectiles m)^[t] w).projectileUnobstructed m p = true)
    (t : Nat) (ht : t < n) :
    Safe p ((World.updateProjectiles m)^[t] w) ∧
    p ∈ ((World.updateProjectiles m)^[t] w).projectiles ∧
    ((World.updateProjectiles m)^[t] w).sceneObjects.count p = 1 ∧
    (((World.updateProjectiles m)^[t] w).store p).life = some (((n - t : Nat) : α)) := by
  induction t with
  | zero => exact ⟨hs, hmem, hscene, by simpa using hlife⟩
  | succ j ih =>
    obtain ⟨i1, i2, i3, i4⟩ := ih (by omega)
    rw [Function.iterate_succ_apply']
    have hexp : ¬ (((n - j : Nat) : α)) - 1 ≤ 0 := by
      have h2 : (2 : α) ≤ ((n - j : Nat) : α) := by
        have : 2 ≤ n - j := by omega
        exact_mod_cast this
      intro h
      linarith
    obtain ⟨f1, f2, f3, f4⟩ := World.updateProjectiles_flies m p _ _ i1 i2 i3 i4 hexp
      (hfree j (by omega))
    refine ⟨f1, f2, f3, ?_⟩
    rw [f4]
    congr 1
    have : n - j = (n - (j + 1)) + 1 := by omega
    rw [this]
    push_cast
    ring

/-- C19: a projectile with integer life `n >= 1` whose path is not blocked
and which hits no target during the first `n-1` calls of `updateProjectiles`
is still in `projectiles` and in `sceneObjects` after each of those calls
(and before the first), and the `n`-th call removes it from both. -/
theorem projectile_expires_at_life [LinearOrderedField α] (m : JSMath α) (w : World α) (p : Nat)
    (n : Nat) (hn : 1 ≤ n) (hs : Safe p w) (hmem : p ∈ w.projectiles)
    (hscene : w.sceneObjects.count p = 1) (hlife : (w.store p).life = some (n : α))
    (hfree : ∀ t, t + 1 < n →
      ((World.updateProjectiles m)^[t] w).projectileUnobstructed m p = true) :
    (∀ t, t < n → p ∈ ((World.updateProjectiles m)^[t] w).projectiles ∧
      p ∈ ((World.updateProjectiles m)^[t] w).sceneObjects) ∧
    p ∉ ((World.updateProjectiles m)^[n] w).projectiles ∧
    p ∉ ((World.updateProjectiles m)^[n] w).sceneObjects := by
  constructor
  · intro t ht
    obtain ⟨_, a2, a3, _⟩ :=
      World.updateProjectiles_iterate_alive m p w n hs hmem hscene hlife hfree t ht
    exact ⟨a2, List.count_pos_iff.1 (by omega)⟩
  · obtain ⟨j, rfl⟩ : ∃ j, n = j + 1 := ⟨n - 1, by omega⟩
    obtain ⟨a1, a2, a3, a4⟩ :=
      World.updateProjectiles_iterate_alive m p w (j + 1) hs hmem hscene hlife hfree j (by omega)
    rw [Function.iterate_succ_apply']
    refine World.updateProjectiles_expires m p _ _ a1 a2 a3 a4 ?_
    have : j + 1 - j = 1 := by omega
    rw [this]
    simp

theorem projectile_expires_at_life_witness :
    1 ≤ 2 ∧ 8 ∈ sampleWorld.projectiles ∧ sampleWorld.sceneObjects.count 8 = 1 ∧
    (sampleWorld.store 8).life = some ((2 : Nat) : ℚ) ∧
    sampleWorld.projectileUnobstructed sampleMath 8 = true ∧
    (8 ∈ ((World.updateProjectiles sampleMath)^[1] sampleWorld).projectiles ∧
      8 ∈ ((World.updateProjectiles sampleMath)^[1] sampleWorld).sceneObjects) ∧
    8 ∉ ((World.updateProjectiles sampleMath)^[2] sampleWorld).projectiles ∧
    8 ∉ ((World.updateProjectiles sampleMath)^[2] sampleWorld).sceneObjects :=
  have hsafe : Safe 8 sampleWorld :=
    ⟨rfl, by decide, by decide, by decide, by decide, by decide!⟩
  have hfree : ∀ t, t + 1 < 2 →
      ((World.updateProjectiles sampleMath)^[t] sampleWorld).projectileUnobstructed sampleMath 8
        = true := by
    intro t ht
    have h0 : t = 0 := by omega
    subst h0
    decide!
  ⟨by decide, by decide, by decide, by decide!, by decide!,
    (projectile_expires_at_life sampleMath sampleWorld 8 2 (by decide) hsafe (by decide)
      (by decide) (by decide!) hfree).1 1 (by decide),
    (projectile_expires_at_life sampleMath sampleWorld 8 2 (by decide) hsafe (by decide)
      (by decide) (by decide!) hfree).2⟩

end ProjectileTheorems

section MeshTheorems

variable {α : Type}

theorem makeGround_fold [LinearOrderedField α] (size step : α) (k : Nat) :
    (List.range k).foldl (groundStep size step) { vertices := [], edges := [] } =
      { vertices := (List.range (4 * k)).map fun idx =>
          if idx % 4 = 0 then vec3 (-size / 2) (-(1 / 100)) (-size / 2 + ((idx / 4 : Nat) : α) * step)
          else if idx % 4 = 1 then
            vec3 (size / 2) (-(1 / 100)) (-size / 2 + ((idx / 4 : Nat) : α) * step)
          else if idx % 4 = 2 then
            vec3 (-size / 2 + ((idx / 4 : Nat) : α) * step) (-(1 / 100)) (-size / 2)
          else vec3 (-size / 2 + ((idx / 4 : Nat) : α) * step) (-(1 / 100)) (size / 2)
        edges := (List.range (2 * k)).map fun j => (2 * j, 2 * j + 1) } := by
  induction k with
  | zero => rfl
  | succ n ih =>
    rw [List.range_succ, List.foldl_append, ih]
    have hv : List.range (4 * (n + 1)) = List.range (4 * n) ++ [4 * n, 4 * n + 1, 4 * n + 2, 4 * n + 3] := by
      have : 4 * (n + 1) = 4 * n + 1 + 1 + 1 + 1 := by ring
      rw [this, List.range_succ, List.range_succ, List.range_succ, List.range_succ]
      simp
    have he : List.range (2 * (n + 1)) = List.range (2 * n) ++ [2 * n, 2 * n + 1] := by
      have : 2 * (n + 1) = 2 * n + 1 + 1 := by ring
      rw [this, List.range_succ, List.range_succ]
      simp
    have m0 : (4 * n) % 4 = 0 := by omega
    have m1 : (4 * n + 1) % 4 = 1 := by omega
    have m2 : (4 * n + 2) % 4 = 2 := by omega
    have m3 : (4 * n + 3) % 4 = 3 := by omega
    have d0 : (4 * n) / 4 = n := by omega
    have d1 : (4 * n + 1) / 4 = n := by omega
    have d2 : (4 * n + 2) / 4 = n := by omega
    have d3 : (4 * n + 3) / 4 = n := by omega
    rw [hv, he]
    simp only [List.foldl_cons, List.foldl_nil, groundStep, List.map_append, List.map_cons,
      List.map_nil, List.length_append, List.length_map, List.length_range, List.length_cons,
      List.length_nil, m0, m1, m2, m3, d0, d1, d2, d3, List.append_assoc]
    congr 1
    simp
    constructor <;> omega

theorem makeGround_eq [LinearOrderedField α] (size : α) (n : Nat) :
    makeGround size n =
      { vertices := (List.range (4 * (n + 1))).map fun idx =>
          if idx % 4 = 0 then
            vec3 (-size / 2) (-(1 / 100)) (-size / 2 + ((idx / 4 : Nat) : α) * (size / n))
          else if idx % 4 = 1 then
            vec3 (size / 2) (-(1 / 100)) (-size / 2 + ((idx / 4 : Nat) : α) * (size / n))
          else if idx % 4 = 2 then
            vec3 (-size / 2 + ((idx / 4 : Nat) : α) * (size / n)) (-(1 / 100)) (-size / 2)
          else vec3 (-size / 2 + ((idx / 4 : Nat) : α) * (size / n)) (-(1 / 100)) (size / 2)
        edges := (List.range (2 * (n + 1))).map fun j => (2 * j, 2 * j + 1) } :=
  makeGround_fold size (size / n) (n + 1)

theorem makeGround_wellFormed [LinearOrderedField α] (size : α) (n : Nat) :
    (makeGround size n).WellFormed := by
  rw [makeGround_eq]
  intro e he
  simp only [List.mem_map, List.mem_range] at he
  obtain ⟨j, hj, rfl⟩ := he
  simp only [List.length_map, List.length_range]
  constructor <;> omega

theorem makeGround_line [LinearOrderedField α] (size : α) (n i : Nat) (hi : i ≤ n) :
    (makeGround size n).edges[2 * i]? = some (4 * i, 4 * i + 1) ∧
    (makeGround size n).edges[2 * i + 1]? = some (4 * i + 2, 4 * i + 3) ∧
    (makeGround size n).vertices[4 * i]? =
      some (vec3 (-size / 2) (-(1 / 100)) (-size / 2 + (i : α) * (size / n))) ∧
    (makeGround size n).vertices[4 * i + 1]? =
      some (vec3 (size / 2) (-(1 / 100)) (-size / 2 + (i : α) * (size / n))) ∧
    (makeGround size n).vertices[4 * i + 2]? =
      some (vec3 (-size / 2 + (i : α) * (size / n)) (-(1 / 100)) (-size / 2)) ∧
    (makeGround size n).vertices[4 * i + 3]? =
      some (vec3 (-size / 2 + (i : α) * (size / n)) (-(1 / 100)) (size / 2)) := by
  rw [makeGround_eq]
  have m0 : (4 * i) % 4 = 0 := by omega
  have m1 : (4 * i + 1) % 4 = 1 := by omega
  have m2 : (4 * i + 2) % 4 = 2 := by omega
  have m3 : (4 * i + 3) % 4 = 3 := by omega
  have d0 : (4 * i) / 4 = i := by omega
  have d1 : (4 * i + 1) / 4 = i := by omega
  have d2 : (4 * i + 2) / 4 = i := by omega
  have d3 : (4 * i + 3) / 4 = i := by omega
  have b0 : 4 * i < 4 * (n + 1) := by omega
  have b1 : 4 * i + 1 < 4 * (n + 1) := by omega
  have b2 : 4 * i + 2 < 4 * (n + 1) := by omega
  have b3 : 4 * i + 3 < 4 * (n + 1) := by omega
  have e0 : 2 * i < 2 * (n + 1) := by omega
  have e1 : 2 * i + 1 < 2 * (n + 1) := by omega
  refine ⟨?_, ?_, ?_, ?_, ?_, ?_⟩
  · simp [List.getElem?_map, List.getElem?_range e0]
    omega
  · simp [List.getElem?_map, List.getElem?_range e1]
    omega
  · simp [List.getElem?_map, List.getElem?_range b0, m0, d0]
  · simp [List.getElem?_map, List.getElem?_range b1, m1, d1]
  · simp [List.getElem?_map, List.getElem?_range b2, m2, d2]
  · simp [List.getElem?_map, List.getElem?_range b3, m3, d3]

/-- C23. The mesh builders return well-formed meshes of the documented size.
`makeBox` has 8 vertices and 12 edges; `makePyramid` has 5 vertices and 8
edges, and its last vertex, the apex `(0, height, 0)`, is the centroid of the
four base vertices raised by `height`; `makeGround size n` has `4(n+1)`
vertices and `2(n+1)` edges. In each mesh every edge names two valid vertex
indices. For `0 < n` and every `i ≤ n` the ground's edge `2i` joins
`(-size/2, -0.01, z)` to `(size/2, -0.01, z)` and its edge `2i+1` joins
`(x, -0.01, -size/2)` to `(x, -0.01, size/2)` with `x = z = -size/2 + i * (size/n)`:
the two segments are perpendicular, and consecutive lines of either set lie
`size/n` apart. -/
theorem mesh_builders_well_formed [LinearOrderedField α] (w h d baseSize height size : α)
    (n : Nat) :
    ((makeBox w h d).vertices.length = 8 ∧ (makeBox w h d).edges.length = 12 ∧
      (makeBox w h d).WellFormed) ∧
    ((makePyramid baseSize height).vertices.length = 5 ∧
      (makePyramid baseSize height).edges.length = 8 ∧
      (makePyramid baseSize height).WellFormed ∧
      (makePyramid baseSize height).vertices[4]? = some (vec3 0 height 0) ∧
      (centroid ((makePyramid baseSize height).vertices.take 4)).y = 0 ∧
      add3 (centroid ((makePyramid baseSize height).vertices.take 4)) (vec3 0 height 0) =
        vec3 0 height 0) ∧
    ((makeGround size n).vertices.length = 4 * (n + 1) ∧
      (makeGround size n).edges.length = 2 * (n + 1) ∧
      (makeGround size n).WellFormed) ∧
    (0 < n → ∀ i, i ≤ n →
      ∃ a b c e : Vec3 α,
        (makeGround size n).edges[2 * i]? = some (4 * i, 4 * i + 1) ∧
        (makeGround size n).edges[2 * i + 1]? = some (4 * i + 2, 4 * i + 3) ∧
        (makeGround size n).vertices[4 * i]? = some a ∧
        (makeGround size n).vertices[4 * i + 1]? = some b ∧
        (makeGround size n).vertices[4 * i + 2]? = some c ∧
        (makeGround size n).vertices[4 * i + 3]? = some e ∧
        a = vec3 (-size / 2) (-(1 / 100)) (-size / 2 + (i : α) * (size / n)) ∧
        b = vec3 (size / 2) (-(1 / 100)) (-size / 2 + (i : α) * (size / n)) ∧
        c = vec3 (-size / 2 + (i : α) * (size / n)) (-(1 / 100)) (-size / 2) ∧
        e = vec3 (-size / 2 + (i : α) * (size / n)) (-(1 / 100)) (size / 2) ∧
        dot3 (sub3 b a) (sub3 e c) = 0 ∧
        (i < n → ∀ a2 c2 : Vec3 α,
          (makeGround size n).vertices[4 * (i + 1)]? = some a2 →
          (makeGround size n).vertices[4 * (i + 1) + 2]? = some c2 →
          a2.z - a.z = size / n ∧ c2.x - c.x = size / n)) := by
  refine ⟨⟨rfl, rfl, ?_⟩, ⟨rfl, rfl, ?_, rfl, ?_, ?_⟩, ⟨?_, ?_, makeGround_wellFormed size n⟩, ?_⟩
  · intro e he
    simp only [makeBox, List.mem_cons, List.mem_singleton, List.not_mem_nil, or_false] at he
    simp only [makeBox, List.length_cons, List.length_nil]
    rcases he with h | h | h | h | h | h | h | h | h | h | h | h <;> subst h <;> constructor <;>
      decide
  · intro e he
    simp only [makePyramid, List.mem_cons, List.mem_singleton, List.not_mem_nil, or_false] at he
    simp only [makePyramid, List.length_cons, List.length_nil]
    rcases he with h | h | h | h | h | h | h | h <;> subst h <;> constructor <;> decide
  · simp [centroid, makePyramid, add3, mul3, vec3]
  · simp [centroid, makePyramid, add3, mul3, vec3]
  · rw [makeGround_eq]
    simp
  · rw [makeGround_eq]
    simp
  · intro hn i hi
    obtain ⟨h0, h1, h2, h3, h4, h5⟩ := makeGround_line size n i hi
    refine ⟨_, _, _, _, h0, h1, h2, h3, h4, h5, rfl, rfl, rfl, rfl, ?_, ?_⟩
    · simp [dot3, sub3, vec3]
    · intro hlt a2 c2 ha2 hc2
      obtain ⟨-, -, k2, -, k4, -⟩ := makeGround_line size n (i + 1) (by omega)
      rw [k2] at ha2
      rw [k4] at hc2
      cases ha2
      cases hc2
      simp only [vec3]
      push_cast
      constructor <;> ring

/-- C23 witness: the ground of the game, `makeGround(200, 20)`, at its line
`i = 3`. -/
theorem mesh_builders_well_formed_witness :
    (0 : Nat) < 20 ∧ (3 : Nat) ≤ 20 ∧
    ∃ a b c e : Vec3 ℚ,
      (makeGround (200 : ℚ) 20).edges[2 * 3]? = some (4 * 3, 4 * 3 + 1) ∧
      (makeGround (200 : ℚ) 20).edges[2 * 3 + 1]? = some (4 * 3 + 2, 4 * 3 + 3) ∧
      (makeGround (200 : ℚ) 20).vertices[4 * 3]? = some a ∧
      (makeGround (200 : ℚ) 20).vertices[4 * 3 + 1]? = some b ∧
      (makeGround (200 : ℚ) 20).vertices[4 * 3 + 2]? = some c ∧
      (makeGround (200 : ℚ) 20).vertices[4 * 3 + 3]? = some e ∧
      a = vec3 (-200 / 2) (-(1 / 100)) (-200 / 2 + ((3 : Nat) : ℚ) * (200 / (20 : Nat))) ∧
      b = vec3 (200 / 2) (-(1 / 100)) (-200 / 2 + ((3 : Nat) : ℚ) * (200 / (20 : Nat))) ∧
      c = vec3 (-200 / 2 + ((3 : Nat) : ℚ) * (200 / (20 : Nat))) (-(1 / 100)) (-200 / 2) ∧
      e = vec3 (-200 / 2 + ((3 : Nat) : ℚ) * (200 / (20 : Nat))) (-(1 / 100)) (200 / 2) ∧
      dot3 (sub3 b a) (sub3 e c) = 0 ∧
      (3 < 20 → ∀ a2 c2 : Vec3 ℚ,
        (makeGround (200 : ℚ) 20).vertices[4 * (3 + 1)]? = some a2 →
        (makeGround (200 : ℚ) 20).vertices[4 * (3 + 1) + 2]? = some c2 →
        a2.z - a.z = 200 / (20 : Nat) ∧ c2.x - c.x = 200 / (20 : Nat)) :=
  ⟨by decide, by decide,
    (mesh_builders_well_formed (1 : ℚ) 1 1 1 2 200 20).2.2.2 (by decide) 3 (by decide)⟩

end MeshTheorems

section CooldownTheorems

variable {α : Type}

theorem WeaponSystem.getCurrentWeapon_some (ws : WeaponSystem α) (w : Weapon α)
    (h : ws.getCurrentWeapon = some w) :
    0 ≤ ws.currentWeaponIndex ∧ ws.weapons[ws.currentWeaponIndex.toNat]? = some w := by
  unfold WeaponSystem.getCurrentWeapon jsIndex at h
  split at h
  · exact absurd h (by simp)
  · exact ⟨by omega, h⟩

theorem Weapon.update_currentCooldown (w : Weapon α) :
    w.update.currentCooldown = if w.currentCooldown > 0 then w.currentCooldown - 1
      else w.currentCooldown := by
  unfold Weapon.update
  split <;> rfl

/-- C24 fails as stated: `WeaponSystem.update` reaches only the current
weapon. `hotShotgunSystem` is the state after switching to the shotgun,
firing it and switching back to the rifle; its shotgun has cooldown 120, and
after `update` the shotgun's cooldown is still 120. -/
theorem weapon_system_update_skips_holstered :
    (((WeaponSystem.new : WeaponSystem ℚ).switchWeapon 1).2.fireCurrentWeapon sampleMath
        sampleRand 100 muzzle forwardZ).map (fun r => (r.2.switchWeapon 0).2)
      = some hotShotgunSystem ∧
    (hotShotgunSystem.weapons[1]?).map (fun w => w.currentCooldown) = some 120 ∧
    (hotShotgunSystem.update.bind fun ws => (ws.weapons[1]?).map fun w => w.currentCooldown)
      = some 120 :=
  ⟨rfl, by decide!, by decide!⟩

/-- C24 (amended): one call of `WeaponSystem.update` on a system with a
current weapon replaces the current weapon by its `Weapon.update`, whose
cooldown is one less when it was positive and unchanged otherwise; every
other held weapon is left as it was; and if no held weapon had a negative
cooldown before, none has one after. -/
theorem weapon_system_update_current_only (ws : WeaponSystem α) (w : Weapon α)
    (h : ws.getCurrentWeapon = some w) :
    ∃ ws2, ws.update = some ws2 ∧
      ws2.currentWeaponIndex = ws.currentWeaponIndex ∧
      ws2.weapons.length = ws.weapons.length ∧
      ws2.getCurrentWeapon = some w.update ∧
      w.update.currentCooldown =
        (if w.currentCooldown > 0 then w.currentCooldown - 1 else w.currentCooldown) ∧
      (∀ j : Nat, j ≠ ws.currentWeaponIndex.toNat → ws2.weapons[j]? = ws.weapons[j]?) ∧
      ((∀ v ∈ ws.weapons, 0 ≤ v.currentCooldown) → ∀ v ∈ ws2.weapons, 0 ≤ v.currentCooldown) := by
  obtain ⟨h0, hget⟩ := WeaponSystem.getCurrentWeapon_some ws w h
  have hlt : ws.currentWeaponIndex.toNat < ws.weapons.length := by
    by_contra hge
    rw [List.getElem?_eq_none (by omega)] at hget
    exact absurd hget (by simp)
  refine ⟨ws.setCurrentWeapon w.update, ?_, rfl, ?_, ?_, Weapon.update_currentCooldown w, ?_, ?_⟩
  · unfold WeaponSystem.update
    rw [h]
  · simp [WeaponSystem.setCurrentWeapon]
  · unfold WeaponSystem.getCurrentWeapon jsIndex WeaponSystem.setCurrentWeapon
    rw [if_neg (by simpa using h0)]
    simp [List.getElem?_set, hlt]
  · intro j hj
    simp only [WeaponSystem.setCurrentWeapon]
    rw [List.getElem?_set_ne (Ne.symm hj)]
  · intro hall v hv
    simp only [WeaponSystem.setCurrentWeapon] at hv
    rcases List.mem_or_eq_of_mem_set hv with hv | rfl
    · exact hall v hv
    · have hw : 0 ≤ w.currentCooldown := hall w (List.getElem?_mem hget)
      rw [Weapon.update_currentCooldown]
      split <;> omega

/-- C24 (amended) witness: the system with the holstered hot shotgun. -/
theorem weapon_system_update_current_only_witness :
    hotShotgunSystem.getCurrentWeapon = some Rifle ∧
    ∃ ws2, hotShotgunSystem.update = some ws2 ∧
      ws2.currentWeaponIndex = hotShotgunSystem.currentWeaponIndex ∧
      ws2.weapons.length = hotShotgunSystem.weapons.length ∧
      ws2.getCurrentWeapon = some (Rifle : Weapon ℚ).update ∧
      (Rifle : Weapon ℚ).update.currentCooldown =
        (if (Rifle : Weapon ℚ).currentCooldown > 0 then (Rifle : Weapon ℚ).currentCooldown - 1
          else (Rifle : Weapon ℚ).currentCooldown) ∧
      (∀ j : Nat, j ≠ hotShotgunSystem.currentWeaponIndex.toNat →
        ws2.weapons[j]? = hotShotgunSystem.weapons[j]?) ∧
      ((∀ v ∈ hotShotgunSystem.weapons, 0 ≤ v.currentCooldown) →
        ∀ v ∈ ws2.weapons, 0 ≤ v.currentCooldown) :=
  ⟨rfl, weapon_system_update_current_only hotShotgunSystem Rifle rfl⟩

end CooldownTheorems

section FragmentTheorems

variable {α : Type}

/-- C26 fails in the code: `createFragments(position, num)` never reads
`num`, so the explosion of the player (`num = 80`) and the explosion of an
enemy (`num = 50`) each create exactly 65 fragments (20 core polygons, 15
pieces of shrapnel, 30 fire particles), in any state and for any enemy: the
player's explosion does not create more. -/
theorem explosions_spawn_equal_counts [LinearOrderedField α] (m : JSMath α) (w : World α)
    (enemy : Nat) :
    (w.explodePlayer m).fragments.length = w.fragments.length + 65 ∧
    (w.explodeEnemy m enemy).fragments.length = w.fragments.length + 65 ∧
    ¬ ((w.explodePlayer m).fragments.length - w.fragments.length >
        (w.explodeEnemy m enemy).fragments.length - w.fragments.length) := by
  have h1 : (w.explodePlayer m).fragments.length = w.fragments.length + 65 := by
    have h := (World.createFragments_spawned m w w.player.position 80).fragments
    simp only [World.explodePlayer]
    rw [h]
    simp
  have h2 : (w.explodeEnemy m enemy).fragments.length = w.fragments.length + 65 := by
    simp only [World.explodeEnemy]
    rw [(World.createFragments_spawned m _ _ 50).fragments]
    simp
  refine ⟨h1, h2, ?_⟩
  rw [h1, h2]
  omega

theorem toDigits_16_length_three (n : Nat) (h1 : 256 ≤ n) (h2 : n < 4096) :
    (Nat.toDigits 16 n).length = 3 := by
  obtain ⟨k, rfl⟩ : ∃ k, n = k + 3 := ⟨n - 3, by omega⟩
  have a1 : (k + 3) / 16 ≠ 0 := by omega
  have a2 : (k + 3) / 16 / 16 ≠ 0 := by omega
  have a3 : (k + 3) / 16 / 16 / 16 = 0 := by omega
  simp [Nat.toDigits, Nat.toDigitsCore, a1, a2, a3]

theorem greyChannel_low [LinearOrderedField α] (m : JSMath α) (l : α) (h : l ≤ 30) :
    greyChannel m (some l) = some (m.floor (17 * l)) := by
  simp only [greyChannel, Option.map_some']
  rw [if_neg (not_lt.mpr h)]
  congr 2
  ring

/-- C27 fails in the code: for a fragment that is not a fire particle and
whose life after the decrement lies in `[256/17, 30]` (the whole numbers 16
to 30 among them), the divisor is 15, `fade` exceeds 1 and
`Math.floor(255 * fade)` lies in `256..510`; its base-16 string has three
digits, `padStart(2, '0')` adds nothing, and the colour assigned has ten
characters (`#` and nine digits) instead of seven. `Math.floor` is assumed
to be a floor: `floor x ≤ x < floor x + 1`. -/
theorem fragment_grey_exceeds_255 [LinearOrderedField α] (m : JSMath α)
    (hfloor : ∀ x : α, ((m.floor x : Int) : α) ≤ x ∧ x < ((m.floor x : Int) : α) + 1)
    (f : SceneObject α) (l : α) (hfire : f.isFireParticle = false) (hlife : f.life = some l)
    (h1 : 256 / 17 ≤ l) (h2 : l ≤ 30) :
    ∃ c : Int, greyChannel m f.life = some c ∧ 256 ≤ c ∧ c ≤ 510 ∧
      fragmentColor m f = "#" ++ hexDigits c.toNat ++ hexDigits c.toNat ++ hexDigits c.toNat ∧
      (fragmentColor m f).length = 10 := by
  obtain ⟨hle, hlt⟩ := hfloor (17 * l)
  have hlo : (256 : α) ≤ 17 * l := by
    have := mul_le_mul_of_nonneg_left h1 (by norm_num : (0 : α) ≤ 17)
    have e : (17 : α) * (256 / 17) = 256 := by norm_num
    rw [e] at this
    exact this
  have hhi : 17 * l ≤ (510 : α) := by
    have := mul_le_mul_of_nonneg_left h2 (by norm_num : (0 : α) ≤ 17)
    have e : (17 : α) * 30 = 510 := by norm_num
    rw [e] at this
    exact this
  have c1 : 256 ≤ m.floor (17 * l) := by
    have : ((256 : Int) : α) < ((m.floor (17 * l) + 1 : Int) : α) := by
      push_cast
      exact lt_of_le_of_lt hlo hlt
    have := Int.cast_lt.mp this
    omega
  have c2 : m.floor (17 * l) ≤ 510 := by
    have : ((m.floor (17 * l) : Int) : α) ≤ ((510 : Int) : α) := by
      push_cast
      exact le_trans hle hhi
    exact Int.cast_le.mp this
  have hlen : (hexDigits (m.floor (17 * l)).toNat).length = 3 := by
    simp only [hexDigits, String.length_mk]
    exact toDigits_16_length_three _ (by omega) (by omega)
  have hpad : padStart (hexDigits (m.floor (17 * l)).toNat) 2 '0' =
      hexDigits (m.floor (17 * l)).toNat := by
    simp only [padStart, hlen]
    rfl
  have hcol : fragmentColor m f = "#" ++ hexDigits (m.floor (17 * l)).toNat ++
      hexDigits (m.floor (17 * l)).toNat ++ hexDigits (m.floor (17 * l)).toNat := by
    have hn : ¬ m.floor (17 * l) < 0 := by omega
    simp only [fragmentColor, hfire, hlife, greyChannel_low m l h2, toString16, if_neg hn, hpad]
    rfl
  refine ⟨m.floor (17 * l), ?_, c1, c2, hcol, ?_⟩
  · rw [hlife, greyChannel_low m l h2]
  · rw [hcol]
    simp only [String.length_append, hlen]
    rfl

/-- C27 witness: a wall-hit fragment is created with `life: 30`; at its first
`updateFragments()` its life is 29, the grey value is `493 = 0x1ed`, and the
colour stored is `#1ed1ed1ed`. -/
theorem fragment_grey_exceeds_255_witness :
    ((sampleWorld.createWallHitEffect sampleMath muzzle).fragments = [10, 11, 12] ∧
      ((sampleWorld.createWallHitEffect sampleMath muzzle).store 10).life = some 30 ∧
      (((sampleWorld.createWallHitEffect sampleMath muzzle).updateFragments sampleMath).store
        10).life = some 29 ∧
      (((sampleWorld.createWallHitEffect sampleMath muzzle).updateFragments sampleMath).store
        10).color = "#1ed1ed1ed") ∧
    ∃ c : Int,
      greyChannel sampleMath
        (((sampleWorld.createWallHitEffect sampleMath muzzle).tickLife 10).store 10).life
          = some c ∧
      256 ≤ c ∧ c ≤ 510 ∧
      fragmentColor sampleMath (((sampleWorld.createWallHitEffect sampleMath muzzle).tickLife
          10).store 10) =
        "#" ++ hexDigits c.toNat ++ hexDigits c.toNat ++ hexDigits c.toNat ∧
      (fragmentColor sampleMath (((sampleWorld.createWallHitEffect sampleMath muzzle).tickLife
          10).store 10)).length = 10 :=
  ⟨by decide!,
    fragment_grey_exceeds_255 sampleMath (fun x => ⟨Int.floor_le x, Int.lt_floor_add_one x⟩)
      (((sampleWorld.createWallHitEffect sampleMath muzzle).tickLife 10).store 10) 29
      (by decide!) (by decide!) (by norm_num) (by norm_num)⟩

end FragmentTheorems

section EnemyTheorems

variable {α : Type}

theorem World.canSeePlayer_far [LinearOrderedField α] (m : JSMath α) (w : World α)
    (enemyPos : Vec3 α)
    (h : length3 m (sub3 w.player.position enemyPos) > ENEMY_FIRING_RANGE) :
    w.canSeePlayer m enemyPos = false := by
  unfold World.canSeePlayer
  split
  · rfl
  · simp only [h, if_true]

theorem World.patrolEnemy_globals [LinearOrderedField α] (w : World α) (e : Nat) :
    (w.patrolEnemy e).projectiles = w.projectiles ∧
    (w.patrolEnemy e).sceneObjects = w.sceneObjects ∧
    (w.patrolEnemy e).nextId = w.nextId ∧
    (w.patrolEnemy e).player = w.player ∧
    (w.patrolEnemy e).enemies = w.enemies ∧
    (w.patrolEnemy e).fragments = w.fragments := by
  unfold World.patrolEnemy
  dsimp only
  split <;> exact ⟨rfl, rfl, rfl, rfl, rfl, rfl⟩

theorem World.tickEnemyFlash_globals [LinearOrderedField α] (w : World α) (e : Nat) :
    (w.tickEnemyFlash e).projectiles = w.projectiles ∧
    (w.tickEnemyFlash e).sceneObjects = w.sceneObjects ∧
    (w.tickEnemyFlash e).nextId = w.nextId ∧
    (w.tickEnemyFlash e).player = w.player ∧
    (w.tickEnemyFlash e).enemies = w.enemies ∧
    (w.tickEnemyFlash e).fragments = w.fragments ∧
    (w.tickEnemyFlash e).crashed = w.crashed ∧
    ((w.tickEnemyFlash e).store e).position = (w.store e).position ∧
    ((w.tickEnemyFlash e).store e).fireCooldown = (w.store e).fireCooldown := by
  unfold World.tickEnemyFlash
  dsimp only
  split
  · split
    · simp [World.setObj]
    · simp
  · simp

theorem World.tickEnemyCooldown_globals [LinearOrderedField α] (w : World α) (e : Nat) :
    (w.tickEnemyCooldown e).projectiles = w.projectiles ∧
    (w.tickEnemyCooldown e).sceneObjects = w.sceneObjects ∧
    (w.tickEnemyCooldown e).nextId = w.nextId ∧
    (w.tickEnemyCooldown e).player = w.player ∧
    (w.tickEnemyCooldown e).enemies = w.enemies ∧
    (w.tickEnemyCooldown e).fragments = w.fragments ∧
    (w.tickEnemyCooldown e).crashed = w.crashed := by
  unfold World.tickEnemyCooldown
  dsimp only
  split
  · split
    · simp [World.setObj]
    · simp
  · simp

theorem World.enemyShoot_far [LinearOrderedField α] (m : JSMath α) (w : World α) (e : Nat)
    (h : length3 m (sub3 w.player.position (w.store e).position) > ENEMY_FIRING_RANGE) :
    w.enemyShoot m e = w := by
  unfold World.enemyShoot
  dsimp only
  rw [World.canSeePlayer_far m w _ h]
  simp

theorem World.enemyStep_far [LinearOrderedField α] (m : JSMath α) (w : World α) (e : Nat)
    (h : length3 m (sub3 w.player.position ((w.patrolEnemy e).store e).position) >
      ENEMY_FIRING_RANGE) :
    (w.enemyStep m e).projectiles = w.projectiles ∧
    (w.enemyStep m e).sceneObjects = w.sceneObjects ∧
    (w.enemyStep m e).nextId = w.nextId := by
  unfold World.enemyStep
  by_cases hc : w.crashed
  · simp [hc]
  · rw [if_neg hc]
    by_cases hs : (!w.sceneObjects.contains e) = true
    · rw [if_pos hs]
      exact ⟨rfl, rfl, rfl⟩
    · rw [if_neg hs]
      dsimp only
      obtain ⟨p1, p2, p3, p4, -, -⟩ := World.patrolEnemy_globals w e
      by_cases hc2 : (w.patrolEnemy e).crashed
      · rw [if_pos hc2]
        exact ⟨p1, p2, p3⟩
      · rw [if_neg hc2]
        obtain ⟨f1, f2, f3, f4, -, -, -, f8, -⟩ := World.tickEnemyFlash_globals (w.patrolEnemy e) e
        have hfar : length3 m (sub3 ((w.patrolEnemy e).tickEnemyFlash e).player.position
            (((w.patrolEnemy e).tickEnemyFlash e).store e).position) > ENEMY_FIRING_RANGE := by
          rw [f4, f8, p4]
          exact h
        rw [World.enemyShoot_far m _ e hfar]
        obtain ⟨c1, c2, c3, -⟩ := World.tickEnemyCooldown_globals ((w.patrolEnemy e).tickEnemyFlash e) e
        exact ⟨by rw [c1, f1, p1], by rw [c2, f2, p2], by rw [c3, f3, p3]⟩

theorem World.updateEnemiesUpTo_succ [LinearOrderedField α] (m : JSMath α) (w : World α)
    (k e : Nat) (hk : w.enemies[k]? = some e) :
    w.updateEnemiesUpTo m (k + 1) = (w.updateEnemiesUpTo m k).enemyStep m e := by
  unfold World.updateEnemiesUpTo
  have hlt : k < w.enemies.length := by
    by_contra hge
    rw [List.getElem?_eq_none (by omega)] at hk
    exact absurd hk (by simp)
  rw [List.take_succ, hk, List.foldl_append]
  rfl

theorem World.updateEnemiesUpTo_length [LinearOrderedField α] (m : JSMath α) (w : World α) :
    w.updateEnemiesUpTo m w.enemies.length = w.updateEnemies m := by
  unfold World.updateEnemiesUpTo World.updateEnemies
  rw [List.take_length]

/-- C21. Whatever the scene holds, `canSeePlayer(enemyPos)` returns `false`
when the distance from `enemyPos` to the player exceeds `ENEMY_FIRING_RANGE`
(50). Hence the loop body of `updateEnemies()` for an enemy `e` whose
position at the sight test (its position after this tick's patrol move) is
that far from the player leaves `projectiles`, `sceneObjects` and the
allocation counter as they were: it creates no projectile. The same holds at
every index of the loop of `updateEnemies()`, which runs that body for each
element of `enemies` in turn. -/
theorem enemy_out_of_range_holds_fire [LinearOrderedField α] (m : JSMath α) (w : World α) :
    (∀ enemyPos, length3 m (sub3 w.player.position enemyPos) > ENEMY_FIRING_RANGE →
      w.canSeePlayer m enemyPos = false) ∧
    (∀ e, length3 m (sub3 w.player.position ((w.patrolEnemy e).store e).position) >
        ENEMY_FIRING_RANGE →
      (w.enemyStep m e).projectiles = w.projectiles ∧
      (w.enemyStep m e).sceneObjects = w.sceneObjects ∧
      (w.enemyStep m e).nextId = w.nextId) ∧
    (∀ k e, w.enemies[k]? = some e →
      length3 m (sub3 (w.updateEnemiesUpTo m k).player.position
        (((w.updateEnemiesUpTo m k).patrolEnemy e).store e).position) > ENEMY_FIRING_RANGE →
      (w.updateEnemiesUpTo m (k + 1)).projectiles = (w.updateEnemiesUpTo m k).projectiles ∧
      (w.updateEnemiesUpTo m (k + 1)).sceneObjects = (w.updateEnemiesUpTo m k).sceneObjects) ∧
    w.updateEnemiesUpTo m 0 = w ∧
    w.updateEnemiesUpTo m w.enemies.length = w.updateEnemies m := by
  refine ⟨World.canSeePlayer_far m w, World.enemyStep_far m w, ?_, rfl,
    World.updateEnemiesUpTo_length m w⟩
  intro k e hk hfar
  rw [World.updateEnemiesUpTo_succ m w k e hk]
  obtain ⟨h1, h2, -⟩ := World.enemyStep_far m _ e hfar
  exact ⟨h1, h2⟩

/-- C21 witness: the far enemy, 60 units from the player with nothing in
between and its cooldown at 0, does not fire; moved to 5 units from the
player, the same enemy fires. -/
theorem enemy_out_of_range_holds_fire_witness :
    (length3 sampleMath (sub3 farEnemyWorld.player.position
        ((farEnemyWorld.patrolEnemy 5).store 5).position) > ENEMY_FIRING_RANGE ∧
      ((farEnemyWorld.enemyStep sampleMath 5).projectiles = farEnemyWorld.projectiles ∧
        (farEnemyWorld.enemyStep sampleMath 5).sceneObjects = farEnemyWorld.sceneObjects ∧
        (farEnemyWorld.enemyStep sampleMath 5).nextId = farEnemyWorld.nextId)) ∧
    (farEnemyWorld.updateEnemies sampleMath).projectiles = [8] ∧
    (nearEnemyWorld.updateEnemies sampleMath).projectiles = [8, 10] :=
  ⟨⟨by decide!, (enemy_out_of_range_holds_fire sampleMath farEnemyWorld).2.1 5 (by decide!)⟩,
    by decide!, by decide!⟩

end EnemyTheorems

section LockstepTheorems

variable {α : Type}

theorem count_range'_one (s n id : Nat) :
    (List.range' s n).count id = if s ≤ id ∧ id < s + n then 1 else 0 := by
  rw [List.count_eq_of_nodup (List.nodup_range' s n)]
  simp only [List.mem_range'_1]

theorem Lockstep.of_same_lists [LinearOrderedField α] {w w' : World α} (h : Lockstep w)
    (hs : w'.sceneObjects = w.sceneObjects) (he : w'.enemies = w.enemies)
    (hp : w'.projectiles = w.projectiles) (hf : w'.fragments = w.fragments)
    (hn : w.nextId ≤ w'.nextId) (hid : w'.player.id = w.player.id) : Lockstep w' := by
  refine ⟨?_, ?_, ?_, ?_⟩
  · intro id
    rw [hs, he, hp, hf, hid]
    exact h.counts id
  · rw [hs]
    exact h.nodup
  · intro id hmem
    rw [hs] at hmem
    exact lt_of_lt_of_le (h.bounded id hmem) hn
  · rw [hid]
    exact lt_of_lt_of_le h.playerFresh hn

theorem Lockstep.mem_scene [LinearOrderedField α] {w : World α} (h : Lockstep w) (id : Nat)
    (hmem : id ∈ w.enemies ∨ id ∈ w.projectiles ∨ id ∈ w.fragments) :
    w.player.id < id ∧ id ∈ w.sceneObjects := by
  have hc := h.counts id
  have hpos : 0 < w.enemies.count id + w.projectiles.count id + w.fragments.count id := by
    rcases hmem with h1 | h1 | h1
    · have := List.count_pos_iff.2 h1
      omega
    · have := List.count_pos_iff.2 h1
      omega
    · have := List.count_pos_iff.2 h1
      omega
  by_cases hlt : w.player.id < id
  · rw [if_pos hlt] at hc
    exact ⟨hlt, List.count_pos_iff.1 (by omega)⟩
  · rw [if_neg hlt] at hc
    omega

theorem Lockstep.count_le_one [LinearOrderedField α] {w : World α} (h : Lockstep w) (id : Nat) :
    w.enemies.count id + w.projectiles.count id + w.fragments.count id ≤ 1 := by
  have hc := h.counts id
  have h1 := List.nodup_iff_count_le_one.1 h.nodup id
  split_ifs at hc <;> omega

theorem Lockstep.enemies_nodup [LinearOrderedField α] {w : World α} (h : Lockstep w) :
    w.enemies.Nodup :=
  List.nodup_iff_count_le_one.2 fun id => by
    have := h.count_le_one id
    omega

theorem Lockstep.projectiles_nodup [LinearOrderedField α] {w : World α} (h : Lockstep w) :
    w.projectiles.Nodup :=
  List.nodup_iff_count_le_one.2 fun id => by
    have := h.count_le_one id
    omega

theorem Lockstep.fragments_nodup [LinearOrderedField α] {w : World α} (h : Lockstep w) :
    w.fragments.Nodup :=
  List.nodup_iff_count_le_one.2 fun id => by
    have := h.count_le_one id
    omega

theorem Lockstep.push [LinearOrderedField α] {w w' : World α} (h : Lockstep w) (k : Nat)
    (hs : w'.sceneObjects = w.sceneObjects ++ List.range' w.nextId k)
    (hn : w'.nextId = w.nextId + k) (hid : w'.player.id = w.player.id)
    (he : w'.enemies = w.enemies)
    (hpf : (w'.projectiles = w.projectiles ++ List.range' w.nextId k ∧
        w'.fragments = w.fragments) ∨
      (w'.projectiles = w.projectiles ∧
        w'.fragments = w.fragments ++ List.range' w.nextId k)) : Lockstep w' := by
  have hfresh := h.playerFresh
  refine ⟨?_, ?_, ?_, ?_⟩
  · intro id
    have hc := h.counts id
    rw [hs, he, hid, List.count_append, count_range'_one]
    rcases hpf with ⟨hp, hf⟩ | ⟨hp, hf⟩
    · rw [hp, hf, List.count_append, count_range'_one]
      split_ifs at hc ⊢ <;> omega
    · rw [hp, hf, List.count_append, count_range'_one]
      split_ifs at hc ⊢ <;> omega
  · rw [hs]
    refine List.Nodup.append h.nodup (List.nodup_range' _ _) ?_
    intro id h1 h2
    have := h.bounded id h1
    rw [List.mem_range'_1] at h2
    omega
  · intro id hmem
    rw [hs, List.mem_append, List.mem_range'_1] at hmem
    rw [hn]
    rcases hmem with h1 | h1
    · have := h.bounded id h1
      omega
    · omega
  · rw [hid, hn]
    omega

theorem Lockstep.remove [LinearOrderedField α] {w w' : World α} (h : Lockstep w) (x : Nat)
    (hs : w'.sceneObjects = w.sceneObjects.erase x) (hn : w.nextId ≤ w'.nextId)
    (hid : w'.player.id = w.player.id)
    (haux : (x ∈ w.enemies ∧ w'.enemies = w.enemies.erase x ∧
        w'.projectiles = w.projectiles ∧ w'.fragments = w.fragments) ∨
      (x ∈ w.projectiles ∧ w'.enemies = w.enemies ∧
        w'.projectiles = w.projectiles.erase x ∧ w'.fragments = w.fragments) ∨
      (x ∈ w.fragments ∧ w'.enemies = w.enemies ∧
        w'.projectiles = w.projectiles ∧ w'.fragments = w.fragments.erase x)) :
    Lockstep w' := by
  refine ⟨?_, ?_, ?_, ?_⟩
  · intro id
    have hc := h.counts id
    rw [hs, hid]
    by_cases hx : id = x
    · subst hx
      rw [List.count_erase_self]
      rcases haux with ⟨hm, he, hp, hf⟩ | ⟨hm, he, hp, hf⟩ | ⟨hm, he, hp, hf⟩
      · have := List.count_pos_iff.2 hm
        rw [he, hp, hf, List.count_erase_self]
        split_ifs at hc ⊢ <;> omega
      · have := List.count_pos_iff.2 hm
        rw [he, hp, hf, List.count_erase_self]
        split_ifs at hc ⊢ <;> omega
      · have := List.count_pos_iff.2 hm
        rw [he, hp, hf, List.count_erase_self]
        split_ifs at hc ⊢ <;> omega
    · rw [List.count_erase_of_ne hx]
      rcases haux with ⟨-, he, hp, hf⟩ | ⟨-, he, hp, hf⟩ | ⟨-, he, hp, hf⟩
      · rw [he, hp, hf, List.count_erase_of_ne hx]
        exact hc
      · rw [he, hp, hf, List.count_erase_of_ne hx]
        exact hc
      · rw [he, hp, hf, List.count_erase_of_ne hx]
        exact hc
  · rw [hs]
    exact h.nodup.erase x
  · intro id hmem
    rw [hs] at hmem
    exact lt_of_lt_of_le (h.bounded id (List.mem_of_mem_erase hmem)) hn
  · rw [hid]
    exact lt_of_lt_of_le h.playerFresh hn

theorem Lockstep.removePlayer [LinearOrderedField α] {w w' : World α} (h : Lockstep w)
    (hs : w'.sceneObjects = w.sceneObjects.erase w.player.id) (he : w'.enemies = w.enemies)
    (hp : w'.projectiles = w.projectiles) (hf : w'.fragments = w.fragments)
    (hn : w.nextId ≤ w'.nextId) (hid : w'.player.id = w.player.id) : Lockstep w' := by
  refine ⟨?_, ?_, ?_, ?_⟩
  · intro id
    have hc := h.counts id
    rw [hs, he, hp, hf, hid]
    by_cases hlt : w.player.id < id
    · rw [if_pos hlt, List.count_erase_of_ne (by omega)]
      rw [if_pos hlt] at hc
      exact hc
    · rw [if_neg hlt]
      rw [if_neg hlt] at hc
      exact hc
  · rw [hs]
    exact h.nodup.erase _
  · intro id hmem
    rw [hs] at hmem
    exact lt_of_lt_of_le (h.bounded id (List.mem_of_mem_erase hmem)) hn
  · rw [hid]
    exact lt_of_lt_of_le h.playerFresh hn

theorem eraseIdx_eq_erase_of_nodup (l : List Nat) (i x : Nat) (hl : l.Nodup)
    (hi : l[i]? = some x) : l.eraseIdx i = l.erase x := by
  obtain ⟨hlt, hget⟩ := List.getElem?_eq_some.1 hi
  rw [← hget]
  exact (List.Nodup.erase_getElem hl i hlt).symm

theorem World.spawnMany_fresh [LinearOrderedField α]
    (build : (Nat → α) → SceneObject α × Nat)
    (hb : ∀ r, (build r).1.velocity ≠ none ∧ (build r).1.gravity ≠ none)
    (n : Nat) (w : World α) :
    ∀ f, w.nextId ≤ f → f < w.nextId + n →
      ((World.spawnMany build n w).store f).velocity ≠ none ∧
      ((World.spawnMany build n w).store f).gravity ≠ none := by
  induction n generalizing w with
  | zero =>
    intro f h1 h2
    omega
  | succ k ih =>
    intro f h1 h2
    have hsp := World.spawnMany_spawned build (fun r => (hb r).1) k
      (w.pushFragment (build (fun j => w.rand (w.randPos + j))).1
        (build (fun j => w.rand (w.randPos + j))).2)
    have hrest := ih (w.pushFragment (build (fun j => w.rand (w.randPos + j))).1
        (build (fun j => w.rand (w.randPos + j))).2)
    show ((World.spawnMany build k (w.pushFragment (build (fun j => w.rand (w.randPos + j))).1
        (build (fun j => w.rand (w.randPos + j))).2)).store f).velocity ≠ none ∧
      ((World.spawnMany build k (w.pushFragment (build (fun j => w.rand (w.randPos + j))).1
        (build (fun j => w.rand (w.randPos + j))).2)).store f).gravity ≠ none
    by_cases hf : f = w.nextId
    · subst hf
      rw [hsp.store w.nextId (by simp [World.pushFragment])]
      simpa [World.pushFragment, Function.update] using hb (fun j => w.rand (w.randPos + j))
    · exact hrest f (by simp only [World.pushFragment]; omega)
        (by simp only [World.pushFragment]; omega)

theorem fresh_append [LinearOrderedField α] {a b : Nat} {w1 w2 w3 : World α}
    (s1 : Spawned a w1 w2) (s2 : Spawned b w2 w3)
    (f1 : ∀ f, w1.nextId ≤ f → f < w1.nextId + a →
      (w2.store f).velocity ≠ none ∧ (w2.store f).gravity ≠ none)
    (f2 : ∀ f, w2.nextId ≤ f → f < w2.nextId + b →
      (w3.store f).velocity ≠ none ∧ (w3.store f).gravity ≠ none) :
    ∀ f, w1.nextId ≤ f → f < w1.nextId + (a + b) →
      (w3.store f).velocity ≠ none ∧ (w3.store f).gravity ≠ none := by
  intro f h1 h2
  by_cases hf : f < w2.nextId
  · rw [s2.store f hf]
    exact f1 f h1 (by rw [s1.nextId] at hf; exact hf)
  · exact f2 f (by omega) (by rw [s1.nextId]; omega)

theorem World.createFragments_fresh [LinearOrderedField α] (m : JSMath α) (w : World α)
    (position : Vec3 α) (num : Nat) :
    ∀ f, w.nextId ≤ f → f < w.nextId + 65 →
      ((w.createFragments m position num).store f).velocity ≠ none ∧
      ((w.createFragments m position num).store f).gravity ≠ none := by
  have s1 := World.spawnMany_spawned (explosionCoreFragment m position)
    (fun r => by simp [explosionCoreFragment]) 20 w
  have s2 := World.spawnMany_spawned (shrapnelFragment m position)
    (fun r => by simp [shrapnelFragment]) 15 (World.spawnMany (explosionCoreFragment m position) 20 w)
  have s3 := World.spawnMany_spawned (fireParticleFragment m position)
    (fun r => by simp [fireParticleFragment]) 30
    (World.spawnMany (shrapnelFragment m position) 15
      (World.spawnMany (explosionCoreFragment m position) 20 w))
  have f1 := World.spawnMany_fresh (explosionCoreFragment m position)
    (fun r => by simp [explosionCoreFragment]) 20 w
  have f2 := World.spawnMany_fresh (shrapnelFragment m position)
    (fun r => by simp [shrapnelFragment]) 15 (World.spawnMany (explosionCoreFragment m position) 20 w)
  have f3 := World.spawnMany_fresh (fireParticleFragment m position)
    (fun r => by simp [fireParticleFragment]) 30
    (World.spawnMany (shrapnelFragment m position) 15
      (World.spawnMany (explosionCoreFragment m position) 20 w))
  have key := fresh_append (Spawned.append s1 s2) s3 (fresh_append s1 s2 f1 f2) f3
  have hcf : w.createFragments m position num =
      World.spawnMany (fireParticleFragment m position) 30
        (World.spawnMany (shrapnelFragment m position) 15
          (World.spawnMany (explosionCoreFragment m position) 20 w)) := rfl
  rw [hcf]
  intro f h1 h2
  exact key f h1 h2

theorem World.createWallHitEffect_fresh [LinearOrderedField α] (m : JSMath α) (w : World α)
    (position : Vec3 α) :
    ∀ f, w.nextId ≤ f → f < w.nextId + 3 →
      ((w.createWallHitEffect m position).store f).velocity ≠ none ∧
      ((w.createWallHitEffect m position).store f).gravity ≠ none :=
  World.spawnMany_fresh (wallHitFragment m position) (fun r => by simp [wallHitFragment]) 3 w

theorem keepsFields_refl [LinearOrderedField α] (o : SceneObject α) : KeepsFields o o :=
  ⟨fun h => h, fun h => h, fun h => h, fun h => h, fun h => h, fun h => h⟩

theorem typed_of_store [LinearOrderedField α] {w w' : World α} (hl : Lockstep w)
    (ht : Typed w) (hen : ∀ x, x ∈ w'.enemies → x ∈ w.enemies)
    (hfr : ∀ f, f ∈ w'.fragments → f ∈ w.fragments ∨
      ((w'.store f).velocity ≠ none ∧ (w'.store f).gravity ≠ none))
    (hst : ∀ id, id < w.nextId → KeepsFields (w.store id) (w'.store id)) : Typed w' := by
  constructor
  · intro f hf
    rcases hfr f hf with h | h
    · have hlt := hl.bounded f (hl.mem_scene f (Or.inr (Or.inr h))).2
      have hk := hst f hlt
      exact ⟨hk.velocity (ht.fragments f h).1, hk.gravity (ht.fragments f h).2⟩
    · exact h
  · intro x hx
    have hx0 := hen x hx
    have hlt := hl.bounded x (hl.mem_scene x (Or.inl hx0)).2
    have hk := hst x hlt
    obtain ⟨h1, h2, h3, h4⟩ := ht.enemies x hx0
    exact ⟨hk.patrolStart h1, hk.patrolEnd h2, hk.patrolTimer h3, hk.patrolDir h4⟩

theorem tame_refl [LinearOrderedField α] (e : Nat) (w : World α) : Tame e w w :=
  ⟨le_refl _, fun _ => rfl, fun _ h => h, fun h => h, fun h => h, fun _ h => h⟩

theorem tame_comp [LinearOrderedField α] {e : Nat} {w1 w2 w3 : World α} (h1 : Tame e w1 w2)
    (h2 : Tame e w2 w3) : Tame e w1 w3 :=
  ⟨le_trans h1.nextId h2.nextId,
    fun he => by rw [h2.cooldown (lt_of_lt_of_le he h1.nextId), h1.cooldown he],
    fun x hx => h1.enemies x (h2.enemies x hx),
    fun hc => h2.crashed (h1.crashed hc),
    fun hl => h2.lockstep (h1.lockstep hl),
    fun hl ht => h2.typed (h1.lockstep hl) (h1.typed hl ht)⟩

theorem tame_of_lists [LinearOrderedField α] (e : Nat) {w w' : World α}
    (hs : w'.sceneObjects = w.sceneObjects) (he : w'.enemies = w.enemies)
    (hp : w'.projectiles = w.projectiles) (hf : w'.fragments = w.fragments)
    (hn : w.nextId ≤ w'.nextId) (hid : w'.player.id = w.player.id)
    (hc : e < w.nextId → (w'.store e).fireCooldown = (w.store e).fireCooldown)
    (hcr : w.crashed = true → w'.crashed = true)
    (hk : ∀ id, id < w.nextId → KeepsFields (w.store id) (w'.store id)) : Tame e w w' :=
  ⟨hn, hc, fun x hx => by rw [he] at hx; exact hx, hcr,
    fun hl => Lockstep.of_same_lists hl hs he hp hf hn hid,
    fun hl ht => typed_of_store hl ht (fun x hx => by rw [he] at hx; exact hx)
      (fun f hf0 => by rw [hf] at hf0; exact Or.inl hf0) hk⟩

theorem tame_setObj [LinearOrderedField α] (e : Nat) (w : World α) (id : Nat)
    (o : SceneObject α) (ho : id = e → o.fireCooldown = (w.store e).fireCooldown)
    (hk : KeepsFields (w.store id) o) :
    Tame e w (w.setObj id o) := by
  refine tame_of_lists e rfl rfl rfl rfl (le_refl _) rfl ?_ (fun h => h) ?_
  · intro _
    by_cases h : e = id
    · subst h
      simpa [World.setObj] using ho rfl
    · simp [World.setObj, Function.update, h]
  · intro x _
    by_cases h : x = id
    · subst h
      simpa [World.setObj] using hk
    · simpa [World.setObj, Function.update, h] using keepsFields_refl (w.store x)

theorem tame_crash [LinearOrderedField α] (e : Nat) (w : World α) :
    Tame e w { w with crashed := true } :=
  tame_of_lists e rfl rfl rfl rfl (le_refl _) rfl (fun _ => rfl) (fun _ => rfl)
    (fun _ _ => keepsFields_refl _)

theorem tame_of_spawned [LinearOrderedField α] (e : Nat) {n : Nat} {w w' : World α}
    (h : Spawned n w w')
    (hnew : ∀ f, w.nextId ≤ f → f < w.nextId + n →
      (w'.store f).velocity ≠ none ∧ (w'.store f).gravity ≠ none) : Tame e w w' := by
  refine ⟨?_, ?_, ?_, ?_, ?_, ?_⟩
  · rw [h.nextId]
    omega
  · intro he
    rw [h.store e he]
  · intro x hx
    rw [h.enemies] at hx
    exact hx
  · intro hc
    rw [h.crashed]
    exact hc
  · intro hl
    exact Lockstep.push hl n h.sceneObjects h.nextId (by rw [h.player]) h.enemies
      (Or.inr ⟨h.projectiles, h.fragments⟩)
  · intro hl ht
    refine typed_of_store hl ht (fun x hx => by rw [h.enemies] at hx; exact hx) ?_ ?_
    · intro f hf
      rw [h.fragments, List.mem_append, List.mem_range'_1] at hf
      rcases hf with hf | hf
      · exact Or.inl hf
      · exact Or.inr (hnew f hf.1 hf.2)
    · intro id hid
      rw [h.store id hid]
      exact keepsFields_refl _

theorem tame_setPlayer [LinearOrderedField α] (e : Nat) (w : World α) (pl : Player α)
    (hid : pl.id = w.player.id) : Tame e w { w with player := pl } :=
  tame_of_lists e rfl rfl rfl rfl (le_refl _) hid (fun _ => rfl) (fun h => h)
    (fun _ _ => keepsFields_refl _)

theorem tame_dropProjectile [LinearOrderedField α] (e : Nat) (w : World α) (pid i : Nat)
    (hi : w.projectiles[i]? = some pid) : Tame e w (w.dropProjectile pid i) := by
  refine ⟨le_refl _, fun _ => rfl, fun x hx => hx, fun h => h, ?_, ?_⟩
  · intro hl
    refine Lockstep.remove hl pid rfl (le_refl _) rfl (Or.inr (Or.inl ⟨?_, rfl, ?_, rfl⟩))
    · exact List.getElem?_mem hi
    · exact eraseIdx_eq_erase_of_nodup _ i pid hl.projectiles_nodup hi
  · intro hl ht
    exact typed_of_store hl ht (fun x hx => hx) (fun f hf => Or.inl hf)
      (fun _ _ => keepsFields_refl _)

theorem tame_dropFragment [LinearOrderedField α] (e : Nat) (w : World α) (fid i : Nat)
    (hi : w.fragments[i]? = some fid) : Tame e w (w.dropFragment fid i) := by
  refine ⟨le_refl _, fun _ => rfl, fun x hx => hx, fun h => h, ?_, ?_⟩
  · intro hl
    refine Lockstep.remove hl fid rfl (le_refl _) rfl (Or.inr (Or.inr ⟨?_, rfl, rfl, ?_⟩))
    · exact List.getElem?_mem hi
    · exact eraseIdx_eq_erase_of_nodup _ i fid hl.fragments_nodup hi
  · intro hl ht
    exact typed_of_store hl ht (fun x hx => hx)
      (fun f hf => Or.inl (List.mem_of_mem_eraseIdx hf)) (fun _ _ => keepsFields_refl _)

theorem tame_explodeEnemy [LinearOrderedField α] (m : JSMath α) (e : Nat) (w : World α)
    (x : Nat) (hx : x ∈ w.enemies) : Tame e w (w.explodeEnemy m x) := by
  have h1 : Tame e w
      { w with sceneObjects := w.sceneObjects.erase x, enemies := w.enemies.erase x } := by
    refine ⟨le_refl _, fun _ => rfl, fun y hy => List.mem_of_mem_erase hy, fun h => h, ?_, ?_⟩
    · intro hl
      exact Lockstep.remove hl x rfl (le_refl _) rfl (Or.inl ⟨hx, rfl, rfl, rfl⟩)
    · intro hl ht
      exact typed_of_store hl ht (fun y hy => List.mem_of_mem_erase hy) (fun f hf => Or.inl hf)
        (fun _ _ => keepsFields_refl _)
  have sp := World.createFragments_spawned m
    ({ w with sceneObjects := w.sceneObjects.erase x, enemies := w.enemies.erase x } : World α)
    (World.obj { w with sceneObjects := w.sceneObjects.erase x, enemies := w.enemies.erase x }
      x).position 50
  have fr := World.createFragments_fresh m
    ({ w with sceneObjects := w.sceneObjects.erase x, enemies := w.enemies.erase x } : World α)
    (World.obj { w with sceneObjects := w.sceneObjects.erase x, enemies := w.enemies.erase x }
      x).position 50
  have hx : w.explodeEnemy m x =
      World.createFragments m
        ({ w with sceneObjects := w.sceneObjects.erase x, enemies := w.enemies.erase x } : World α)
        (World.obj { w with sceneObjects := w.sceneObjects.erase x, enemies := w.enemies.erase x }
          x).position 50 := rfl
  rw [hx]
  exact tame_comp h1 (tame_of_spawned e sp fr)

theorem World.explodeEnemy_projectiles [LinearOrderedField α] (m : JSMath α) (w : World α)
    (x : Nat) : (w.explodeEnemy m x).projectiles = w.projectiles := by
  unfold World.explodeEnemy
  exact (World.createFragments_spawned m _ _ 50).projectiles

theorem tame_damageEnemy [LinearOrderedField α] (m : JSMath α) (e : Nat) (w : World α)
    (x : Nat) (proj : SceneObject α) (hx : x ∈ w.enemies) :
    Tame e w (w.damageEnemy m x proj) ∧ (w.damageEnemy m x proj).projectiles = w.projectiles := by
  have h1 : Tame e w (w.setObj x { w.store x with health := (w.store x).health.map (· - 1) }) :=
    tame_setObj e w x _ (fun h => by subst h; rfl) (by constructor <;> simp [World.setObj])
  unfold World.damageEnemy
  dsimp only
  split
  · exact ⟨tame_comp h1 (tame_setObj e _ x _ (fun h => by
      subst h
      simp [World.setObj]) (by constructor <;> simp [World.setObj])), rfl⟩
  · exact ⟨tame_comp h1 (tame_explodeEnemy m e _ x hx), World.explodeEnemy_projectiles m _ x⟩

theorem tame_erasePlayer [LinearOrderedField α] (e : Nat) (w : World α) :
    Tame e w { w with sceneObjects := w.sceneObjects.erase w.player.id } := by
  refine ⟨le_refl _, fun _ => rfl, fun y hy => hy, fun h => h, ?_, ?_⟩
  · intro hl
    exact Lockstep.removePlayer hl rfl rfl rfl rfl (le_refl _) rfl
  · intro hl ht
    exact typed_of_store hl ht (fun x hx => hx) (fun f hf => Or.inl hf)
      (fun _ _ => keepsFields_refl _)

theorem tame_explodePlayer [LinearOrderedField α] (m : JSMath α) (e : Nat) (w : World α) :
    Tame e w (w.explodePlayer m) ∧ (w.explodePlayer m).projectiles = w.projectiles ∧
      (w.explodePlayer m).player = w.player := by
  have sp := World.createFragments_spawned m w w.player.position 80
  have h1 : Tame e w (w.createFragments m w.player.position 80) :=
    tame_of_spawned e sp (World.createFragments_fresh m w w.player.position 80)
  unfold World.explodePlayer
  generalize w.createFragments m w.player.position 80 = w1 at sp h1
  exact ⟨tame_comp h1 (tame_erasePlayer e w1), sp.projectiles, sp.player⟩

theorem tame_playerDeath [LinearOrderedField α] (m : JSMath α) (e : Nat) (w : World α) :
    Tame e w (w.playerDeath m) ∧ (w.playerDeath m).projectiles = w.projectiles := by
  obtain ⟨h1, h2, -⟩ := tame_explodePlayer m e w
  unfold World.playerDeath
  generalize w.explodePlayer m = w1 at h1 h2
  exact ⟨tame_comp h1 (tame_setPlayer e w1 _ rfl), h2⟩

theorem tame_damagePlayer [LinearOrderedField α] (m : JSMath α) (e : Nat) (w : World α)
    (proj : SceneObject α) :
    Tame e w (w.damagePlayer m proj) ∧ (w.damagePlayer m proj).projectiles = w.projectiles := by
  by_cases hf : w.player.hitFlashTimer > 0
  · have e1 : w.damagePlayer m proj = w := by simp [World.damagePlayer, hf]
    rw [e1]
    exact ⟨tame_refl e w, rfl⟩
  · have h1 : Tame e w
        { w with player := { w.player with health := w.player.health - 1, hitFlashTimer := 20 } } :=
      tame_setPlayer e w _ rfl
    by_cases hh : w.player.health - 1 ≤ 0
    · have e1 : w.damagePlayer m proj = World.playerDeath m
          { w with player := { w.player with health := w.player.health - 1, hitFlashTimer := 20 } } := by
        simp [World.damagePlayer, hf, hh]
      rw [e1]
      obtain ⟨h2, h3⟩ := tame_playerDeath m e
        { w with player := { w.player with health := w.player.health - 1, hitFlashTimer := 20 } }
      exact ⟨tame_comp h1 h2, h3⟩
    · have e1 : w.damagePlayer m proj =
          { w with player := { w.player with health := w.player.health - 1, hitFlashTimer := 20 } } := by
        simp [World.damagePlayer, hf, hh]
      rw [e1]
      exact ⟨h1, rfl⟩

theorem tame_hitPhase [LinearOrderedField α] (m : JSMath α) (e : Nat) (w : World α)
    (pid i : Nat) (hi : w.projectiles[i]? = some pid) : Tame e w (w.hitPhase m pid i) := by
  unfold World.hitPhase
  dsimp only
  split_ifs with h1 h2
  · obtain ⟨t1, t2⟩ := tame_damagePlayer m e w (w.store pid)
    exact tame_comp t1 (tame_dropProjectile e _ pid i (by rw [t2]; exact hi))
  · exact tame_refl e w
  · split
    · rename_i hitEnemy hfind
      have hmem : hitEnemy ∈ w.enemies := List.mem_of_find?_eq_some hfind
      obtain ⟨t1, t2⟩ := tame_damageEnemy m e w hitEnemy (w.store pid) hmem
      exact tame_comp t1 (tame_dropProjectile e _ pid i (by rw [t2]; exact hi))
    · exact tame_refl e w

theorem tame_movePhase [LinearOrderedField α] (m : JSMath α) (e : Nat) (w : World α)
    (pid i : Nat) (hi : w.projectiles[i]? = some pid) : Tame e w (w.movePhase m pid i) := by
  unfold World.movePhase
  dsimp only
  split
  · exact tame_crash e w
  · split_ifs with h1
    · have sp := World.createWallHitEffect_spawned m w (w.store pid).position
      exact tame_comp (tame_of_spawned e sp (World.createWallHitEffect_fresh m w _))
        (tame_dropProjectile e _ pid i (by rw [sp.projectiles]; exact hi))
    · exact tame_comp (tame_setObj e w pid _ (fun h => by subst h; rfl) (by constructor <;> simp [World.setObj]))
        (tame_hitPhase m e _ pid i hi)

theorem tame_tickLife [LinearOrderedField α] (e : Nat) (w : World α) (pid : Nat) :
    Tame e w (w.tickLife pid) :=
  tame_setObj e w pid _ (fun h => by subst h; rfl) (by constructor <;> simp [World.setObj])

theorem tame_projectileStep [LinearOrderedField α] (m : JSMath α) (e : Nat) (w : World α)
    (i : Nat) : Tame e w (w.projectileStep m i) := by
  unfold World.projectileStep
  split_ifs with hc
  · exact tame_refl e w
  · split
    · exact tame_crash e w
    · rename_i pid hi
      dsimp only
      split_ifs with h1
      · exact tame_comp (tame_tickLife e w pid) (tame_dropProjectile e _ pid i hi)
      · exact tame_comp (tame_tickLife e w pid) (tame_movePhase m e _ pid i hi)

theorem tame_updateProjectilesLoop [LinearOrderedField α] (m : JSMath α) (e : Nat) (n : Nat)
    (w : World α) : Tame e w (World.updateProjectilesLoop m n w) := by
  induction n generalizing w with
  | zero => exact tame_refl e w
  | succ k ih => exact tame_comp (tame_projectileStep m e w k) (ih _)

theorem tame_updateProjectiles [LinearOrderedField α] (m : JSMath α) (e : Nat) (w : World α) :
    Tame e w (w.updateProjectiles m) :=
  tame_updateProjectilesLoop m e _ w

theorem tame_moveFragment [LinearOrderedField α] (m : JSMath α) (e : Nat) (w : World α)
    (fid : Nat) : Tame e w (w.moveFragment m fid) := by
  unfold World.moveFragment
  dsimp only
  split
  · refine tame_setObj e w fid _ (fun h => ?_) ?_
    · subst h
      split <;> rfl
    · constructor <;> intro h <;> split <;> first | exact h | simp
  · exact tame_crash e w

theorem tame_fragmentStep [LinearOrderedField α] (m : JSMath α) (e : Nat) (w : World α)
    (i : Nat) : Tame e w (w.fragmentStep m i) := by
  unfold World.fragmentStep
  split_ifs with hc
  · exact tame_refl e w
  · split
    · exact tame_crash e w
    · rename_i fid hi
      dsimp only
      split_ifs with h1
      · exact tame_comp (tame_tickLife e w fid) (tame_dropFragment e _ fid i hi)
      · exact tame_comp (tame_tickLife e w fid) (tame_moveFragment m e _ fid)

theorem tame_updateFragmentsLoop [LinearOrderedField α] (m : JSMath α) (e : Nat) (n : Nat)
    (w : World α) : Tame e w (World.updateFragmentsLoop m n w) := by
  induction n generalizing w with
  | zero => exact tame_refl e w
  | succ k ih => exact tame_comp (tame_fragmentStep m e w k) (ih _)

theorem tame_updateFragments [LinearOrderedField α] (m : JSMath α) (e : Nat) (w : World α) :
    Tame e w (w.updateFragments m) :=
  tame_updateFragmentsLoop m e _ w

theorem tame_patrolEnemy [LinearOrderedField α] (e : Nat) (w : World α) (x : Nat) :
    Tame e w (w.patrolEnemy x) := by
  unfold World.patrolEnemy
  dsimp only
  split
  · refine tame_setObj e w x _ (fun h => ?_) ?_
    · subst h
      split_ifs <;> rfl
    · constructor <;> intro h <;> split_ifs <;> first | exact h | simp
  · exact tame_crash e w

theorem tame_tickEnemyFlash [LinearOrderedField α] (e : Nat) (w : World α) (x : Nat) :
    Tame e w (w.tickEnemyFlash x) := by
  unfold World.tickEnemyFlash
  dsimp only
  split
  · split_ifs
    · exact tame_setObj e w x _ (fun h => by subst h; rfl) (by constructor <;> simp [World.setObj])
    · exact tame_refl e w
  · exact tame_refl e w

theorem tame_fireEnemyProjectile [LinearOrderedField α] (m : JSMath α) (e : Nat)
    (w : World α) (x : Nat) : Tame e w (w.fireEnemyProjectile m x) := by
  refine ⟨Nat.le_succ _, ?_, fun y hy => hy, fun h => h, ?_, ?_⟩
  · intro he
    simp [World.fireEnemyProjectile, Function.update, Nat.ne_of_lt he]
  · intro hl
    exact Lockstep.push hl 1 rfl rfl rfl rfl (Or.inl ⟨rfl, rfl⟩)
  · intro hl ht
    refine typed_of_store hl ht (fun y hy => hy) (fun f hf => Or.inl hf) ?_
    intro id hid
    simpa [World.fireEnemyProjectile, Function.update, Nat.ne_of_lt hid] using
      keepsFields_refl (w.store id)

theorem tame_enemyShoot [LinearOrderedField α] (m : JSMath α) (e : Nat) (w : World α)
    (x : Nat) (hx : x ≠ e) : Tame e w (w.enemyShoot m x) := by
  unfold World.enemyShoot
  dsimp only
  split_ifs
  · exact tame_comp (tame_setObj e w x _ (fun h => absurd h hx) (by constructor <;> simp [World.setObj]))
      (tame_fireEnemyProjectile m e _ x)
  · exact tame_refl e w
  · exact tame_refl e w

theorem tame_tickEnemyCooldown [LinearOrderedField α] (e : Nat) (w : World α) (x : Nat)
    (hx : x ≠ e) : Tame e w (w.tickEnemyCooldown x) := by
  unfold World.tickEnemyCooldown
  dsimp only
  split
  · split_ifs
    · exact tame_setObj e w x _ (fun h => absurd h hx) (by constructor <;> simp [World.setObj])
    · exact tame_refl e w
  · exact tame_refl e w

theorem tame_enemyStep [LinearOrderedField α] (m : JSMath α) (e : Nat) (w : World α)
    (x : Nat) (hx : x ≠ e) : Tame e w (w.enemyStep m x) := by
  unfold World.enemyStep
  by_cases hc : w.crashed = true
  · rw [if_pos hc]
    exact tame_refl e w
  · rw [if_neg hc]
    by_cases hs : (!w.sceneObjects.contains x) = true
    · rw [if_pos hs]
      exact tame_refl e w
    · rw [if_neg hs]
      dsimp only
      by_cases hc2 : (w.patrolEnemy x).crashed = true
      · rw [if_pos hc2]
        exact tame_patrolEnemy e w x
      · rw [if_neg hc2]
        exact tame_comp (tame_patrolEnemy e w x)
          (tame_comp (tame_tickEnemyFlash e _ x)
            (tame_comp (tame_enemyShoot m e _ x hx) (tame_tickEnemyCooldown e _ x hx)))

theorem tame_enemySteps [LinearOrderedField α] (m : JSMath α) (e : Nat) (l : List Nat)
    (hl : e ∉ l) (w : World α) : Tame e w (l.foldl (World.enemyStep m) w) := by
  induction l generalizing w with
  | nil => exact tame_refl e w
  | cons x xs ih =>
    rw [List.foldl_cons]
    have hx : x ≠ e := fun h => hl (by rw [h]; exact List.mem_cons_self _ _)
    exact tame_comp (tame_enemyStep m e w x hx)
      (ih (fun h => hl (List.mem_cons_of_mem _ h)) _)

theorem Weapon.createProjectile_ids [LinearOrderedField α] (m : JSMath α) (w : Weapon α)
    (rand : Nat → α) (nextId : Nat) (position direction : Vec3 α) (ps : List (SceneObject α))
    (h : (w.createProjectile m rand nextId position direction).1 = some ps) :
    ps.map (·.id) = List.range' nextId ps.length := by
  by_cases hf : w.canFire = true
  · rw [Weapon.createProjectile_of_canFire m w rand nextId position direction hf] at h
    injection h with h
    subst h
    rw [List.map_map, List.length_map, List.length_range, List.range'_eq_map_range]
    rfl
  · rw [Weapon.createProjectile_of_not_canFire m w rand nextId position direction
      (by simpa using hf)] at h
    exact absurd h (by simp)

theorem tame_fireProjectile [LinearOrderedField α] (m : JSMath α) (e : Nat) (w : World α) :
    Tame e w (w.fireProjectile m) := by
  unfold World.fireProjectile
  dsimp only
  split
  · exact tame_crash e w
  · exact tame_setPlayer e w _ rfl
  · rename_i ps ws hfire
    have hids : ps.map (·.id) = List.range' w.nextId ps.length := by
      unfold WeaponSystem.fireCurrentWeapon at hfire
      split at hfire
      · exact absurd hfire (by simp)
      · rename_i cur hcur
        simp only [Option.some.injEq, Prod.mk.injEq] at hfire
        exact Weapon.createProjectile_ids m cur _ w.nextId _ _ ps hfire.1
    have hold : ∀ x, x < w.nextId → ps.find? (fun o => o.id == x) = none := by
      intro x hx
      rw [List.find?_eq_none]
      intro o ho
      have hmem : o.id ∈ ps.map (·.id) := List.mem_map_of_mem _ ho
      rw [hids, List.mem_range'_1] at hmem
      simp only [beq_iff_eq]
      omega
    refine ⟨Nat.le_add_right _ _, ?_, fun y hy => hy, fun h => h, ?_, ?_⟩
    · intro he
      simp only [hold e he]
    · intro hl
      exact Lockstep.push hl ps.length (by rw [← hids]) rfl rfl rfl
        (Or.inl ⟨by rw [← hids], rfl⟩)
    · intro hl ht
      refine typed_of_store hl ht (fun y hy => hy) (fun f hf => Or.inl hf) ?_
      intro id hid
      simp only [hold id hid]
      exact keepsFields_refl _

theorem tame_playerWeapons [LinearOrderedField α] (m : JSMath α) (e : Nat) (w : World α) :
    Tame e w (w.playerWeapons m) := by
  unfold World.playerWeapons
  split
  · exact tame_crash e w
  · rename_i ws hws
    have h1 : Tame e w { w with player := { w.player with weaponSystem := ws } } :=
      tame_setPlayer e w _ rfl
    have key : ∀ w2 : World α, Tame e w w2 →
        Tame e w (if w2.crashed then w2
          else { w2 with player := { w2.player with weaponSystem :=
            (if w2.keys.two then
              ((if w2.keys.one then (w2.player.weaponSystem.switchWeapon 0).2
                else w2.player.weaponSystem).switchWeapon 1).2
            else (if w2.keys.one then (w2.player.weaponSystem.switchWeapon 0).2
                else w2.player.weaponSystem)) } }) := by
      intro w2 h2
      split_ifs
      · exact h2
      all_goals exact tame_comp h2 (tame_setPlayer e w2 _ rfl)
    by_cases hsp : w.keys.Space = true
    · have h2 := tame_comp h1 (tame_fireProjectile m e _)
      have h3 := key _ h2
      simpa only [hsp, if_true] using h3
    · have h3 := key _ h1
      simpa only [hsp] using h3

theorem tame_updatePlayer [LinearOrderedField α] (m : JSMath α) (e : Nat) (w : World α) :
    Tame e w (w.updatePlayer m) := by
  unfold World.updatePlayer
  split_ifs
  · exact tame_refl e w
  · dsimp only
    have h1 : Tame e w w.tickPlayerFlash := by
      unfold World.tickPlayerFlash
      split_ifs
      · exact tame_setPlayer e w _ rfl
      · exact tame_refl e w
    generalize w.tickPlayerFlash = w1 at h1
    have h2 : Tame e w1 w1.turnPlayer := tame_setPlayer e w1 _ rfl
    generalize w1.turnPlayer = w2 at h2
    have h3 : Tame e w2 (w2.acceleratePlayer m w.player.rotation.y) := by
      unfold World.acceleratePlayer
      dsimp only
      split_ifs <;>
        exact tame_of_lists e rfl rfl rfl rfl (le_refl _) rfl (fun _ => rfl) (fun h => h)
          (fun _ _ => keepsFields_refl _)
    generalize w2.acceleratePlayer m w.player.rotation.y = w3 at h3
    have h4 : Tame e w3 w3.movePlayer :=
      tame_of_lists e rfl rfl rfl rfl (le_refl _) rfl (fun _ => rfl) (fun h => h)
        (fun _ _ => keepsFields_refl _)
    generalize w3.movePlayer = w4 at h4
    exact tame_comp h1 (tame_comp h2 (tame_comp h3 (tame_comp h4 (tame_playerWeapons m e w4))))

theorem tame_input [LinearOrderedField α] (e : Nat) (w : World α) (keys : Keys)
    (stop : Bool) : Tame e w (w.input keys stop) :=
  tame_of_lists e rfl rfl rfl rfl (le_refl _) rfl (fun _ => rfl) (fun h => h)
    (fun _ _ => keepsFields_refl _)

theorem Lockstep.after_enemyStep [LinearOrderedField α] (m : JSMath α) {w : World α}
    (h : Lockstep w) (x : Nat) : Lockstep (w.enemyStep m x) :=
  (tame_enemyStep m (x + 1) w x (by omega)).lockstep h

theorem Lockstep.after_enemySteps [LinearOrderedField α] (m : JSMath α) (l : List Nat)
    {w : World α} (h : Lockstep w) : Lockstep (l.foldl (World.enemyStep m) w) := by
  induction l generalizing w with
  | nil => exact h
  | cons x xs ih =>
    rw [List.foldl_cons]
    exact ih (Lockstep.after_enemyStep m h x)

theorem Lockstep.after_updateEnemies [LinearOrderedField α] (m : JSMath α) {w : World α}
    (h : Lockstep w) : Lockstep (w.updateEnemies m) :=
  Lockstep.after_enemySteps m w.enemies h

theorem Lockstep.after_gameLoop [LinearOrderedField α] (m : JSMath α) {w : World α}
    (h : Lockstep w) : Lockstep (w.gameLoop m) := by
  unfold World.gameLoop
  split_ifs
  · exact h
  · exact (tame_updateFragments m 0 _).lockstep
      ((tame_updateProjectiles m 0 _).lockstep
        ((tame_updatePlayer m 0 _).lockstep (Lockstep.after_updateEnemies m h)))
  · exact (tame_updateFragments m 0 _).lockstep
      ((tame_updateProjectiles m 0 _).lockstep (Lockstep.after_updateEnemies m h))

theorem Lockstep.initial [LinearOrderedField α] (w : World α) (n : Nat)
    (hs : w.sceneObjects = List.range (n + 4)) (he : w.enemies = [n + 1, n + 2, n + 3])
    (hp : w.projectiles = []) (hf : w.fragments = []) (hn : w.nextId = n + 4)
    (hid : w.player.id = n) : Lockstep w := by
  refine ⟨?_, ?_, ?_, ?_⟩
  · intro id
    rw [hs, he, hp, hf, hid, List.count_eq_of_nodup (List.nodup_range _)]
    simp only [List.count_cons, List.count_nil, List.mem_range, beq_iff_eq]
    split_ifs <;> omega
  · rw [hs]
    exact List.nodup_range _
  · intro id hmem
    rw [hs, List.mem_range] at hmem
    omega
  · omega

theorem initialWorld_lockstep [LinearOrderedField α] (m : JSMath α) (rand : Nat → α)
    (fuel : Nat) (w : World α) (h : initialWorld m rand fuel = some w) : Lockstep w := by
  unfold initialWorld at h
  split at h
  · exact absurd h (by simp)
  · rename_i spots pos hsp
    simp only [Option.some.injEq] at h
    subst h
    exact Lockstep.initial _ (staticObjects spots : List (SceneObject α)).length rfl rfl rfl rfl
      rfl rfl

theorem Reachable.lockstep [LinearOrderedField α] (m : JSMath α) {w : World α}
    (h : Reachable m w) : Lockstep w := by
  induction h with
  | init rand fuel w h0 => exact initialWorld_lockstep m rand fuel w h0
  | updateEnemies w _ ih => exact Lockstep.after_updateEnemies m ih
  | updatePlayer w _ ih => exact (tame_updatePlayer m 0 w).lockstep ih
  | updateProjectiles w _ ih => exact (tame_updateProjectiles m 0 w).lockstep ih
  | updateFragments w _ ih => exact (tame_updateFragments m 0 w).lockstep ih
  | enemyStep w e _ ih => exact Lockstep.after_enemyStep m ih e
  | projectileStep w i _ ih => exact (tame_projectileStep m 0 w i).lockstep ih
  | fragmentStep w i _ ih => exact (tame_fragmentStep m 0 w i).lockstep ih
  | input w keys stop _ ih => exact (tame_input 0 w keys stop).lockstep ih

theorem getD_append_length_add {β : Type} (l l' : List β) (k : Nat) (d : β) :
    (l ++ l').getD (l.length + k) d = l'.getD k d := by
  rw [List.getD_append_right _ _ _ _ (by omega)]
  congr 1
  omega

theorem initialWorld_typed [LinearOrderedField α] (m : JSMath α) (rand : Nat → α)
    (fuel : Nat) (w : World α) (h : initialWorld m rand fuel = some w) : Typed w := by
  unfold initialWorld at h
  split at h
  · exact absurd h (by simp)
  · rename_i spots pos hsp
    simp only [Option.some.injEq] at h
    subst h
    constructor
    · intro f hf
      exact absurd hf (List.not_mem_nil f)
    · intro x hx
      simp only [List.mem_cons, List.mem_singleton, List.not_mem_nil, or_false] at hx
      rcases hx with hx | hx | hx <;> subst hx <;> dsimp only <;>
        rw [getD_append_length_add] <;> simp [createEnemy]

theorem Reachable.typed [LinearOrderedField α] (m : JSMath α) {w : World α}
    (h : Reachable m w) : Typed w := by
  induction h with
  | init rand fuel w h0 => exact initialWorld_typed m rand fuel w h0
  | updateEnemies w hr ih =>
    have hl := Reachable.lockstep m hr
    have key : ∀ (l : List Nat) (u : World α), Lockstep u → Typed u →
        Typed (l.foldl (World.enemyStep m) u) := by
      intro l
      induction l with
      | nil => exact fun u _ ht => ht
      | cons x xs ihl =>
        intro u hu ht
        rw [List.foldl_cons]
        exact ihl _ (Lockstep.after_enemyStep m hu x)
          ((tame_enemyStep m (x + 1) u x (by omega)).typed hu ht)
    exact key w.enemies w hl ih
  | updatePlayer w hr ih => exact (tame_updatePlayer m 0 w).typed (Reachable.lockstep m hr) ih
  | updateProjectiles w hr ih =>
    exact (tame_updateProjectiles m 0 w).typed (Reachable.lockstep m hr) ih
  | updateFragments w hr ih =>
    exact (tame_updateFragments m 0 w).typed (Reachable.lockstep m hr) ih
  | enemyStep w e hr ih =>
    exact (tame_enemyStep m (e + 1) w e (by omega)).typed (Reachable.lockstep m hr) ih
  | projectileStep w i hr ih =>
    exact (tame_projectileStep m 0 w i).typed (Reachable.lockstep m hr) ih
  | fragmentStep w i hr ih =>
    exact (tame_fragmentStep m 0 w i).typed (Reachable.lockstep m hr) ih
  | input w keys stop hr ih => exact (tame_input 0 w keys stop).typed (Reachable.lockstep m hr) ih

theorem Reachable.gameLoop [LinearOrderedField α] (m : JSMath α) {w : World α}
    (h : Reachable m w) : Reachable m (w.gameLoop m) := by
  unfold World.gameLoop
  split_ifs
  · exact h
  · exact Reachable.updateFragments _ (Reachable.updateProjectiles _
      (Reachable.updatePlayer _ (Reachable.updateEnemies _ h)))
  · exact Reachable.updateFragments _ (Reachable.updateProjectiles _
      (Reachable.updateEnemies _ h))

theorem Reachable.gameLoops [LinearOrderedField α] (m : JSMath α) {w : World α}
    (h : Reachable m w) (n : Nat) : Reachable m ((World.gameLoop m)^[n] w) := by
  induction n generalizing w with
  | zero => exact h
  | succ k ih =>
    rw [Function.iterate_succ_apply]
    exact ih (Reachable.gameLoop m h)

theorem option_eq_some_getD {β : Type} (o : Option β) (d : β) (h : o.isSome = true) :
    o = some (o.getD d) := by
  cases o with
  | none => exact absurd h (by simp)
  | some a => rfl

theorem arenaWorld_initial : initialWorld sampleMath arenaRand 1 = some arenaWorld :=
  option_eq_some_getD _ _ (by decide!)

theorem arenaWorld_reachable : Reachable sampleMath arenaWorld :=
  Reachable.init arenaRand 1 arenaWorld arenaWorld_initial

theorem Lockstep.drop_projectile_gone [LinearOrderedField α] {w : World α} (h : Lockstep w)
    (i pid : Nat) (hi : w.projectiles[i]? = some pid) :
    pid ∉ (w.dropProjectile pid i).projectiles ∧ pid ∉ (w.dropProjectile pid i).sceneObjects := by
  constructor
  · show pid ∉ w.projectiles.eraseIdx i
    rw [eraseIdx_eq_erase_of_nodup _ i pid h.projectiles_nodup hi]
    exact h.projectiles_nodup.not_mem_erase
  · exact h.nodup.not_mem_erase

theorem Lockstep.drop_fragment_gone [LinearOrderedField α] {w : World α} (h : Lockstep w)
    (i fid : Nat) (hi : w.fragments[i]? = some fid) :
    fid ∉ (w.dropFragment fid i).fragments ∧ fid ∉ (w.dropFragment fid i).sceneObjects := by
  constructor
  · show fid ∉ w.fragments.eraseIdx i
    rw [eraseIdx_eq_erase_of_nodup _ i fid h.fragments_nodup hi]
    exact h.fragments_nodup.not_mem_erase
  · exact h.nodup.not_mem_erase

theorem Lockstep.explode_enemy_gone [LinearOrderedField α] (m : JSMath α) {w : World α}
    (h : Lockstep w) (x : Nat) (hx : x ∈ w.enemies) :
    x ∉ (w.explodeEnemy m x).enemies ∧ x ∉ (w.explodeEnemy m x).sceneObjects := by
  unfold World.explodeEnemy
  have sp := World.createFragments_spawned m
    ({ w with sceneObjects := w.sceneObjects.erase x, enemies := w.enemies.erase x } : World α)
    (World.obj { w with sceneObjects := w.sceneObjects.erase x, enemies := w.enemies.erase x }
      x).position 50
  constructor
  · rw [sp.enemies]
    exact h.enemies_nodup.not_mem_erase
  · rw [sp.sceneObjects, List.mem_append, List.mem_range'_1]
    have hb := h.bounded x (h.mem_scene x (Or.inl hx)).2
    intro hmem
    rcases hmem with h1 | h1
    · exact h.nodup.not_mem_erase h1
    · have : w.nextId ≤ x := h1.1
      omega

/-- C22. In every state reachable from the initial scene (by `updateEnemies`,
`updatePlayer`, `updateProjectiles`, `updateFragments`, by single iterations
of their loops, or by input events) the arrays are in lockstep: every
identity in `enemies`, `projectiles` or `fragments` is in `sceneObjects`;
conversely every identity in `sceneObjects` allocated after the player is in
one of the three arrays, so nothing that left them has stayed in the scene;
and no array lists an identity twice. In any state in lockstep, each of the
three removals of the source (`removeObject(p); projectiles.splice(i, 1)`,
`removeObject(f); fragments.splice(i, 1)` and the two splices of
`explodeEnemy`) leaves the object in neither collection. A whole frame of
`gameLoop` leads from reachable states to reachable states. -/
theorem aux_lists_in_lockstep [LinearOrderedField α] (m : JSMath α) (w : World α)
    (h : Reachable m w) :
    Lockstep w ∧
    (∀ id, id ∈ w.enemies ∨ id ∈ w.projectiles ∨ id ∈ w.fragments → id ∈ w.sceneObjects) ∧
    (∀ id, w.player.id < id → id ∈ w.sceneObjects →
      id ∈ w.enemies ∨ id ∈ w.projectiles ∨ id ∈ w.fragments) ∧
    (w.sceneObjects.Nodup ∧ w.enemies.Nodup ∧ w.projectiles.Nodup ∧ w.fragments.Nodup) ∧
    (∀ u : World α, Lockstep u →
      (∀ i pid, u.projectiles[i]? = some pid →
        pid ∉ (u.dropProjectile pid i).projectiles ∧
          pid ∉ (u.dropProjectile pid i).sceneObjects) ∧
      (∀ i fid, u.fragments[i]? = some fid →
        fid ∉ (u.dropFragment fid i).fragments ∧ fid ∉ (u.dropFragment fid i).sceneObjects) ∧
      (∀ x, x ∈ u.enemies →
        x ∉ (u.explodeEnemy m x).enemies ∧ x ∉ (u.explodeEnemy m x).sceneObjects)) ∧
    (∀ n, Reachable m ((World.gameLoop m)^[n] w)) := by
  have hl := Reachable.lockstep m h
  refine ⟨hl, fun id hid => (hl.mem_scene id hid).2, ?_,
    ⟨hl.nodup, hl.enemies_nodup, hl.projectiles_nodup, hl.fragments_nodup⟩, ?_,
    Reachable.gameLoops m h⟩
  · intro id hlt hmem
    have hc := hl.counts id
    rw [if_pos hlt] at hc
    have hpos := List.count_pos_iff.2 hmem
    by_contra hcon
    push_neg at hcon
    rw [List.count_eq_zero_of_not_mem hcon.1, List.count_eq_zero_of_not_mem hcon.2.1,
      List.count_eq_zero_of_not_mem hcon.2.2] at hc
    omega
  · intro u hu
    exact ⟨hu.drop_projectile_gone, hu.drop_fragment_gone, hu.explode_enemy_gone m⟩

/-- C22 witness: the initial scene built with the random results `arenaRand`
(54 objects, the player at identity 50, the enemies at identities 51 to 53)
is reachable, is in lockstep, and stays so frame after frame. -/
theorem aux_lists_in_lockstep_witness :
    (arenaWorld.sceneObjects = List.range 54 ∧ arenaWorld.enemies = [51, 52, 53] ∧
      arenaWorld.player.id = 50) ∧
    Reachable sampleMath arenaWorld ∧
    Lockstep arenaWorld ∧
    (∀ id, id ∈ arenaWorld.enemies ∨ id ∈ arenaWorld.projectiles ∨ id ∈ arenaWorld.fragments →
      id ∈ arenaWorld.sceneObjects) ∧
    (∀ n, Reachable sampleMath ((World.gameLoop sampleMath)^[n] arenaWorld)) :=
  ⟨by decide!, arenaWorld_reachable,
    (aux_lists_in_lockstep sampleMath arenaWorld arenaWorld_reachable).1,
    (aux_lists_in_lockstep sampleMath arenaWorld arenaWorld_reachable).2.1,
    (aux_lists_in_lockstep sampleMath arenaWorld arenaWorld_reachable).2.2.2.2.2⟩

end LockstepTheorems

section EnemyCooldownTheorems

variable {α : Type}

theorem World.shoot_and_tick [LinearOrderedField α] (m : JSMath α) (w : World α) (e : Nat)
    (he : e < w.nextId) :
    ((cooldownOver (w.store e) && w.canSeePlayer m (w.store e).position) = true →
      (((w.enemyShoot m e).tickEnemyCooldown e).store e).fireCooldown = some 119 ∧
      ((w.enemyShoot m e).tickEnemyCooldown e).projectiles = w.projectiles ++ [w.nextId]) ∧
    ((cooldownOver (w.store e) && w.canSeePlayer m (w.store e).position) = false →
      ((w.enemyShoot m e).tickEnemyCooldown e).projectiles = w.projectiles ∧
      (((w.enemyShoot m e).tickEnemyCooldown e).store e).fireCooldown =
        (match (w.store e).fireCooldown with
         | some c => if c > 0 then some (c - 1) else some c
         | none => none)) := by
  have hne : e ≠ w.nextId := Nat.ne_of_lt he
  constructor
  · intro hf
    rw [Bool.and_eq_true] at hf
    have hs : w.enemyShoot m e =
        (w.setObj e { w.store e with fireCooldown := some 120 }).fireEnemyProjectile m e := by
      unfold World.enemyShoot
      simp only [hf.1, hf.2, if_true]
    have hc : ((w.enemyShoot m e).store e).fireCooldown = some 120 := by
      rw [hs]
      simp [World.fireEnemyProjectile, World.setObj, Function.update, hne]
    have hp : (w.enemyShoot m e).projectiles = w.projectiles ++ [w.nextId] := by
      rw [hs]
      rfl
    unfold World.tickEnemyCooldown
    simp only [hc]
    rw [if_pos (by decide)]
    exact ⟨by simp [World.setObj], hp⟩
  · intro hf
    have hs : w.enemyShoot m e = w := by
      unfold World.enemyShoot
      dsimp only
      by_cases h1 : cooldownOver (w.store e) = true
      · rw [h1, Bool.true_and] at hf
        simp only [h1, hf, if_true]
        rfl
      · simp only [h1]
        rfl
    rw [hs]
    unfold World.tickEnemyCooldown
    dsimp only
    split
    · rename_i c hc
      split_ifs with hpos
      · exact ⟨rfl, by simp [World.setObj]⟩
      · exact ⟨rfl, hc⟩
    · rename_i hc
      exact ⟨rfl, hc⟩

theorem World.enemyStep_cases [LinearOrderedField α] (m : JSMath α) (w : World α) (e : Nat) :
    (w.enemyFires m e = false ∧ w.enemyStep m e = w ∧
      (w.crashed = true ∨ e ∉ w.sceneObjects)) ∨
    (w.enemyFires m e = false ∧ w.enemyStep m e = w.patrolEnemy e ∧
      (w.patrolEnemy e).crashed = true) ∨
    (w.crashed = false ∧ e ∈ w.sceneObjects ∧ (w.patrolEnemy e).crashed = false ∧
      w.enemyStep m e =
        (((w.patrolEnemy e).tickEnemyFlash e).enemyShoot m e).tickEnemyCooldown e ∧
      w.enemyFires m e =
        (cooldownOver (((w.patrolEnemy e).tickEnemyFlash e).store e) &&
          ((w.patrolEnemy e).tickEnemyFlash e).canSeePlayer m
            ((((w.patrolEnemy e).tickEnemyFlash e).store e).position))) := by
  unfold World.enemyStep World.enemyFires
  by_cases hc : w.crashed = true
  · left
    simp [hc]
  · have hc' : w.crashed = false := by simpa using hc
    by_cases hs : e ∈ w.sceneObjects
    · by_cases hc2 : (w.patrolEnemy e).crashed = true
      · right
        left
        simp [hc', hs, hc2]
      · have hc2' : (w.patrolEnemy e).crashed = false := by simpa using hc2
        right
        right
        simp [hc', hs, hc2']
    · left
      simp [hc', hs]

theorem World.enemyStep_fired [LinearOrderedField α] (m : JSMath α) (w : World α) (e : Nat)
    (he : e < w.nextId) (hf : w.enemyFires m e = true) :
    ((w.enemyStep m e).store e).fireCooldown = some 119 ∧
    (w.enemyStep m e).projectiles = w.projectiles ++ [w.nextId] ∧
    cooldownOver (((w.patrolEnemy e).tickEnemyFlash e).store e) = true ∧
    ((w.patrolEnemy e).tickEnemyFlash e).canSeePlayer m
      ((((w.patrolEnemy e).tickEnemyFlash e).store e).position) = true := by
  obtain ⟨p1, -, p3, -, -, -⟩ := World.patrolEnemy_globals w e
  obtain ⟨f1, -, f3, -, -, -, -, -, -⟩ := World.tickEnemyFlash_globals (w.patrolEnemy e) e
  rcases World.enemyStep_cases m w e with ⟨h0, -, -⟩ | ⟨h0, -, -⟩ | ⟨-, -, -, hstep, hfire⟩
  · rw [h0] at hf
    exact absurd hf (by simp)
  · rw [h0] at hf
    exact absurd hf (by simp)
  · rw [hfire] at hf
    have he2 : e < ((w.patrolEnemy e).tickEnemyFlash e).nextId := by
      rw [f3, p3]
      exact he
    obtain ⟨h1, h2⟩ := (World.shoot_and_tick m _ e he2).1 hf
    rw [hstep]
    rw [Bool.and_eq_true] at hf
    refine ⟨h1, ?_, hf.1, hf.2⟩
    rw [h2, f1, p1, f3, p3]

theorem World.enemyStep_held [LinearOrderedField α] (m : JSMath α) (w : World α) (e : Nat)
    (he : e < w.nextId) (hf : w.enemyFires m e = false) :
    (w.enemyStep m e).projectiles = w.projectiles ∧
    (((w.enemyStep m e).store e).fireCooldown = (w.store e).fireCooldown ∨
      ∃ c, (w.store e).fireCooldown = some c ∧ 0 < c ∧
        ((w.enemyStep m e).store e).fireCooldown = some (c - 1)) := by
  obtain ⟨p1, -, p3, -, -, -⟩ := World.patrolEnemy_globals w e
  obtain ⟨f1, -, f3, -, -, -, -, -, f9⟩ := World.tickEnemyFlash_globals (w.patrolEnemy e) e
  have hcd : ((w.patrolEnemy e).store e).fireCooldown = (w.store e).fireCooldown :=
    (tame_patrolEnemy e w e).cooldown he
  rcases World.enemyStep_cases m w e with ⟨-, h0, -⟩ | ⟨-, h0, -⟩ | ⟨-, -, -, hstep, hfire⟩
  · rw [h0]
    exact ⟨rfl, Or.inl rfl⟩
  · rw [h0]
    exact ⟨p1, Or.inl hcd⟩
  · rw [hfire] at hf
    have he2 : e < ((w.patrolEnemy e).tickEnemyFlash e).nextId := by
      rw [f3, p3]
      exact he
    obtain ⟨h1, h2⟩ := (World.shoot_and_tick m _ e he2).2 hf
    rw [hstep]
    refine ⟨by rw [h1, f1, p1], ?_⟩
    rw [h2, f9, hcd]
    cases hcool : (w.store e).fireCooldown with
    | none => exact Or.inl rfl
    | some c =>
      by_cases hpos : c > 0
      · right
        exact ⟨c, rfl, hpos, by simp [hpos]⟩
      · left
        simp [hpos]

theorem World.enemyStep_cooling [LinearOrderedField α] (m : JSMath α) (w : World α) (e : Nat)
    (c : Int) (he : e < w.nextId) (hs : e ∈ w.sceneObjects)
    (hc : (w.store e).fireCooldown = some c) (hpos : 0 < c) :
    w.enemyFires m e = false ∧
    ((w.enemyStep m e).crashed = true ∨
      ((w.enemyStep m e).store e).fireCooldown = some (c - 1)) := by
  obtain ⟨-, -, p3, -, -, -⟩ := World.patrolEnemy_globals w e
  obtain ⟨-, -, f3, -, -, -, -, -, f9⟩ := World.tickEnemyFlash_globals (w.patrolEnemy e) e
  have hcd : ((w.patrolEnemy e).store e).fireCooldown = (w.store e).fireCooldown :=
    (tame_patrolEnemy e w e).cooldown he
  rcases World.enemyStep_cases m w e with ⟨h0, h1, h2⟩ | ⟨h0, h1, h2⟩ | ⟨-, -, -, hstep, hfire⟩
  · rcases h2 with h2 | h2
    · rw [h1]
      exact ⟨h0, Or.inl h2⟩
    · exact absurd hs h2
  · rw [h1]
    exact ⟨h0, Or.inl h2⟩
  · have hover : cooldownOver (((w.patrolEnemy e).tickEnemyFlash e).store e) = false := by
      unfold cooldownOver
      rw [f9, hcd, hc]
      simp
      omega
    have hf : w.enemyFires m e = false := by
      rw [hfire, hover]
      rfl
    refine ⟨hf, Or.inr ?_⟩
    have he2 : e < ((w.patrolEnemy e).tickEnemyFlash e).nextId := by
      rw [f3, p3]
      exact he
    rw [hfire] at hf
    obtain ⟨-, h2⟩ := (World.shoot_and_tick m _ e he2).2 hf
    rw [hstep, h2, f9, hcd, hc]
    simp [hpos]

theorem World.enemyStep_enemies [LinearOrderedField α] (m : JSMath α) (w : World α)
    (e : Nat) : (w.enemyStep m e).enemies = w.enemies := by
  obtain ⟨-, -, -, -, p5, -⟩ := World.patrolEnemy_globals w e
  obtain ⟨-, -, -, -, f5, -⟩ := World.tickEnemyFlash_globals (w.patrolEnemy e) e
  rcases World.enemyStep_cases m w e with ⟨-, h0, -⟩ | ⟨-, h0, -⟩ | ⟨-, -, -, hstep, -⟩
  · rw [h0]
  · rw [h0, p5]
  · rw [hstep]
    obtain ⟨-, -, -, -, c5, -⟩ := World.tickEnemyCooldown_globals
      (((w.patrolEnemy e).tickEnemyFlash e).enemyShoot m e) e
    rw [c5]
    have hshoot : (((w.patrolEnemy e).tickEnemyFlash e).enemyShoot m e).enemies =
        ((w.patrolEnemy e).tickEnemyFlash e).enemies := by
      unfold World.enemyShoot
      dsimp only
      split_ifs <;> rfl
    rw [hshoot, f5, p5]

theorem World.enemySteps_enemies [LinearOrderedField α] (m : JSMath α) (l : List Nat)
    (w : World α) : (l.foldl (World.enemyStep m) w).enemies = w.enemies := by
  induction l generalizing w with
  | nil => rfl
  | cons x xs ih => rw [List.foldl_cons, ih, World.enemyStep_enemies]

theorem tame_restOfFrame [LinearOrderedField α] (m : JSMath α) (e : Nat) (u : World α) :
    Tame e u (((u.updatePlayer m).updateProjectiles m).updateFragments m) ∧
    Tame e u ((u.updateProjectiles m).updateFragments m) :=
  ⟨tame_comp (tame_updatePlayer m e u)
      (tame_comp (tame_updateProjectiles m e _) (tame_updateFragments m e _)),
    tame_comp (tame_updateProjectiles m e u) (tame_updateFragments m e _)⟩

theorem tame_gameLoop_of_idle [LinearOrderedField α] (m : JSMath α) (e : Nat) (w : World α)
    (h : w.crashed = true ∨ e ∉ w.enemies) : Tame e w (w.gameLoop m) := by
  unfold World.gameLoop
  by_cases hc : w.crashed = true
  · rw [if_pos hc]
    exact tame_refl e w
  · rw [if_neg hc]
    have hn : e ∉ w.enemies := by
      rcases h with h | h
      · exact absurd h hc
      · exact h
    have h1 : Tame e w (w.updateEnemies m) := tame_enemySteps m e w.enemies hn w
    split_ifs
    · exact tame_comp h1 (tame_restOfFrame m e _).1
    · exact tame_comp h1 (tame_restOfFrame m e _).2

theorem World.gameLoop_split [LinearOrderedField α] (m : JSMath α) (w : World α) (e : Nat)
    (hl : Lockstep w) (he : e ∈ w.enemies) (hnc : w.crashed = false) :
    Tame e w (w.updateEnemiesUpTo m (w.enemies.indexOf e)) ∧
    Lockstep (w.updateEnemiesUpTo m (w.enemies.indexOf e)) ∧
    (w.updateEnemiesUpTo m (w.enemies.indexOf e)).enemies = w.enemies ∧
    Tame e ((w.updateEnemiesUpTo m (w.enemies.indexOf e)).enemyStep m e) (w.gameLoop m) := by
  obtain ⟨pre, post, hsplit, hnot⟩ := List.eq_append_cons_of_mem he
  have hnd := hl.enemies_nodup
  rw [hsplit] at hnd
  have hpost : e ∉ post := by
    have h2 := (List.nodup_append.1 hnd).2.1
    exact (List.nodup_cons.1 h2).1
  have hidx : w.enemies.indexOf e = pre.length := by
    rw [hsplit, List.indexOf_append_of_not_mem hnot, List.indexOf_cons_self]
    rfl
  have hup : w.updateEnemiesUpTo m (w.enemies.indexOf e) = pre.foldl (World.enemyStep m) w := by
    unfold World.updateEnemiesUpTo
    rw [hidx, hsplit, List.take_left]
  rw [hup]
  have hall : w.updateEnemies m =
      post.foldl (World.enemyStep m) ((pre.foldl (World.enemyStep m) w).enemyStep m e) := by
    unfold World.updateEnemies
    rw [hsplit, List.foldl_append, List.foldl_cons]
  refine ⟨tame_enemySteps m e pre hnot w, Lockstep.after_enemySteps m pre hl,
    World.enemySteps_enemies m pre w, ?_⟩
  have h1 : Tame e ((pre.foldl (World.enemyStep m) w).enemyStep m e) (w.updateEnemies m) := by
    rw [hall]
    exact tame_enemySteps m e post hpost _
  unfold World.gameLoop
  rw [if_neg (by simp [hnc])]
  split_ifs
  · exact tame_comp h1 (tame_restOfFrame m e _).1
  · exact tame_comp h1 (tame_restOfFrame m e _).2

theorem World.gameLoop_nextId [LinearOrderedField α] (m : JSMath α) (w : World α)
    (hl : Lockstep w) : w.nextId ≤ (w.gameLoop m).nextId := by
  have hn : w.nextId ∉ w.enemies := fun h => by
    have := hl.bounded _ (hl.mem_scene _ (Or.inl h)).2
    omega
  exact (tame_gameLoop_of_idle m w.nextId w (Or.inr hn)).nextId

theorem cooling_of_tame [LinearOrderedField α] {e : Nat} {u v : World α} (c : Int)
    (h : Tame e u v) (he : e < u.nextId)
    (hq : u.crashed = true ∨ e ∉ u.enemies ∨ (u.store e).fireCooldown = some c) :
    v.crashed = true ∨ e ∉ v.enemies ∨ (v.store e).fireCooldown = some c := by
  rcases hq with hq | hq | hq
  · exact Or.inl (h.crashed hq)
  · exact Or.inr (Or.inl (fun hv => hq (h.enemies e hv)))
  · exact Or.inr (Or.inr (by rw [h.cooldown he, hq]))

theorem World.tick_cooling [LinearOrderedField α] (m : JSMath α) (w : World α) (e : Nat)
    (c : Int) (hl : Lockstep w) (he : e < w.nextId)
    (hq : w.crashed = true ∨ e ∉ w.enemies ∨ (w.store e).fireCooldown = some c)
    (hpos : 0 < c) :
    w.firesInTick m e = false ∧
    ((w.gameLoop m).crashed = true ∨ e ∉ (w.gameLoop m).enemies ∨
      ((w.gameLoop m).store e).fireCooldown = some (c - 1)) := by
  by_cases hmem : e ∈ w.enemies
  · by_cases hnc : w.crashed = true
    · constructor
      · have hup : (w.updateEnemiesUpTo m (w.enemies.indexOf e)).crashed = true := by
          unfold World.updateEnemiesUpTo
          exact (tame_enemySteps m (w.nextId) _ (fun hx => by
            have := hl.bounded _ (hl.mem_scene _ (Or.inl (List.mem_of_mem_take hx))).2
            omega) w).crashed hnc
        simp [World.firesInTick, World.enemyFires, hup]
      · exact Or.inl ((tame_gameLoop_of_idle m e w (Or.inl hnc)).crashed hnc)
    · have hnc' : w.crashed = false := by simpa using hnc
      obtain ⟨t1, l1, e1, t2⟩ := World.gameLoop_split m w e hl hmem hnc'
      have hcool : (w.store e).fireCooldown = some c := by
        rcases hq with hq | hq | hq
        · exact absurd hq hnc
        · exact absurd hmem hq
        · exact hq
      have he1 : e < (w.updateEnemiesUpTo m (w.enemies.indexOf e)).nextId :=
        lt_of_lt_of_le he t1.nextId
      have hs1 : e ∈ (w.updateEnemiesUpTo m (w.enemies.indexOf e)).sceneObjects :=
        (l1.mem_scene e (Or.inl (by rw [e1]; exact hmem))).2
      have hc1 : ((w.updateEnemiesUpTo m (w.enemies.indexOf e)).store e).fireCooldown = some c := by
        rw [t1.cooldown he, hcool]
      obtain ⟨hf, hstep⟩ := World.enemyStep_cooling m _ e c he1 hs1 hc1 hpos
      constructor
      · simp [World.firesInTick, hf]
      · have he2 : e < ((w.updateEnemiesUpTo m (w.enemies.indexOf e)).enemyStep m e).nextId :=
          lt_of_lt_of_le he1 (tame_enemyStep m (e + 1) _ e (by omega)).nextId
        refine cooling_of_tame (c - 1) t2 he2 ?_
        rcases hstep with h | h
        · exact Or.inl h
        · exact Or.inr (Or.inr h)
  · constructor
    · simp [World.firesInTick, hmem]
    · have t := tame_gameLoop_of_idle m e w (Or.inr hmem)
      exact Or.inr (Or.inl (fun hv => hmem (t.enemies e hv)))

theorem World.tick_fired [LinearOrderedField α] (m : JSMath α) (w : World α) (e : Nat)
    (hl : Lockstep w) (hf : w.firesInTick m e = true) :
    e ∈ w.enemies ∧ e < w.nextId ∧
    ((w.gameLoop m).crashed = true ∨ e ∉ (w.gameLoop m).enemies ∨
      ((w.gameLoop m).store e).fireCooldown = some 119) := by
  unfold World.firesInTick at hf
  rw [Bool.and_eq_true] at hf
  have hmem : e ∈ w.enemies := by simpa using hf.1
  have he : e < w.nextId := hl.bounded e (hl.mem_scene e (Or.inl hmem)).2
  refine ⟨hmem, he, ?_⟩
  by_cases hnc : w.crashed = true
  · exact Or.inl ((tame_gameLoop_of_idle m e w (Or.inl hnc)).crashed hnc)
  · have hnc' : w.crashed = false := by simpa using hnc
    obtain ⟨t1, -, -, t2⟩ := World.gameLoop_split m w e hl hmem hnc'
    have he1 : e < (w.updateEnemiesUpTo m (w.enemies.indexOf e)).nextId :=
      lt_of_lt_of_le he t1.nextId
    obtain ⟨h1, -, -, -⟩ := World.enemyStep_fired m _ e he1 hf.2
    have he2 : e < ((w.updateEnemiesUpTo m (w.enemies.indexOf e)).enemyStep m e).nextId :=
      lt_of_lt_of_le he1 (tame_enemyStep m (e + 1) _ e (by omega)).nextId
    exact cooling_of_tame 119 t2 he2 (Or.inr (Or.inr h1))

theorem World.frames_lockstep [LinearOrderedField α] (m : JSMath α) (w : World α)
    (hl : Lockstep w) (n : Nat) :
    Lockstep ((World.gameLoop m)^[n] w) ∧ w.nextId ≤ ((World.gameLoop m)^[n] w).nextId := by
  induction n with
  | zero => exact ⟨hl, le_refl _⟩
  | succ k ih =>
    rw [Function.iterate_succ_apply']
    exact ⟨Lockstep.after_gameLoop m ih.1, le_trans ih.2 (World.gameLoop_nextId m _ ih.1)⟩

theorem World.frames_cooling [LinearOrderedField α] (m : JSMath α) (w : World α) (e : Nat)
    (hl : Lockstep w) (hf : w.firesInTick m e = true) (j : Nat) (hj : j < 120) :
    ((World.gameLoop m)^[j + 1] w).crashed = true ∨
      e ∉ ((World.gameLoop m)^[j + 1] w).enemies ∨
      (((World.gameLoop m)^[j + 1] w).store e).fireCooldown = some (119 - (j : Int)) := by
  obtain ⟨-, he, h0⟩ := World.tick_fired m w e hl hf
  induction j with
  | zero => simpa using h0
  | succ k ih =>
    have ihk := ih (by omega)
    obtain ⟨lk, nk⟩ := World.frames_lockstep m w hl (k + 1)
    rw [Function.iterate_succ_apply']
    have h := (World.tick_cooling m _ e (119 - (k : Int)) lk (lt_of_lt_of_le he nk) ihk
      (by omega)).2
    have e1 : (119 - (k : Int)) - 1 = 119 - ((k + 1 : Nat) : Int) := by
      push_cast
      ring
    rw [e1] at h
    exact h

theorem World.tick_nonneg [LinearOrderedField α] (m : JSMath α) (w : World α) (e : Nat)
    (c : Int) (hl : Lockstep w) (he : e < w.nextId)
    (hc : (w.store e).fireCooldown = some c) (h0 : 0 ≤ c) :
    ∃ c2 : Int, ((w.gameLoop m).store e).fireCooldown = some c2 ∧ 0 ≤ c2 := by
  by_cases hidle : w.crashed = true ∨ e ∉ w.enemies
  · refine ⟨c, ?_, h0⟩
    rw [(tame_gameLoop_of_idle m e w hidle).cooldown he, hc]
  · push_neg at hidle
    have hnc : w.crashed = false := by simpa using hidle.1
    obtain ⟨t1, -, -, t2⟩ := World.gameLoop_split m w e hl hidle.2 hnc
    have he1 : e < (w.updateEnemiesUpTo m (w.enemies.indexOf e)).nextId :=
      lt_of_lt_of_le he t1.nextId
    have hc1 : ((w.updateEnemiesUpTo m (w.enemies.indexOf e)).store e).fireCooldown = some c := by
      rw [t1.cooldown he, hc]
    have he2 : e < ((w.updateEnemiesUpTo m (w.enemies.indexOf e)).enemyStep m e).nextId :=
      lt_of_lt_of_le he1 (tame_enemyStep m (e + 1) _ e (by omega)).nextId
    rw [t2.cooldown he2]
    cases hfire : (w.updateEnemiesUpTo m (w.enemies.indexOf e)).enemyFires m e with
    | true =>
      obtain ⟨h1, -⟩ := World.enemyStep_fired m _ e he1 hfire
      exact ⟨119, h1, by decide⟩
    | false =>
      obtain ⟨-, h1⟩ := World.enemyStep_held m _ e he1 hfire
      rcases h1 with h1 | ⟨c3, h3, hpos, h1⟩
      · exact ⟨c, by rw [h1, hc1], h0⟩
      · exact ⟨c3 - 1, h1, by omega⟩

theorem World.frames_nonneg [LinearOrderedField α] (m : JSMath α) (w : World α) (e : Nat)
    (c : Int) (hl : Lockstep w) (he : e < w.nextId)
    (hc : (w.store e).fireCooldown = some c) (h0 : 0 ≤ c) (n : Nat) :
    ∃ c2 : Int, (((World.gameLoop m)^[n] w).store e).fireCooldown = some c2 ∧ 0 ≤ c2 := by
  induction n with
  | zero => exact ⟨c, hc, h0⟩
  | succ k ih =>
    obtain ⟨c1, h1, h2⟩ := ih
    obtain ⟨lk, nk⟩ := World.frames_lockstep m w hl k
    rw [Function.iterate_succ_apply']
    exact World.tick_nonneg m _ e c1 lk (lt_of_lt_of_le he nk) h1 h2

theorem duelWorld_lockstep : Lockstep duelWorld := by
  refine ⟨?_, by decide, ?_, by decide⟩
  · intro id
    show ([2] : List Nat).count id + ([] : List Nat).count id + ([] : List Nat).count id =
      if 1 < id then ([0, 1, 2] : List Nat).count id else 0
    simp only [List.count_cons, List.count_nil, beq_iff_eq]
    split_ifs <;> omega
  · intro id hmem
    have h : id ∈ ([0, 1, 2] : List Nat) := hmem
    simp only [List.mem_cons, List.mem_singleton, List.not_mem_nil, or_false] at h
    show id < 3
    omega

/-- C25. In the loop body of `updateEnemies()` for an enemy `e` (allocated
before `nextId`), a projectile is added exactly when the body reaches
`fireEnemyProjectile(e)`; then the frame loop runs, `e` is in `sceneObjects`,
its `fireCooldown`, if a number, is 0, `canSeePlayer(e.position)` has returned
`true`, and the body leaves the cooldown at 119 (reset to 120 and decremented
in the same tick). With the arrays in lockstep (as in every reachable state):
if `e` fires in the frame that starts in state `w`, it fires in none of the
next 119 frames, so two shots are at least 120 frames apart; and a cooldown
that is a number `≥ 0` is a number `≥ 0` after any number of frames. -/
theorem enemy_shots_120_frames_apart [LinearOrderedField α] (m : JSMath α) (w : World α)
    (e : Nat) (hl : Lockstep w) :
    (∀ u : World α, e < u.nextId →
      (u.enemyStep m e).projectiles =
        (if u.enemyFires m e = true then u.projectiles ++ [u.nextId] else u.projectiles) ∧
      (u.enemyFires m e = true →
        u.crashed = false ∧ e ∈ u.sceneObjects ∧
        (∀ c, (u.store e).fireCooldown = some c → c = 0) ∧
        ((u.patrolEnemy e).tickEnemyFlash e).canSeePlayer m
          ((((u.patrolEnemy e).tickEnemyFlash e).store e).position) = true ∧
        ((u.enemyStep m e).store e).fireCooldown = some 119) ∧
      (u.enemyFires m e = false →
        ((u.enemyStep m e).store e).fireCooldown = (u.store e).fireCooldown ∨
        ∃ c, (u.store e).fireCooldown = some c ∧ 0 < c ∧
          ((u.enemyStep m e).store e).fireCooldown = some (c - 1))) ∧
    (w.firesInTick m e = true →
      ∀ j, 1 ≤ j → j ≤ 119 → ((World.gameLoop m)^[j] w).firesInTick m e = false) ∧
    (∀ c : Int, e < w.nextId → (w.store e).fireCooldown = some c → 0 ≤ c →
      ∀ n, ∃ c2 : Int, (((World.gameLoop m)^[n] w).store e).fireCooldown = some c2 ∧ 0 ≤ c2) := by
  refine ⟨?_, ?_, ?_⟩
  · intro u he
    refine ⟨?_, ?_, ?_⟩
    · by_cases hf : u.enemyFires m e = true
      · rw [if_pos hf]
        exact (World.enemyStep_fired m u e he hf).2.1
      · rw [if_neg hf]
        exact (World.enemyStep_held m u e he (by simpa using hf)).1
    · intro hf
      obtain ⟨h1, -, h3, h4⟩ := World.enemyStep_fired m u e he hf
      obtain ⟨-, -, -, -, -, -, -, -, f9⟩ := World.tickEnemyFlash_globals (u.patrolEnemy e) e
      have hcd : ((u.patrolEnemy e).store e).fireCooldown = (u.store e).fireCooldown :=
        (tame_patrolEnemy e u e).cooldown he
      rcases World.enemyStep_cases m u e with ⟨h0, -, -⟩ | ⟨h0, -, -⟩ | ⟨hc, hs, -, -, -⟩
      · rw [h0] at hf
        exact absurd hf (by simp)
      · rw [h0] at hf
        exact absurd hf (by simp)
      · refine ⟨hc, hs, ?_, h4, h1⟩
        intro c hcool
        unfold cooldownOver at h3
        rw [f9, hcd, hcool] at h3
        simpa using h3
    · intro hf
      exact (World.enemyStep_held m u e he hf).2
  · intro hf j h1 h119
    obtain ⟨-, he, -⟩ := World.tick_fired m w e hl hf
    obtain ⟨k, rfl⟩ : ∃ k, j = k + 1 := ⟨j - 1, by omega⟩
    have hq := World.frames_cooling m w e hl hf k (by omega)
    obtain ⟨lk, nk⟩ := World.frames_lockstep m w hl (k + 1)
    exact (World.tick_cooling m _ e (119 - (k : Int)) lk (lt_of_lt_of_le he nk) hq
      (by omega)).1
  · intro c he hc h0 n
    exact World.frames_nonneg m w e c hl he hc h0 n

/-- C25 witness: in the duel scene the enemy, 5 units from the player with
its cooldown at 0, fires in the first frame; its shot is the new object 3 and
its cooldown is 119 afterwards; it fires in none of the next 119 frames. -/
theorem enemy_shots_120_frames_apart_witness :
    Lockstep duelWorld ∧
    duelWorld.firesInTick sampleMath 2 = true ∧
    (duelWorld.enemyStep sampleMath 2).projectiles = [3] ∧
    ((duelWorld.enemyStep sampleMath 2).store 2).fireCooldown = some 119 ∧
    (∀ j, 1 ≤ j → j ≤ 119 →
      ((World.gameLoop sampleMath)^[j] duelWorld).firesInTick sampleMath 2 = false) ∧
    (∀ n, ∃ c2 : Int,
      (((World.gameLoop sampleMath)^[n] duelWorld).store 2).fireCooldown = some c2 ∧ 0 ≤ c2) :=
  ⟨duelWorld_lockstep, by decide!, by decide!, by decide!,
    (enemy_shots_120_frames_apart sampleMath duelWorld 2 duelWorld_lockstep).2.1 (by decide!),
    (enemy_shots_120_frames_apart sampleMath duelWorld 2 duelWorld_lockstep).2.2 0 (by decide)
      (by decide!) (by decide)⟩

end EnemyCooldownTheorems

end Kairos
